import Mathlib

/-!
The 3d-classroom repository: document surface, camera navigator, scene animation, frame loop

A shallow embedding of `src/js/PDFViewer.js`, `src/js/Controls.js`,
`src/js/Characters.js`, `src/js/Particles.js`, `src/js/Lighting.js`, the
helpers of `src/js/Utils.js` and `animate()` of `src/js/main.js`.  JavaScript
numbers are modelled by their values: page indices, counts and clock
readings as `Int` or `Nat`, geometry and times as `ℚ`.  Arithmetic is exact
except where a result depends on rounding: there the binary64 operations and
the stores into the `Float32Array` are modelled by `fl64` and `fl32`.
Objects of pdf.js and three.js that the classes talk to (document, page,
`OrbitControls`, `Math`) are modelled by the answers they give and are
parameters of the results.  Every `async` method is split at its `await`s
into a synchronous start and resumptions, and `requestAnimationFrame`
callbacks are kept in a queue, so that both the run-to-completion behaviour
of one call and interleavings of several calls can be stated.
-/

namespace Classroom

/-! ## Raster buffer -/

/-- One draw call whose result is visible in the raster buffer. -/
inductive Paint where
  | text (s : String) (font : String) (fillStyle : String) (x y : ℚ)
  | page (pageNum : Int) (width height : ℚ) (transform : List ℚ)
  deriving DecidableEq, Repr

/-- The canvas of `PDFViewer`: its size, the colour of the last `fillRect` that
covered the whole buffer, and what has been painted over that fill since
(oldest first). -/
structure Canvas where
  width : ℚ
  height : ℚ
  background : String
  paints : List Paint
  deriving DecidableEq, Repr

/-- The call `ctx.fillRect(0, 0, canvas.width, canvas.height)` with the given
`fillStyle`: the context has `alpha: false`, so the fill replaces the content. -/
def Canvas.fillRect (c : Canvas) (fillStyle : String) : Canvas :=
  { c with background := fillStyle, paints := [] }

/-- The call `ctx.fillText(s, x, y)` under the given font and fill style. -/
def Canvas.fillText (c : Canvas) (s font fillStyle : String) (x y : ℚ) : Canvas :=
  { c with paints := c.paints ++ [Paint.text s font fillStyle x y] }

/-- The page number of the page most recently rasterized into the buffer and
still in it, if any. -/
def Canvas.lastRasterized (c : Canvas) : Option Int :=
  c.paints.reverse.findSome? fun p =>
    match p with
    | Paint.page n _ _ _ => some n
    | Paint.text _ _ _ _ _ => none

/-! ## pdf.js objects -/

/-- How the promise of `page.render(renderContext)` settles; a rejected render
may already have painted something. -/
inductive RenderOutcome where
  | resolved
  | rejected (painted : List Paint)
  deriving DecidableEq, Repr

/-- A pdf.js page: the size of its viewport at scale 1 and how rendering it
settles. -/
structure Page where
  width : ℚ
  height : ℚ
  render : RenderOutcome
  deriving DecidableEq, Repr

/-- The viewport size returned by `page.getViewport({ scale })`. -/
def Page.getViewport (p : Page) (scale : ℚ) : ℚ × ℚ :=
  (p.width * scale, p.height * scale)

/-- A decoded pdf.js document: entry `k - 1` is what `getPage(k)` resolves to,
`none` when that promise rejects. -/
structure PDFDoc where
  pages : List (Option Page)
  deriving DecidableEq, Repr

/-- The property `pdfDoc.numPages`. -/
def PDFDoc.numPages (d : PDFDoc) : Nat := d.pages.length

/-- The call `pdfDoc.getPage(pageNum)`: rejects outside `1..numPages`. -/
def PDFDoc.getPage (d : PDFDoc) (pageNum : Int) : Option Page :=
  if 1 ≤ pageNum ∧ pageNum ≤ (d.numPages : Int) then
    (d.pages.get? (pageNum - 1).toNat).join
  else none

/-- An entry of `event.target.files`: its declared MIME type, its name and what
reading and decoding it yields (`none` when `file.arrayBuffer()` or the
`getDocument` promise rejects). -/
structure File where
  type : String
  name : String
  decode : Option PDFDoc
  deriving DecidableEq, Repr

/-! ## Viewer state -/

/-- Calls that leave the viewer, in the order issued. -/
inductive Effect where
  | alert (msg : String)
  | consoleError (msg : String)
  | arrayBuffer (fileName : String)
  | getPage (pageNum : Int)
  | pageRender (pageNum : Int)
  deriving DecidableEq, Repr

/-- The DOM elements `setupUI` looks up and the viewer writes to. -/
structure UI where
  pageInfo : String
  prevDisabled : Bool
  nextDisabled : Bool
  pdfFilename : String
  pdfInfoHidden : Bool
  deriving DecidableEq, Repr

/-- The mutable fields of a `PDFViewer` instance; `needsUpdate` is
`texture.needsUpdate`, `effects` records the calls made to the outside. -/
structure PDFViewer where
  pdfDoc : Option PDFDoc
  currentPage : Int
  totalPages : Int
  pageRendering : Bool
  canvas : Canvas
  needsUpdate : Bool
  ui : UI
  effects : List Effect
  deriving DecidableEq, Repr

namespace PDFViewer

/-- Appends one outside call to the record. -/
def emit (v : PDFViewer) (e : Effect) : PDFViewer :=
  { v with effects := v.effects ++ [e] }

/-- Source: `renderBlankCanvas()`. -/
def renderBlankCanvas (v : PDFViewer) : PDFViewer :=
  let c0 := v.canvas.fillRect "#FFFFFF"
  let c1 := c0.fillText "Upload a PDF to view" "bold 48px Arial" "#333333"
    (c0.width / 2) (c0.height / 2 - 50)
  let c2 := c1.fillText "Click \"Upload PDF\" button" "32px Arial" "#666666"
    (c1.width / 2) (c1.height / 2 + 30)
  { v with canvas := c2, needsUpdate := true }

/-- Source: `renderLoadingCanvas()`. -/
def renderLoadingCanvas (v : PDFViewer) : PDFViewer :=
  let c0 := v.canvas.fillRect "#F0F0F0"
  let c1 := c0.fillText "Loading PDF..." "bold 60px Arial" "#333333"
    (c0.width / 2) (c0.height / 2)
  { v with canvas := c1, needsUpdate := true }

/-- Source: the constructor, given the DOM it finds: a 1920×1440 canvas, no
document, page 1 of 0, and the blank placeholder painted. -/
def new (ui : UI) : PDFViewer :=
  renderBlankCanvas
    { pdfDoc := none
      currentPage := 1
      totalPages := 0
      pageRendering := false
      canvas := { width := 1920, height := 1440, background := "#000000", paints := [] }
      needsUpdate := true
      ui := ui
      effects := [] }

/-- Source: `updatePageInfo()`. -/
def updatePageInfo (v : PDFViewer) : PDFViewer :=
  if v.pdfDoc.isSome then
    { v with ui :=
        { v.ui with
          pageInfo := "Page " ++ toString v.currentPage ++ " / " ++ toString v.totalPages
          prevDisabled := decide (v.currentPage ≤ 1)
          nextDisabled := decide (v.currentPage ≥ v.totalPages) } }
  else v

end PDFViewer

/-- A `renderPage` call suspended at one of its two `await`s: on the promise
of `getPage` (with the answer it will give), or on the promise of
`page.render` (with the viewport size and transform handed to it). -/
inductive RenderTask where
  | awaitingPage (result : Option Page) (pageNum : Int)
  | awaitingRender (page : Page) (pageNum : Int) (viewport : ℚ × ℚ) (transform : List ℚ)
  deriving DecidableEq, Repr

namespace PDFViewer

/-- Source: the `catch` block of `renderPage`. -/
def renderPageCatch (v : PDFViewer) : PDFViewer :=
  { v.emit (Effect.consoleError "Error rendering page:") with pageRendering := false }

/-- Source: `renderPage(pageNum)` up to its first `await`: the single-flight
guard, the flag, and the page request (a `TypeError` caught at once when no
document is loaded). -/
def renderPageStart (v : PDFViewer) (pageNum : Int) : PDFViewer × Option RenderTask :=
  if v.pageRendering then (v, none)
  else
    let v1 := { v with pageRendering := true }
    match v1.pdfDoc with
    | none => (v1.renderPageCatch, none)
    | some d =>
      (v1.emit (Effect.getPage pageNum), some (RenderTask.awaitingPage (d.getPage pageNum) pageNum))

/-- The uniform scale `Math.min(canvas.width / viewport.width,
canvas.height / viewport.height)` of `renderPage`, in exact arithmetic
(`fitScale64` is the same expression with the rounding of binary64). -/
def fitScale (c : Canvas) (p : Page) : ℚ :=
  min (c.width / (p.getViewport 1).1) (c.height / (p.getViewport 1).2)

/-- The offsets `offsetX`, `offsetY` of `renderPage` for a scaled viewport, in
exact arithmetic (`fitOffset64` is the same with the rounding of binary64). -/
def fitOffset (c : Canvas) (scaled : ℚ × ℚ) : ℚ × ℚ :=
  ((c.width - scaled.1) / 2, (c.height - scaled.2) / 2)

/-- Source: `renderPage` from one settled `await` to the next suspension or to
its end. -/
def renderPageResume (v : PDFViewer) (t : RenderTask) : PDFViewer × Option RenderTask :=
  match t with
  | RenderTask.awaitingPage none _ => (v.renderPageCatch, none)
  | RenderTask.awaitingPage (some page) pageNum =>
    let scale := fitScale v.canvas page
    let scaledViewport := page.getViewport scale
    let offset := fitOffset v.canvas scaledViewport
    let v1 := { v with canvas := v.canvas.fillRect "#FFFFFF" }
    (v1.emit (Effect.pageRender pageNum),
      some (RenderTask.awaitingRender page pageNum scaledViewport
        [1, 0, 0, 1, offset.1, offset.2]))
  | RenderTask.awaitingRender page pageNum viewport transform =>
    match page.render with
    | RenderOutcome.resolved =>
      let c := { v.canvas with
        paints := v.canvas.paints ++ [Paint.page pageNum viewport.1 viewport.2 transform] }
      ({ v with canvas := c, needsUpdate := true, pageRendering := false }, none)
    | RenderOutcome.rejected painted =>
      let c := { v.canvas with paints := v.canvas.paints ++ painted }
      ({ v with canvas := c }.renderPageCatch, none)

/-- Runs a started render to its end with nothing else interleaved (a render
suspends at most twice). -/
def finish (r : PDFViewer × Option RenderTask) : PDFViewer :=
  match r with
  | (v, none) => v
  | (v, some t) =>
    match v.renderPageResume t with
    | (v1, none) => v1
    | (v1, some t1) => (v1.renderPageResume t1).1

/-- Source: `renderPage(pageNum)`, run to completion. -/
def renderPage (v : PDFViewer) (pageNum : Int) : PDFViewer :=
  finish (v.renderPageStart pageNum)

/-- Source: `previousPage()` up to the first `await` of its render. -/
def previousPageStart (v : PDFViewer) : PDFViewer × Option RenderTask :=
  if v.currentPage ≤ 1 then (v, none)
  else
    let v1 := updatePageInfo { v with currentPage := v.currentPage - 1 }
    v1.renderPageStart v1.currentPage

/-- Source: `nextPage()` up to the first `await` of its render. -/
def nextPageStart (v : PDFViewer) : PDFViewer × Option RenderTask :=
  if v.currentPage ≥ v.totalPages then (v, none)
  else
    let v1 := updatePageInfo { v with currentPage := v.currentPage + 1 }
    v1.renderPageStart v1.currentPage

/-- Source: `previousPage()`, run to completion. -/
def previousPage (v : PDFViewer) : PDFViewer := finish v.previousPageStart

/-- Source: `nextPage()`, run to completion. -/
def nextPage (v : PDFViewer) : PDFViewer := finish v.nextPageStart

/-- Source: `handleFileSelect(event)` up to its first `await`, for
`event.target.files[0]`: the MIME check, then the loading placeholder and the
call `file.arrayBuffer()`; returns the file whose decoding is awaited, if any. -/
def handleFileSelectStart (v : PDFViewer) (file : Option File) : PDFViewer × Option File :=
  match file with
  | none => (v.emit (Effect.alert "Please select a valid PDF file"), none)
  | some f =>
    if f.type ≠ "application/pdf" then
      (v.emit (Effect.alert "Please select a valid PDF file"), none)
    else
      (v.renderLoadingCanvas.emit (Effect.arrayBuffer f.name), some f)

/-- Source: `handleFileSelect` once `file.arrayBuffer()` and the `getDocument`
promise have settled (the viewer is not touched between the two), up to the
first `await` of the render it starts, or through its `catch` block. -/
def handleFileSelectResume (v : PDFViewer) (f : File) : PDFViewer × Option RenderTask :=
  match f.decode with
  | some doc =>
    let v1 := { v with pdfDoc := some doc, totalPages := (doc.numPages : Int), currentPage := 1 }
    let v2 := { v1 with ui := { v1.ui with pdfFilename := f.name, pdfInfoHidden := false } }
    let v3 := v2.updatePageInfo
    v3.renderPageStart v3.currentPage
  | none =>
    let v1 := (v.emit (Effect.consoleError "Error loading PDF:")).emit
      (Effect.alert "Error loading PDF file")
    (v1.renderBlankCanvas, none)

/-- Source: `handleFileSelect(event)`, run to completion. -/
def handleFileSelect (v : PDFViewer) (file : Option File) : PDFViewer :=
  match v.handleFileSelectStart file with
  | (v1, none) => v1
  | (v1, some f) => finish (v1.handleFileSelectResume f)

/-- The methods that may be called on a viewer once a document is loaded. -/
inductive Call where
  | nextPage
  | previousPage
  | renderPage (pageNum : Int)
  deriving DecidableEq, Repr

/-- One call, run to completion. -/
def call (v : PDFViewer) (c : Call) : PDFViewer :=
  match c with
  | Call.nextPage => v.nextPage
  | Call.previousPage => v.previousPage
  | Call.renderPage n => v.renderPage n

/-- The data-model invariant on the page index. -/
def PageInRange (v : PDFViewer) : Prop :=
  1 ≤ v.currentPage ∧ v.currentPage ≤ v.totalPages

end PDFViewer

/-! ## Listeners and interleavings -/

/-- What the user can do to the listeners registered by `setupUI`. -/
inductive UserAction where
  | upload (file : Option File)
  | prevClick
  | nextClick
  | keydown (key : String)
  deriving DecidableEq, Repr

namespace PDFViewer

/-- Source: the listeners of `setupUI`, each up to the first `await` of the
method it calls; returns a newly awaited decode and a newly awaited render. -/
def listenStart (v : PDFViewer) (a : UserAction) : PDFViewer × Option File × Option RenderTask :=
  match a with
  | UserAction.upload file =>
    let r := v.handleFileSelectStart file
    (r.1, r.2, none)
  | UserAction.prevClick =>
    let r := v.previousPageStart
    (r.1, none, r.2)
  | UserAction.nextClick =>
    let r := v.nextPageStart
    (r.1, none, r.2)
  | UserAction.keydown key =>
    if v.pdfDoc.isSome then
      if key = "ArrowLeft" then
        let r := v.previousPageStart
        (r.1, none, r.2)
      else if key = "ArrowRight" then
        let r := v.nextPageStart
        (r.1, none, r.2)
      else (v, none, none)
    else (v, none, none)

/-- One listener invocation run to completion before anything else happens. -/
def listen (v : PDFViewer) (a : UserAction) : PDFViewer :=
  match v.listenStart a with
  | (v1, none, t) => finish (v1, t)
  | (v1, some f, _) => finish (v1.handleFileSelectResume f)

end PDFViewer

/-- The viewer together with the promises it is waiting on. -/
structure Sys where
  viewer : PDFViewer
  decoding : List File
  rendering : List RenderTask
  deriving DecidableEq, Repr

/-- What the event loop can deliver next: a user action, the settling of the
`i`-th awaited decode, or the settling of the `i`-th awaited render promise. -/
inductive Event where
  | user (a : UserAction)
  | decodeSettles (i : Nat)
  | renderSettles (i : Nat)
  deriving DecidableEq, Repr

namespace Sys

/-- The system right after construction. -/
def init (ui : UI) : Sys :=
  { viewer := PDFViewer.new ui, decoding := [], rendering := [] }

/-- Delivers one event; settling a promise that is not awaited does nothing. -/
def step (s : Sys) (e : Event) : Sys :=
  match e with
  | Event.user a =>
    let r := s.viewer.listenStart a
    { viewer := r.1
      decoding := s.decoding ++ r.2.1.toList
      rendering := s.rendering ++ r.2.2.toList }
  | Event.decodeSettles i =>
    match s.decoding.get? i with
    | none => s
    | some f =>
      let r := s.viewer.handleFileSelectResume f
      { viewer := r.1
        decoding := s.decoding.eraseIdx i
        rendering := s.rendering ++ r.2.toList }
  | Event.renderSettles i =>
    match s.rendering.get? i with
    | none => s
    | some t =>
      let r := s.viewer.renderPageResume t
      { viewer := r.1
        decoding := s.decoding
        rendering := s.rendering.eraseIdx i ++ r.2.toList }

/-- Delivers a sequence of events, in order. -/
def run (s : Sys) (es : List Event) : Sys := es.foldl step s

end Sys

/-! ## Numbers shared by the scene components -/

/-- The transcendental part of the JavaScript `Math` object, as functions on
the (rational) values of numbers: `Math.PI`, `Math.sin`, `Math.sqrt`.  They
are not code of this repository; every result holds for any such functions. -/
structure JSMath where
  pi : ℚ
  sin : ℚ → ℚ
  sqrt : ℚ → ℚ

/-- A three.js `Vector3`. -/
structure Vector3 where
  x : ℚ
  y : ℚ
  z : ℚ
  deriving DecidableEq, Repr

namespace Vector3

/-- The three.js method `lerpVectors(v1, v2, alpha)`. -/
def lerpVectors (v1 v2 : Vector3) (alpha : ℚ) : Vector3 :=
  { x := v1.x + (v2.x - v1.x) * alpha
    y := v1.y + (v2.y - v1.y) * alpha
    z := v1.z + (v2.z - v1.z) * alpha }

/-- The three.js method `add(v)`. -/
def add (a b : Vector3) : Vector3 := { x := a.x + b.x, y := a.y + b.y, z := a.z + b.z }

/-- The three.js method `multiplyScalar(s)`. -/
def multiplyScalar (a : Vector3) (s : ℚ) : Vector3 := { x := a.x * s, y := a.y * s, z := a.z * s }

/-- The three.js method `length()`. -/
def length (m : JSMath) (a : Vector3) : ℚ := m.sqrt (a.x * a.x + a.y * a.y + a.z * a.z)

/-- The three.js method `normalize()`, that is `divideScalar(length() || 1)`. -/
def normalize (m : JSMath) (a : Vector3) : Vector3 :=
  a.multiplyScalar (1 / (if a.length m = 0 then 1 else a.length m))

end Vector3

/-- A three.js `Box3`, as `setFromObject` returns it. -/
structure Box3 where
  min : Vector3
  max : Vector3
  deriving DecidableEq, Repr

namespace Box3

/-- The three.js method `isEmpty()`. -/
def isEmpty (b : Box3) : Bool :=
  decide (b.max.x < b.min.x) || decide (b.max.y < b.min.y) || decide (b.max.z < b.min.z)

/-- The three.js method `getCenter(target)`. -/
def getCenter (b : Box3) : Vector3 :=
  if b.isEmpty then { x := 0, y := 0, z := 0 }
  else (b.min.add b.max).multiplyScalar (1 / 2)

/-- The three.js method `getSize(target)`. -/
def getSize (b : Box3) : Vector3 :=
  if b.isEmpty then { x := 0, y := 0, z := 0 }
  else { x := b.max.x - b.min.x, y := b.max.y - b.min.y, z := b.max.z - b.min.z }

end Box3

/-! ## Camera navigator (`src/js/Controls.js`) -/

/-- What the navigator and the orbit control both read and write:
`camera.position` and `controls.target`. -/
structure Pose where
  position : Vector3
  target : Vector3
  deriving DecidableEq, Repr

/-- The three.js `OrbitControls` instance as the navigator sees it: an internal
state (pending pointer input, damping) and `update()`, which rewrites the
camera position and its own target.  It is not code of this repository; every
result holds for any such `update`. -/
structure OrbitControls where
  State : Type
  update : State → Pose → State × Pose

/-- The field `cameraBounds`. -/
structure CameraBounds where
  minX : ℚ
  maxX : ℚ
  minY : ℚ
  maxY : ℚ
  minZ : ℚ
  maxZ : ℚ
  deriving DecidableEq, Repr

/-- The fields of a `CameraControls` instance that its methods read or write,
with the camera's `fov` and the state of its `OrbitControls`. -/
structure CameraControls (O : OrbitControls) where
  pose : Pose
  orbit : O.State
  fov : ℚ
  defaultPosition : Vector3
  defaultTarget : Vector3
  boardPosition : Vector3
  boardTarget : Vector3
  cameraBounds : Option CameraBounds

/-- The closure `animate` of one `animateCamera` call: the poses and the start
time it captured. -/
structure Transition where
  startPosition : Vector3
  startTarget : Vector3
  targetPosition : Vector3
  targetLookAt : Vector3
  startTime : Int
  deriving DecidableEq, Repr

/-- Source: `progress` in `animate`, at the clock reading `now` (milliseconds,
`duration = 1500`). -/
def Transition.progress (tr : Transition) (now : Int) : ℚ :=
  min (((now - tr.startTime : Int) : ℚ) / 1500) 1

/-- Source: `eased` in `animate`, the ease-in-out quadratic. -/
def eased (progress : ℚ) : ℚ :=
  if progress < 1 / 2 then 2 * progress * progress
  else 1 - (-2 * progress + 2) ^ 2 / 2

/-- Source: the two `lerpVectors` writes of `animate`, to `camera.position` and
`controls.target`. -/
def Transition.write (tr : Transition) (now : Int) : Pose :=
  { position := tr.startPosition.lerpVectors tr.targetPosition (eased (tr.progress now))
    target := tr.startTarget.lerpVectors tr.targetLookAt (eased (tr.progress now)) }

namespace CameraControls

variable {O : OrbitControls}

/-- The call `this.controls.update()`. -/
def controlsUpdate (c : CameraControls O) : CameraControls O :=
  { c with orbit := (O.update c.orbit c.pose).1, pose := (O.update c.orbit c.pose).2 }

/-- The bounds set by `init()`. -/
def roomBounds : CameraBounds :=
  { minX := -9, maxX := 9, minY := 1 / 2, maxY := 7 / 2, minZ := -7, maxZ := 7 }

/-- Source: the constructor with `init()`, for a camera of the given `fov` and
a fresh orbit control. -/
def new (O : OrbitControls) (fov : ℚ) (orbit : O.State) : CameraControls O :=
  controlsUpdate
    { pose := { position := { x := 0, y := 4, z := 12 }, target := { x := 0, y := 2, z := -5 } }
      orbit := orbit
      fov := fov
      defaultPosition := { x := 0, y := 4, z := 12 }
      defaultTarget := { x := 0, y := 2, z := -5 }
      boardPosition := { x := 0, y := 5 / 2, z := -2 }
      boardTarget := { x := 0, y := 5 / 2, z := -73 / 10 }
      cameraBounds := some roomBounds }

/-- Source: `update()`, called by the frame loop. -/
def update (c : CameraControls O) : CameraControls O :=
  let c1 := c.controlsUpdate
  match c1.cameraBounds with
  | some b =>
    { c1 with pose :=
        { c1.pose with position :=
            { x := max b.minX (min b.maxX c1.pose.position.x)
              y := max b.minY (min b.maxY c1.pose.position.y)
              z := max b.minZ (min b.maxZ c1.pose.position.z) } } }
  | none => c1

end CameraControls

/-- The navigator together with the `animate` closures handed to
`requestAnimationFrame` and not yet run, in the order they were handed over. -/
structure CameraSys (O : OrbitControls) where
  controls : CameraControls O
  raf : List Transition

namespace CameraSys

variable {O : OrbitControls}

/-- Source: one run of the closure `animate` at the clock reading `now`. -/
def animate (s : CameraSys O) (tr : Transition) (now : Int) : CameraSys O :=
  let c1 : CameraControls O := { s.controls with pose := tr.write now }
  let c2 := c1.controlsUpdate
  if tr.progress now < 1 then { controls := c2, raf := s.raf ++ [tr] }
  else { controls := c2, raf := s.raf }

/-- Source: `animateCamera(targetPosition, targetLookAt)`; `startNow` is the
clock reading taken for `startTime`, `now` the one taken by the first run of
`animate`, made at once. -/
def animateCamera (s : CameraSys O) (targetPosition targetLookAt : Vector3)
    (startNow now : Int) : CameraSys O :=
  s.animate
    { startPosition := s.controls.pose.position
      startTarget := s.controls.pose.target
      targetPosition := targetPosition
      targetLookAt := targetLookAt
      startTime := startNow } now

/-- Source: `resetCamera(animate)`. -/
def resetCamera (s : CameraSys O) (animated : Bool) (startNow now : Int) : CameraSys O :=
  if animated then
    s.animateCamera s.controls.defaultPosition s.controls.defaultTarget startNow now
  else
    let c1 : CameraControls O :=
      { s.controls with
        pose := { position := s.controls.defaultPosition, target := s.controls.defaultTarget } }
    { s with controls := c1.controlsUpdate }

/-- Source: `focusBoard(animate)`. -/
def focusBoard (s : CameraSys O) (animated : Bool) (startNow now : Int) : CameraSys O :=
  if animated then
    s.animateCamera s.controls.boardPosition s.controls.boardTarget startNow now
  else
    let c1 : CameraControls O :=
      { s.controls with
        pose := { position := s.controls.boardPosition, target := s.controls.boardTarget } }
    { s with controls := c1.controlsUpdate }

/-- Source: `cameraDistance` in `focusOnObject`, for the bounding box of the
object. -/
def cameraDistance (m : JSMath) (fov : ℚ) (box : Box3) (distance : ℚ) : ℚ :=
  let size := box.getSize
  let maxDim := max (max size.x size.y) size.z
  let fovRad := fov * (m.pi / 180)
  |maxDim / m.sin (fovRad / 2)| * distance

/-- Source: `targetPosition` in `focusOnObject`. -/
def focusPosition (m : JSMath) (fov : ℚ) (box : Box3) (distance : ℚ) : Vector3 :=
  let direction := Vector3.normalize m { x := 0, y := 3 / 10, z := 1 }
  box.getCenter.add (direction.multiplyScalar (cameraDistance m fov box distance))

/-- Source: `focusOnObject(object, distance)`, given the bounding box that
`Box3().setFromObject(object)` returns. -/
def focusOnObject (m : JSMath) (s : CameraSys O) (box : Box3) (distance : ℚ)
    (startNow now : Int) : CameraSys O :=
  s.animateCamera (focusPosition m s.controls.fov box distance) box.getCenter startNow now

/-- One display frame: the browser runs the callbacks handed over before the
frame, in order; what they hand over is kept for the next frame.  Every
callback of the frame is taken to read the same clock value `now`
(`frameWith` gives each callback its own reading). -/
def frame (s : CameraSys O) (now : Int) : CameraSys O :=
  s.raf.foldl (fun acc tr => acc.animate tr now) { s with raf := [] }

/-- A sequence of display frames at the given clock readings. -/
def frames (s : CameraSys O) (nows : List Int) : CameraSys O := nows.foldl frame s

end CameraSys

/-- An orbit control with no pending input and a pose inside its limits:
`update()` leaves the pose as it finds it. -/
def idleOrbit : OrbitControls := { State := Unit, update := fun _ p => ((), p) }

/-- A rational stand-in for `Math` in the concrete instances: 355/113 for π,
the degree-5 Taylor polynomial for the sine, two Newton steps for the root. -/
def approxMath : JSMath :=
  { pi := 355 / 113
    sin := fun x => x - x ^ 3 / 6 + x ^ 5 / 120
    sqrt := fun x =>
      let r1 := (1 + x) / 2
      (r1 + x / r1) / 2 }

/-- The navigator as constructed for the application's camera (`fov = 60`),
with an idle orbit control and nothing scheduled. -/
def idleSys : CameraSys idleOrbit :=
  { controls := CameraControls.new idleOrbit 60 (), raf := [] }

/-- A transition from the origin to the point (1, 0, 0), started at time 0. -/
def unitTransition : Transition :=
  { startPosition := { x := 0, y := 0, z := 0 }
    startTarget := { x := 0, y := 0, z := 0 }
    targetPosition := { x := 1, y := 0, z := 0 }
    targetLookAt := { x := 1, y := 0, z := 0 }
    startTime := 0 }

/-- The bounding box of an object with no extent, at the teacher's place. -/
def pointBox : Box3 :=
  { min := { x := 2, y := 0, z := -13 / 2 }, max := { x := 2, y := 0, z := -13 / 2 } }

/-! ## Characters (`src/js/Characters.js`) -/

/-- A child mesh of a character group, as far as `update` touches it. -/
structure Limb where
  rotationX : ℚ
  deriving DecidableEq, Repr

/-- A student group: its position and yaw, its child meshes (head first) and
the `userData` chosen by `createStudents`. -/
structure Student where
  position : Vector3
  rotationY : ℚ
  children : List Limb
  baseY : ℚ
  swaySpeed : ℚ
  swayAmount : ℚ
  swayOffset : ℚ
  deriving DecidableEq, Repr

/-- The teacher group: its position and yaw, its child meshes (head, torso,
left arm, right arm, ...) and the `userData` set by `createTeacher`. -/
structure Teacher where
  position : Vector3
  rotationY : ℚ
  children : List Limb
  baseRotation : ℚ
  gestureSpeed : ℚ
  gestureAmount : ℚ
  deriving DecidableEq, Repr

/-- The fields `students` and `teacher` of a `Characters` instance. -/
structure Characters where
  students : List Student
  teacher : Option Teacher
  deriving DecidableEq, Repr

/-- Source: the body of `students.forEach` in `Characters.update(time)`. -/
def Student.update (m : JSMath) (time : ℚ) (st : Student) : Student :=
  { st with
    position :=
      { st.position with
        y := st.baseY + m.sin (time * st.swaySpeed + st.swayOffset) * st.swayAmount }
    children :=
      match st.children with
      | head :: rest =>
        { head with
          rotationX := m.sin (time * st.swaySpeed * (7 / 10) + st.swayOffset) * (1 / 20) } :: rest
      | [] => [] }

/-- Source: the `if (this.teacher)` block of `Characters.update(time)`; the
right arm is `children[3]`. -/
def Teacher.update (m : JSMath) (time : ℚ) (te : Teacher) : Teacher :=
  { te with
    rotationY := te.baseRotation + m.sin (time * te.gestureSpeed) * te.gestureAmount
    children :=
      match te.children with
      | c0 :: c1 :: c2 :: arm :: rest =>
        c0 :: c1 :: c2 ::
          { arm with rotationX := m.sin (time * te.gestureSpeed * (6 / 5)) * (3 / 10) } :: rest
      | other => other }

/-- Source: `Characters.update(time)`. -/
def Characters.update (m : JSMath) (c : Characters) (time : ℚ) : Characters :=
  { students := c.students.map (Student.update m time)
    teacher := c.teacher.map (Teacher.update m time) }

/-! ## Particle effects (`src/js/Particles.js`) -/

/-- One dust particle: its three entries of the position array and its entry
of `userData.velocities`. -/
structure DustParticle where
  position : Vector3
  velocity : Vector3
  deriving DecidableEq, Repr

/-- A floating book: its position and rotation, and its `userData`. -/
structure Book where
  position : Vector3
  rotation : Vector3
  speed : ℚ
  radius : ℚ
  offset : ℚ
  deriving DecidableEq, Repr

/-- An entry of `this.particles`: the points object named `DustParticles`
(with the `needsUpdate` flag of its position attribute) or the group named
`FloatingBooks`. -/
inductive Particle where
  | dustParticles (dust : List DustParticle) (needsUpdate : Bool)
  | floatingBooks (children : List Book)
  deriving DecidableEq, Repr

/-- The field `particles` of a `ParticleEffects` instance. -/
structure ParticleEffects where
  particles : List Particle
  deriving DecidableEq, Repr

/-- Source: the body of the `for` loop over dust particles in
`ParticleEffects.update`, in exact arithmetic (`DustParticle.stepStored` is the
same loop body with the positions rounded by the `Float32Array`). -/
def DustParticle.step (d : DustParticle) : DustParticle :=
  let x := d.position.x + d.velocity.x
  let y := d.position.y + d.velocity.y
  let z := d.position.z + d.velocity.z
  { position := { x := x, y := if y > 4 then 0 else y, z := z }
    velocity :=
      { x := if |x| > 10 then d.velocity.x * -1 else d.velocity.x
        y := d.velocity.y
        z := if |z| > 15 / 2 then d.velocity.z * -1 else d.velocity.z } }

/-- Source: the body of `particle.children.forEach` for the floating books. -/
def Book.update (m : JSMath) (elapsedTime : ℚ) (b : Book) : Book :=
  { b with
    position :=
      { b.position with
        y := b.position.y + m.sin (elapsedTime * b.speed + b.offset) * (1 / 1000) }
    rotation :=
      { b.rotation with x := b.rotation.x + 1 / 500, y := b.rotation.y + 3 / 1000 } }

/-- Source: the body of `this.particles.forEach` in `ParticleEffects.update`. -/
def Particle.update (m : JSMath) (elapsedTime : ℚ) (p : Particle) : Particle :=
  match p with
  | Particle.dustParticles dust _ => Particle.dustParticles (dust.map DustParticle.step) true
  | Particle.floatingBooks children =>
    Particle.floatingBooks (children.map (Book.update m elapsedTime))

/-- Source: `ParticleEffects.update(elapsedTime)`. -/
def ParticleEffects.update (m : JSMath) (pe : ParticleEffects) (elapsedTime : ℚ) :
    ParticleEffects :=
  { particles := pe.particles.map (Particle.update m elapsedTime) }

/-- All dust particles of the effects, in order. -/
def ParticleEffects.dust (pe : ParticleEffects) : List DustParticle :=
  (pe.particles.map fun p =>
    match p with
    | Particle.dustParticles dust _ => dust
    | Particle.floatingBooks _ => []).flatten

/-- All floating books of the effects, in order. -/
def ParticleEffects.books (pe : ParticleEffects) : List Book :=
  (pe.particles.map fun p =>
    match p with
    | Particle.dustParticles _ _ => []
    | Particle.floatingBooks children => children).flatten

/-- A book after `update` calls at the given times, in closed form. -/
def Book.after (m : JSMath) (times : List ℚ) (b : Book) : Book :=
  { b with
    position :=
      { b.position with
        y := b.position.y +
          (times.map fun t => m.sin (t * b.speed + b.offset) * (1 / 1000)).sum }
    rotation :=
      { b.rotation with
        x := b.rotation.x + (times.length : ℚ) * (1 / 500)
        y := b.rotation.y + (times.length : ℚ) * (3 / 1000) } }

/-- Effects with one dust particle rising from the floor and one book. -/
def smallEffects : ParticleEffects :=
  { particles :=
      [Particle.dustParticles
          [{ position := { x := 0, y := 0, z := 0 }, velocity := { x := 0, y := 1 / 100, z := 0 } }]
          false,
        Particle.floatingBooks
          [{ position := { x := 0, y := 2, z := 0 }, rotation := { x := 0, y := 0, z := 0 },
             speed := 1 / 5, radius := 3 / 10, offset := 0 }]] }

/-! ## Utilities (`src/js/Utils.js`) -/

/-- Source: `clamp(value, min, max)`. -/
def clamp (value min max : ℚ) : ℚ := Min.min (Max.max value min) max

/-- Source: `randomColor(palette)`, for the value `random` that `Math.random()`
returns; `none` is `undefined`, the result of indexing past the array. -/
def randomColor (palette : List String) (random : ℚ) : Option String :=
  let index := Int.floor (random * (palette.length : ℚ))
  if 0 ≤ index then palette.get? index.toNat else none

/-- The function `Math.round`: the nearest integer, halves going up. -/
def jsRound (x : ℚ) : Int := Int.floor (x + 1 / 2)

/-- The fields of an `FPSCounter`; `updateCallback` tells whether a callback
was given. -/
structure FPSCounter where
  fps : Int
  frames : Nat
  lastTime : ℚ
  updateCallback : Bool
  deriving DecidableEq, Repr

namespace FPSCounter

/-- Source: the constructor, at the reading `now` of `performance.now()`. -/
def new (now : ℚ) (updateCallback : Bool) : FPSCounter :=
  { fps := 60, frames := 0, lastTime := now, updateCallback := updateCallback }

/-- Source: `update()`, at the reading `currentTime` of `performance.now()`;
returns the value handed to the callback, if it is called. -/
def update (c : FPSCounter) (currentTime : ℚ) : FPSCounter × Option Int :=
  let frames := c.frames + 1
  let elapsed := currentTime - c.lastTime
  if elapsed ≥ 1000 then
    let fps := jsRound (((frames : ℚ) * 1000) / elapsed)
    ({ c with fps := fps, frames := 0, lastTime := currentTime },
      if c.updateCallback then some fps else none)
  else ({ c with frames := frames }, none)

end FPSCounter

/-! ## Lighting (`src/js/Lighting.js`) -/

/-- A three.js light, as far as the lighting system touches it. -/
structure Light where
  castShadow : Bool
  intensity : ℚ
  deriving DecidableEq, Repr

/-- The object `this.lights`. -/
structure Lights where
  ambient : Option Light
  directional : Option Light
  ceiling : Option (List Light)
  boardSpot : Option Light
  deriving DecidableEq, Repr

/-- The fields of a `LightingSystem` that its methods read or write. -/
structure LightingSystem where
  lights : Lights
  shadowsEnabled : Bool
  lastFlickerTime : Option Int
  deriving DecidableEq, Repr

namespace LightingSystem

/-- Source: the constructor with `init()`: ambient light, directional light
casting shadows, six ceiling lights of which the first two cast shadows, and
the board spotlight casting shadows. -/
def new : LightingSystem :=
  { lights :=
      { ambient := some { castShadow := false, intensity := 2 / 5 }
        directional := some { castShadow := true, intensity := 3 / 5 }
        ceiling := some ((List.range 6).map fun index =>
          { castShadow := decide (index < 2), intensity := 1 / 2 })
        boardSpot := some { castShadow := true, intensity := 4 / 5 } }
    shadowsEnabled := true
    lastFlickerTime := none }

/-- Source: the `forEach` of `setShadows` over the ceiling lights: the lights
of index below 2 take the flag. -/
def setCeilingShadows (enabled : Bool) (ceiling : List Light) : List Light :=
  ceiling.mapIdx fun index light =>
    if index < 2 then { light with castShadow := enabled } else light

/-- Source: `setShadows(enabled)`. -/
def setShadows (l : LightingSystem) (enabled : Bool) : LightingSystem :=
  { l with
    shadowsEnabled := enabled
    lights :=
      { l.lights with
        directional := l.lights.directional.map fun d => { d with castShadow := enabled }
        ceiling := l.lights.ceiling.map (setCeilingShadows enabled)
        boardSpot := l.lights.boardSpot.map fun s => { s with castShadow := enabled } } }

/-- Source: `update(deltaTime)`, at the reading `now` of `Date.now()`. -/
def update (m : JSMath) (l : LightingSystem) (_deltaTime : ℚ) (now : Int) : LightingSystem :=
  let last : Int :=
    match l.lastFlickerTime with
    | some t => t
    | none => 0
  if now - last < 100 then { l with lastFlickerTime := some last }
  else
    let time := (now : ℚ) * (1 / 1000)
    { l with
      lastFlickerTime := some now
      lights :=
        { l.lights with
          ceiling := l.lights.ceiling.map fun lights =>
            lights.mapIdx fun index light =>
              { light with intensity := 1 / 2 + m.sin (time + (index : ℚ)) * (1 / 50) } } }

end LightingSystem

/-- Source: `PDFViewer.update(deltaTime)`, whose body is empty. -/
def PDFViewer.update (v : PDFViewer) (_deltaTime : ℚ) : PDFViewer := v

/-! ## Frame driver (`src/js/main.js`) -/

/-- The element `fps-value`: its text and its colour. -/
structure FpsElement where
  textContent : String
  color : String
  deriving DecidableEq, Repr

/-- Source: the callback given to `FPSCounter` by `setupFPSCounter`. -/
def fpsCallback (fpsElement : Option FpsElement) (fps : Int) : Option FpsElement :=
  fpsElement.map fun _ =>
    { textContent := toString fps
      color := if fps ≥ 50 then "#50C878" else if fps ≥ 30 then "#FFA500" else "#FF6B6B" }

/-- The calls one `animate()` run makes on the browser, the components and the
renderer. -/
inductive FrameCall where
  | requestAnimationFrame
  | fpsUpdate
  | controlsUpdate
  | charactersUpdate
  | particlesUpdate
  | lightingUpdate
  | pdfViewerUpdate
  | render
  deriving DecidableEq, Repr

/-- The clock readings one `animate()` run takes: `clock.getDelta()`,
`clock.getElapsedTime()`, and the readings of `performance.now()` and
`Date.now()` taken inside the FPS counter and the lighting system. -/
structure FrameInput where
  deltaTime : ℚ
  elapsedTime : ℚ
  performanceNow : ℚ
  dateNow : Int
  deriving DecidableEq, Repr

/-- The fields of the `VirtualClassroom` instance that `animate()` reads or
writes, with the `fps-value` element. -/
structure VirtualClassroom (O : OrbitControls) where
  isRunning : Bool
  frameCount : Option Nat
  fpsCounter : Option FPSCounter
  fpsElement : Option FpsElement
  cameraControls : Option (CameraControls O)
  characters : Option Characters
  particles : Option ParticleEffects
  lighting : Option LightingSystem
  pdfViewer : Option PDFViewer

namespace VirtualClassroom

variable {O : OrbitControls}

/-- Source: the statement `this.fpsCounter.update()` of `animate()`, with the
callback of `setupFPSCounter`, under its guard `if (this.fpsCounter …)`: the
state it leaves and the call made, if any. -/
def updateFps (a : VirtualClassroom O) (performanceNow : ℚ) :
    VirtualClassroom O × List FrameCall :=
  match a.fpsCounter with
  | some counter =>
    let r := counter.update performanceNow
    ({ a with
        fpsCounter := some r.1
        fpsElement :=
          match r.2 with
          | some fps => fpsCallback a.fpsElement fps
          | none => a.fpsElement },
      [FrameCall.fpsUpdate])
  | none => (a, [])

/-- Source: a guarded component call of `animate()`,
`if (this.x) { this.x.update(…) }`: the component after the call and the call
made, if any. -/
def callOn {α : Type} (x : Option α) (f : α → α) (call : FrameCall) :
    Option α × List FrameCall :=
  match x with
  | some v => (some (f v), [call])
  | none => (none, [])

/-- Source: `animate()`; returns the state it leaves and the calls it made, in
order.  Each entry of the call list is produced by the step that makes the
call. -/
def animate (m : JSMath) (a : VirtualClassroom O) (inp : FrameInput) :
    VirtualClassroom O × List FrameCall :=
  if a.isRunning = false then (a, [])
  else
    let n := a.frameCount.getD 0 + 1
    let a1 : VirtualClassroom O := { a with frameCount := some n }
    let fps := if n % 10 = 0 then a1.updateFps inp.performanceNow else (a1, [])
    let cam := callOn fps.1.cameraControls CameraControls.update FrameCall.controlsUpdate
    let chr :=
      if n % 2 = 0 then
        callOn fps.1.characters (fun c => c.update m inp.elapsedTime) FrameCall.charactersUpdate
      else (fps.1.characters, [])
    let par :=
      if n % 2 = 0 then
        callOn fps.1.particles (fun p => p.update m inp.elapsedTime) FrameCall.particlesUpdate
      else (fps.1.particles, [])
    let lgt :=
      if n % 3 = 0 then
        callOn fps.1.lighting (fun l => l.update m inp.deltaTime inp.dateNow)
          FrameCall.lightingUpdate
      else (fps.1.lighting, [])
    let pdf :=
      if n % 3 = 0 then
        callOn fps.1.pdfViewer (fun v => v.update inp.deltaTime) FrameCall.pdfViewerUpdate
      else (fps.1.pdfViewer, [])
    ({ fps.1 with
        cameraControls := cam.1
        characters := chr.1
        particles := par.1
        lighting := lgt.1
        pdfViewer := pdf.1 },
      [FrameCall.requestAnimationFrame] ++ fps.2 ++ cam.2 ++ chr.2 ++ par.2 ++ lgt.2 ++ pdf.2 ++
        [FrameCall.render])

/-- Consecutive `animate()` runs with the given readings; the calls of all of
them, in order. -/
def run (m : JSMath) (a : VirtualClassroom O) (inputs : List FrameInput) :
    VirtualClassroom O × List FrameCall :=
  inputs.foldl
    (fun acc inp => ((animate m acc.1 inp).1, acc.2 ++ (animate m acc.1 inp).2)) (a, [])

end VirtualClassroom

/-- Whether a position lies inside the bounds, on every axis. -/
def CameraBounds.Contains (b : CameraBounds) (p : Vector3) : Prop :=
  (b.minX ≤ p.x ∧ p.x ≤ b.maxX) ∧ (b.minY ≤ p.y ∧ p.y ≤ b.maxY) ∧ (b.minZ ≤ p.z ∧ p.z ≤ b.maxZ)

/-- The ranges in which `createDustParticles` draws a particle's position and
velocity. -/
def DustParticle.Constructed (d : DustParticle) : Prop :=
  (|d.position.x| ≤ 10 ∧ 0 ≤ d.position.y ∧ d.position.y ≤ 4 ∧ |d.position.z| ≤ 15 / 2) ∧
  (|d.velocity.x| ≤ 1 / 1000 ∧ 1 / 200 ≤ d.velocity.y ∧ d.velocity.y ≤ 3 / 200 ∧
    |d.velocity.z| ≤ 1 / 1000)

/-! ## Well-behaved inputs -/

/-- The document has at least one page, and each of its pages is found and
renders. -/
def PDFDoc.renders (d : PDFDoc) : Bool :=
  decide (1 ≤ d.numPages) &&
    d.pages.all fun q =>
      match q with
      | some p =>
        (match p.render with
          | RenderOutcome.resolved => true
          | RenderOutcome.rejected _ => false)
      | none => false

/-- The file is refused by the MIME check, or it decodes to a document that
renders. -/
def File.sound (f : File) : Bool :=
  if f.type = "application/pdf" then
    match f.decode with
    | some d => d.renders
    | none => false
  else true

/-- Every file the action uploads is sound. -/
def UserAction.sound (a : UserAction) : Bool :=
  match a with
  | UserAction.upload (some f) => f.sound
  | _ => true

/-- The state the viewer is in between listener invocations that each ran to
completion on sound inputs: no render in flight and, once a document is
loaded, the index in range and the buffer holding the current page. -/
def PDFViewer.Settled (v : PDFViewer) : Prop :=
  v.pageRendering = false ∧
  ∀ d, v.pdfDoc = some d →
    d.renders = true ∧ 1 ≤ v.currentPage ∧ v.currentPage ≤ v.totalPages ∧
    v.totalPages = (d.numPages : Int) ∧ v.canvas.lastRasterized = some v.currentPage

/-! ## Concrete data for the instances -/

/-- A US-letter page that renders, used in the concrete instances below. -/
def letterPage : Page := { width := 612, height := 792, render := RenderOutcome.resolved }

/-- A PDF file of three letter pages that decodes. -/
def threePageFile : File :=
  { type := "application/pdf", name := "slides.pdf",
    decode := some { pages := [some letterPage, some letterPage, some letterPage] } }

/-- The DOM before any upload: no label, both buttons disabled, panel hidden. -/
def emptyUI : UI :=
  { pageInfo := "", prevDisabled := true, nextDisabled := true, pdfFilename := "",
    pdfInfoHidden := true }

/-- A page that is found but whose render rejects before painting anything. -/
def brokenPage : Page := { width := 612, height := 792, render := RenderOutcome.rejected [] }

/-- A PDF file that decodes to a good first page and a broken second page. -/
def halfBrokenFile : File :=
  { type := "application/pdf", name := "scan.pdf",
    decode := some { pages := [some letterPage, some brokenPage] } }

/-- A file declared as PDF whose bytes do not decode. -/
def corruptFile : File := { type := "application/pdf", name := "corrupt.pdf", decode := none }

/-- A file whose declared type is not PDF (its content is never looked at). -/
def pngFile : File := { type := "image/png", name := "photo.png", decode := none }

/-- The interleaving in which "next" is clicked while the load-time render of
page 1 is still waiting for its page. -/
def staleRun : List Event :=
  [Event.user (UserAction.upload (some threePageFile)), Event.decodeSettles 0,
    Event.user UserAction.nextClick, Event.renderSettles 0, Event.renderSettles 0]

/-- The application after `init()`, at rest: a running loop over an idle
navigator, the small effects, one seated student, the lights, a fresh viewer,
and an FPS counter created at time 0. -/
def demoApp : VirtualClassroom idleOrbit :=
  { isRunning := true
    frameCount := none
    fpsCounter := some (FPSCounter.new 0 true)
    fpsElement := some { textContent := "60", color := "" }
    cameraControls := some (CameraControls.new idleOrbit 60 ())
    characters := some
      { students :=
          [{ position := { x := -33 / 10, y := 9 / 20, z := 33 / 10 }, rotationY := 0,
             children := [{ rotationX := 0 }], baseY := 9 / 20, swaySpeed := 3 / 4,
             swayAmount := 1 / 125, swayOffset := 1 }]
        teacher := none }
    particles := some smallEffects
    lighting := some LightingSystem.new
    pdfViewer := some (PDFViewer.new emptyUI) }

/-- Ten display frames 100 ms apart, the first at 100 ms. -/
def tenSlowFrames : List FrameInput :=
  (List.range 10).map fun (k : Nat) =>
    { deltaTime := 1 / 10
      elapsedTime := ((k : ℚ) + 1) / 10
      performanceNow := ((k : ℚ) + 1) * 100
      dateNow := ((k : Int) + 1) * 100 }

/-- A transition between two positions inside the room, started at time 0:
from (0, 3, 6) looking at the default target to the board viewpoint. -/
def roomTransition : Transition :=
  { startPosition := { x := 0, y := 3, z := 6 }
    startTarget := { x := 0, y := 2, z := -5 }
    targetPosition := { x := 0, y := 5 / 2, z := -2 }
    targetLookAt := { x := 0, y := 5 / 2, z := -73 / 10 }
    startTime := 0 }

/-- One horizontal axis of a dust particle is under control: the coordinate is
within the bound, or it is beyond it with the velocity pointing back and the
next step bringing it within the bound. -/
def AxisKept (bound x v : ℚ) : Prop :=
  (-bound ≤ x ∧ x ≤ bound) ∨
  (bound < x ∧ v < 0 ∧ -bound ≤ x + v ∧ x + v ≤ bound) ∨
  (x < -bound ∧ 0 < v ∧ -bound ≤ x + v ∧ x + v ≤ bound)

/-- The invariant of a dust particle under `DustParticle.step`. -/
def DustParticle.Kept (d : DustParticle) : Prop :=
  AxisKept 10 d.position.x d.velocity.x ∧ AxisKept (15 / 2) d.position.z d.velocity.z ∧
  0 ≤ d.position.y ∧ d.position.y ≤ 4 ∧ 0 ≤ d.velocity.y

/-- The single-flight flag tells whether a render is suspended: it is set
exactly when one render task is awaited, and no task is awaited otherwise. -/
def Sys.FlagTracksRender (s : Sys) : Prop :=
  (s.viewer.pageRendering = false ∧ s.rendering = []) ∨
  (s.viewer.pageRendering = true ∧ ∃ t, s.rendering = [t])

/-- A call's synchronous part respects the single-flight flag: with the flag
set it starts no render and leaves the flag set; with the flag clear it either
starts no render and leaves the flag clear, or starts one and sets the flag. -/
def PDFViewer.RespectsFlag (v : PDFViewer) (r : PDFViewer × Option RenderTask) : Prop :=
  (v.pageRendering = true → r.1.pageRendering = true ∧ r.2 = none) ∧
  (v.pageRendering = false →
    (r.1.pageRendering = false ∧ r.2 = none) ∨ (r.1.pageRendering = true ∧ ∃ t, r.2 = some t))

/-! ## Rounding of JavaScript numbers -/

/-- Rounding to the nearest integer, ties to the even one: the rounding
direction of IEEE-754 arithmetic. -/
def roundHalfEven (y : ℚ) : Int :=
  if y - ⌊y⌋ < 1 / 2 then ⌊y⌋
  else if 1 / 2 < y - ⌊y⌋ then ⌊y⌋ + 1
  else if ⌊y⌋ % 2 = 0 then ⌊y⌋ else ⌊y⌋ + 1

/-- The exponent of the unit in the last place of `t` for a significand of `p`
bits: `⌊log₂ |t|⌋ - (p - 1)`. -/
def ulpExp (p : Nat) (t : ℚ) : Int := Int.log 2 |t| - ((p : Int) - 1)

/-- The number with a `p`-bit significand nearest to `t`, ties to even; the
exponent range is not bounded. -/
def roundTo (p : Nat) (t : ℚ) : ℚ :=
  if t = 0 then 0 else (roundHalfEven (t / 2 ^ ulpExp p t) : ℚ) * 2 ^ ulpExp p t

/-- The result of an arithmetic operation on JavaScript numbers (binary64)
whose exact value is `t`. -/
def fl64 (t : ℚ) : ℚ := roundTo 53 t

/-- The value a `Float32Array` element holds after `t` is stored in it. -/
def fl32 (t : ℚ) : ℚ := roundTo 24 t

/-- Numbers with a significand of at most `p` bits. -/
def Rep (p : Nat) (c : ℚ) : Prop := ∃ n e : Int, c = n * 2 ^ e ∧ |n| ≤ 2 ^ p

/-! ## The fit of `renderPage` on JavaScript numbers -/

/-- Source: `page.getViewport({ scale })` on JavaScript numbers: each side is
one product, rounded to binary64. -/
def Page.getViewport64 (p : Page) (scale : ℚ) : ℚ × ℚ :=
  (fl64 (p.width * scale), fl64 (p.height * scale))

/-- Source: `scale` of `renderPage` on JavaScript numbers: both quotients are
rounded to binary64, `Math.min` is exact. -/
def PDFViewer.fitScale64 (c : Canvas) (p : Page) : ℚ :=
  min (fl64 (c.width / (p.getViewport64 1).1)) (fl64 (c.height / (p.getViewport64 1).2))

/-- Source: `offsetX`, `offsetY` of `renderPage` on JavaScript numbers: the
difference and the halving are each rounded to binary64. -/
def PDFViewer.fitOffset64 (c : Canvas) (scaled : ℚ × ℚ) : ℚ × ℚ :=
  (fl64 (fl64 (c.width - scaled.1) / 2), fl64 (fl64 (c.height - scaled.2) / 2))

/-- An A3 page in portrait orientation, 842 × 1191 points. -/
def a3Page : Page := { width := 842, height := 1191, render := RenderOutcome.resolved }

/-! ## Dust positions in the `Float32Array` -/

/-- Source: `positions[k] += v` on an element of the `Float32Array` of
`createDustParticles`: the sum of the element and `v` is a JavaScript number
(binary64), and the store rounds it to binary32. -/
def storeSum (x v : ℚ) : ℚ := fl32 (fl64 (x + v))

/-- Source: the body of the `for` loop over dust particles in
`ParticleEffects.update`, with the positions held in the `Float32Array`: each
test reads the stored element; `velocities[i].x *= -1` is exact on JavaScript
numbers. -/
def DustParticle.stepStored (d : DustParticle) : DustParticle :=
  let x := storeSum d.position.x d.velocity.x
  let y := storeSum d.position.y d.velocity.y
  let z := storeSum d.position.z d.velocity.z
  { position := { x := x, y := if y > 4 then 0 else y, z := z }
    velocity :=
      { x := if |x| > 10 then d.velocity.x * -1 else d.velocity.x
        y := d.velocity.y
        z := if |z| > 15 / 2 then d.velocity.z * -1 else d.velocity.z } }

/-- Source: the body of `this.particles.forEach` in `ParticleEffects.update`,
with the dust positions held in the `Float32Array`. -/
def Particle.updateStored (m : JSMath) (elapsedTime : ℚ) (p : Particle) : Particle :=
  match p with
  | Particle.dustParticles dust _ =>
    Particle.dustParticles (dust.map DustParticle.stepStored) true
  | Particle.floatingBooks children =>
    Particle.floatingBooks (children.map (Book.update m elapsedTime))

/-- Source: `ParticleEffects.update(elapsedTime)`, with the dust positions held
in the `Float32Array`. -/
def ParticleEffects.updateStored (m : JSMath) (pe : ParticleEffects) (elapsedTime : ℚ) :
    ParticleEffects :=
  { particles := pe.particles.map (Particle.updateStored m elapsedTime) }

/-- One horizontal axis of a dust particle whose position is stored in the
`Float32Array`: the coordinate is within the bound, or it is beyond it by no
more than the speed and `slack`, with the velocity pointing back and the next
stored coordinate within the bound. -/
def AxisStored (bound slack x v : ℚ) : Prop :=
  (-bound ≤ x ∧ x ≤ bound) ∨
  (bound < x ∧ x ≤ bound + |v| + slack ∧ v < 0 ∧
    -bound ≤ storeSum x v ∧ storeSum x v ≤ bound) ∨
  (x < -bound ∧ -(bound + |v| + slack) ≤ x ∧ 0 < v ∧
    -bound ≤ storeSum x v ∧ storeSum x v ≤ bound)

/-- The invariant of a dust particle under `DustParticle.stepStored`. -/
def DustParticle.KeptStored (d : DustParticle) : Prop :=
  (AxisStored 10 (1 / 2 ^ 20) d.position.x d.velocity.x ∧ |d.velocity.x| ≤ 1 / 1000) ∧
  (AxisStored (15 / 2) (1 / 2 ^ 21) d.position.z d.velocity.z ∧ |d.velocity.z| ≤ 1 / 1000) ∧
  0 ≤ d.position.y ∧ d.position.y ≤ 4 ∧ 0 ≤ d.velocity.y

/-- A dust particle three `Float32Array` steps below `x = 10`, drifting towards
the wall at `5·2⁻²³` per update. -/
def edgeDust : DustParticle :=
  { position := { x := 10 - 3 / 2 ^ 20, y := 0, z := 0 }
    velocity := { x := 5 / 2 ^ 23, y := 1 / 128, z := 0 } }

/-- Effects with the dust particle `edgeDust` only. -/
def edgeEffects : ParticleEffects :=
  { particles := [Particle.dustParticles [edgeDust] false] }

/-! ## Display frames with one clock reading per callback -/

namespace CameraSys

variable {O : OrbitControls}

/-- The callbacks `q` of one display frame, run in order; they are the
callbacks number `i`, `i + 1`, … of the frame, and callback number `j` reads
the clock value `clock j` in its call of `Date.now()`. -/
def runCallbacks (clock : Nat → Int) : Nat → List Transition → CameraSys O → CameraSys O
  | _, [], acc => acc
  | i, tr :: q, acc => runCallbacks clock (i + 1) q (acc.animate tr (clock i))

/-- One display frame in which every callback takes its own reading of
`Date.now()`: the browser runs the callbacks handed over before the frame, in
order; what they hand over is kept for the next frame. -/
def frameWith (s : CameraSys O) (clock : Nat → Int) : CameraSys O :=
  runCallbacks clock 0 s.raf { s with raf := [] }

/-- A sequence of display frames, each with its own clock readings. -/
def framesWith (s : CameraSys O) (clocks : List (Nat → Int)) : CameraSys O :=
  clocks.foldl frameWith s

end CameraSys

/-! ## Shared lemmas -/

namespace PDFViewer

theorem renderPageCatch_fields (v : PDFViewer) :
    v.renderPageCatch.currentPage = v.currentPage ∧
    v.renderPageCatch.totalPages = v.totalPages ∧
    v.renderPageCatch.pdfDoc = v.pdfDoc ∧
    v.renderPageCatch.canvas = v.canvas ∧
    v.renderPageCatch.needsUpdate = v.needsUpdate ∧
    v.renderPageCatch.pageRendering = false := by
  simp [renderPageCatch, emit]

theorem renderPageResume_index (v : PDFViewer) (t : RenderTask) :
    (v.renderPageResume t).1.currentPage = v.currentPage ∧
    (v.renderPageResume t).1.totalPages = v.totalPages ∧
    (v.renderPageResume t).1.pdfDoc = v.pdfDoc := by
  cases t with
  | awaitingPage result n =>
    cases result <;> simp [renderPageResume, renderPageCatch, emit]
  | awaitingRender page n vp tr =>
    cases h : page.render <;> simp [renderPageResume, renderPageCatch, emit, h]

theorem renderPageStart_index (v : PDFViewer) (n : Int) :
    (v.renderPageStart n).1.currentPage = v.currentPage ∧
    (v.renderPageStart n).1.totalPages = v.totalPages ∧
    (v.renderPageStart n).1.pdfDoc = v.pdfDoc := by
  unfold renderPageStart
  by_cases hr : v.pageRendering = true
  · simp [hr]
  · cases hd : v.pdfDoc <;> simp [hr, hd, renderPageCatch, emit]

theorem finish_index (r : PDFViewer × Option RenderTask) :
    (finish r).currentPage = r.1.currentPage ∧
    (finish r).totalPages = r.1.totalPages ∧
    (finish r).pdfDoc = r.1.pdfDoc := by
  obtain ⟨v, t⟩ := r
  cases t with
  | none => simp [finish]
  | some t =>
    have h1 := renderPageResume_index v t
    unfold finish
    simp only
    generalize hr : v.renderPageResume t = r1 at h1
    obtain ⟨v1, t1⟩ := r1
    cases t1 with
    | none => simpa using h1
    | some t1 =>
      have h2 := renderPageResume_index v1 t1
      simp only at h1 ⊢
      exact ⟨h2.1.trans h1.1, h2.2.1.trans h1.2.1, h2.2.2.trans h1.2.2⟩

theorem renderPage_index (v : PDFViewer) (n : Int) :
    (v.renderPage n).currentPage = v.currentPage ∧
    (v.renderPage n).totalPages = v.totalPages ∧
    (v.renderPage n).pdfDoc = v.pdfDoc := by
  have h1 := finish_index (v.renderPageStart n)
  have h2 := renderPageStart_index v n
  exact ⟨h1.1.trans h2.1, h1.2.1.trans h2.2.1, h1.2.2.trans h2.2.2⟩

theorem updatePageInfo_index (v : PDFViewer) :
    v.updatePageInfo.currentPage = v.currentPage ∧
    v.updatePageInfo.totalPages = v.totalPages ∧
    v.updatePageInfo.pdfDoc = v.pdfDoc := by
  unfold updatePageInfo
  split <;> simp

theorem nextPage_index (v : PDFViewer) :
    v.nextPage.currentPage =
      (if v.currentPage ≥ v.totalPages then v.currentPage else v.currentPage + 1) ∧
    v.nextPage.totalPages = v.totalPages ∧ v.nextPage.pdfDoc = v.pdfDoc := by
  unfold nextPage nextPageStart
  by_cases h : v.currentPage ≥ v.totalPages
  · simp [h, finish]
  · simp only [h, if_false]
    set v1 := updatePageInfo { v with currentPage := v.currentPage + 1 } with hv1
    have h1 := finish_index (v1.renderPageStart v1.currentPage)
    have h2 := renderPageStart_index v1 v1.currentPage
    have h3 := updatePageInfo_index { v with currentPage := v.currentPage + 1 }
    rw [← hv1] at h3
    exact ⟨h1.1.trans (h2.1.trans h3.1), h1.2.1.trans (h2.2.1.trans h3.2.1),
      h1.2.2.trans (h2.2.2.trans h3.2.2)⟩

theorem previousPage_index (v : PDFViewer) :
    v.previousPage.currentPage =
      (if v.currentPage ≤ 1 then v.currentPage else v.currentPage - 1) ∧
    v.previousPage.totalPages = v.totalPages ∧ v.previousPage.pdfDoc = v.pdfDoc := by
  unfold previousPage previousPageStart
  by_cases h : v.currentPage ≤ 1
  · simp [h, finish]
  · simp only [h, if_false]
    set v1 := updatePageInfo { v with currentPage := v.currentPage - 1 } with hv1
    have h1 := finish_index (v1.renderPageStart v1.currentPage)
    have h2 := renderPageStart_index v1 v1.currentPage
    have h3 := updatePageInfo_index { v with currentPage := v.currentPage - 1 }
    rw [← hv1] at h3
    exact ⟨h1.1.trans (h2.1.trans h3.1), h1.2.1.trans (h2.2.1.trans h3.2.1),
      h1.2.2.trans (h2.2.2.trans h3.2.2)⟩

theorem handleFileSelect_success (v : PDFViewer) (f : File) (doc : PDFDoc)
    (htype : f.type = "application/pdf") (hdec : f.decode = some doc) :
    (v.handleFileSelect (some f)).currentPage = 1 ∧
    (v.handleFileSelect (some f)).totalPages = (doc.numPages : Int) ∧
    (v.handleFileSelect (some f)).pdfDoc = some doc := by
  unfold handleFileSelect handleFileSelectStart
  simp only [htype, ne_eq, not_true_eq_false, if_false]
  unfold handleFileSelectResume
  simp only [hdec]
  generalize hv2 :
    ({ ({ (v.renderLoadingCanvas.emit (Effect.arrayBuffer f.name)) with
            pdfDoc := some doc, totalPages := (doc.numPages : Int), currentPage := 1 } :
          PDFViewer) with
        ui := { (v.renderLoadingCanvas.emit (Effect.arrayBuffer f.name)).ui with
                pdfFilename := f.name, pdfInfoHidden := false } } : PDFViewer) = v2
  have hf : v2.currentPage = 1 ∧ v2.totalPages = (doc.numPages : Int) ∧ v2.pdfDoc = some doc := by
    subst hv2; exact ⟨rfl, rfl, rfl⟩
  have h1 := finish_index (v2.updatePageInfo.renderPageStart v2.updatePageInfo.currentPage)
  have h2 := renderPageStart_index v2.updatePageInfo v2.updatePageInfo.currentPage
  have h3 := updatePageInfo_index v2
  exact ⟨h1.1.trans (h2.1.trans (h3.1.trans hf.1)),
    h1.2.1.trans (h2.2.1.trans (h3.2.1.trans hf.2.1)),
    h1.2.2.trans (h2.2.2.trans (h3.2.2.trans hf.2.2))⟩

theorem call_pageInRange (v : PDFViewer) (c : Call) (h : PageInRange v) :
    PageInRange (v.call c) := by
  obtain ⟨h1, h2⟩ := h
  cases c with
  | nextPage =>
    have hn := nextPage_index v
    unfold PageInRange call
    rw [hn.1, hn.2.1]
    split <;> constructor <;> omega
  | previousPage =>
    have hn := previousPage_index v
    unfold PageInRange call
    rw [hn.1, hn.2.1]
    split <;> constructor <;> omega
  | renderPage n =>
    have hn := renderPage_index v n
    unfold PageInRange call
    rw [hn.1, hn.2.1]
    exact ⟨h1, h2⟩

theorem calls_pageInRange (cs : List Call) (v : PDFViewer) (h : PageInRange v) :
    PageInRange (cs.foldl call v) := by
  induction cs generalizing v with
  | nil => exact h
  | cons c cs ih => exact ih (v.call c) (call_pageInRange v c h)

end PDFViewer

/-! ## Page navigation (C1 – C3) -/

/-- C1: with a document loaded and `1 ≤ currentPage ≤ totalPages`, `nextPage()`
leaves `currentPage = min (currentPage + 1) totalPages` and `previousPage()`
leaves `currentPage = max (currentPage - 1) 1`; at index `totalPages`
(respectively 1) the call changes nothing at all; neither call changes
`totalPages`. -/
theorem C1_page_navigation_clamps (v : PDFViewer) (_hdoc : v.pdfDoc.isSome = true)
    (h1 : 1 ≤ v.currentPage) (h2 : v.currentPage ≤ v.totalPages) :
    v.nextPage.currentPage = min (v.currentPage + 1) v.totalPages ∧
    v.previousPage.currentPage = max (v.currentPage - 1) 1 ∧
    (v.currentPage = 1 → v.previousPage = v) ∧
    (v.currentPage = v.totalPages → v.nextPage = v) ∧
    v.nextPage.totalPages = v.totalPages ∧
    v.previousPage.totalPages = v.totalPages := by
  have hn := PDFViewer.nextPage_index v
  have hp := PDFViewer.previousPage_index v
  refine ⟨?_, ?_, ?_, ?_, hn.2.1, hp.2.1⟩
  · rw [hn.1]
    split
    · rw [min_eq_right (by omega)]; omega
    · rw [min_eq_left (by omega)]
  · rw [hp.1]
    split
    · rw [max_eq_right (by omega)]; omega
    · rw [max_eq_left (by omega)]
  · intro h
    simp [PDFViewer.previousPage, PDFViewer.previousPageStart, PDFViewer.finish, h]
  · intro h
    simp [PDFViewer.nextPage, PDFViewer.nextPageStart, PDFViewer.finish, h]

/-- C1 at a concrete state: page 2 of the three-page document. -/
theorem C1_page_navigation_clamps_witness :
    (((PDFViewer.new emptyUI).handleFileSelect (some threePageFile)).nextPage.pdfDoc.isSome = true ∧
      ((PDFViewer.new emptyUI).handleFileSelect (some threePageFile)).nextPage.currentPage = 2 ∧
      ((PDFViewer.new emptyUI).handleFileSelect (some threePageFile)).nextPage.totalPages = 3) ∧
    ((PDFViewer.new emptyUI).handleFileSelect (some threePageFile)).nextPage.nextPage.currentPage
      = 3 ∧
    ((PDFViewer.new emptyUI).handleFileSelect (some threePageFile)).nextPage.previousPage.currentPage
      = 1 := by
  have hs : ((PDFViewer.new emptyUI).handleFileSelect (some threePageFile)).nextPage.pdfDoc.isSome
        = true ∧
      ((PDFViewer.new emptyUI).handleFileSelect (some threePageFile)).nextPage.currentPage = 2 ∧
      ((PDFViewer.new emptyUI).handleFileSelect (some threePageFile)).nextPage.totalPages = 3 := by
    decide
  have h := C1_page_navigation_clamps
    ((PDFViewer.new emptyUI).handleFileSelect (some threePageFile)).nextPage hs.1
    (by rw [hs.2.1]; decide) (by rw [hs.2.1, hs.2.2]; decide)
  refine ⟨hs, ?_, ?_⟩
  · rw [h.1, hs.2.1, hs.2.2]; decide
  · rw [h.2.1, hs.2.1]; decide

/-- C2: `1 ≤ currentPage ≤ totalPages` holds right after a successful load of a
document with `numPages ≥ 1`, and after any sequence of `nextPage()`,
`previousPage()` and `renderPage(n)` calls that follows it. -/
theorem C2_page_index_invariant (v : PDFViewer) (f : File) (doc : PDFDoc)
    (htype : f.type = "application/pdf") (hdec : f.decode = some doc)
    (hpages : 1 ≤ doc.numPages) (calls : List PDFViewer.Call) :
    PDFViewer.PageInRange (v.handleFileSelect (some f)) ∧
    PDFViewer.PageInRange (calls.foldl PDFViewer.call (v.handleFileSelect (some f))) := by
  have hl := PDFViewer.handleFileSelect_success v f doc htype hdec
  have h0 : PDFViewer.PageInRange (v.handleFileSelect (some f)) := by
    unfold PDFViewer.PageInRange
    rw [hl.1, hl.2.1]
    constructor
    · decide
    · exact_mod_cast hpages
  exact ⟨h0, PDFViewer.calls_pageInRange calls _ h0⟩

/-- C2 at a concrete run: the three-page document, then next, render 7, next,
next, previous. -/
theorem C2_page_index_invariant_witness :
    PDFViewer.PageInRange
      ([PDFViewer.Call.nextPage, PDFViewer.Call.renderPage 7, PDFViewer.Call.nextPage,
        PDFViewer.Call.nextPage, PDFViewer.Call.previousPage].foldl PDFViewer.call
        ((PDFViewer.new emptyUI).handleFileSelect (some threePageFile))) :=
  (C2_page_index_invariant (PDFViewer.new emptyUI) threePageFile
    { pages := [some letterPage, some letterPage, some letterPage] } rfl rfl (by decide)
    [PDFViewer.Call.nextPage, PDFViewer.Call.renderPage 7, PDFViewer.Call.nextPage,
      PDFViewer.Call.nextPage, PDFViewer.Call.previousPage]).2

/-- C3: after a successful load of a three-page document the state is
`currentPage = 1`, `totalPages = 3`; two `nextPage()` calls give
`currentPage = 3`; a third leaves `currentPage = 3`. -/
theorem C3_three_page_scenario (v : PDFViewer) (f : File) (doc : PDFDoc)
    (htype : f.type = "application/pdf") (hdec : f.decode = some doc)
    (hpages : doc.numPages = 3) :
    (v.handleFileSelect (some f)).currentPage = 1 ∧
    (v.handleFileSelect (some f)).totalPages = 3 ∧
    (v.handleFileSelect (some f)).nextPage.nextPage.currentPage = 3 ∧
    (v.handleFileSelect (some f)).nextPage.nextPage.nextPage.currentPage = 3 := by
  have hl := PDFViewer.handleFileSelect_success v f doc htype hdec
  rw [hpages] at hl
  have a1 := PDFViewer.nextPage_index (v.handleFileSelect (some f))
  rw [hl.1, hl.2.1] at a1
  have a2 := PDFViewer.nextPage_index (v.handleFileSelect (some f)).nextPage
  rw [a1.1, a1.2.1] at a2
  have a3 := PDFViewer.nextPage_index (v.handleFileSelect (some f)).nextPage.nextPage
  rw [a2.1, a2.2.1] at a3
  refine ⟨hl.1, by simpa using hl.2.1, ?_, ?_⟩
  · rw [a2.1]; decide
  · rw [a3.1]; decide

/-- C3 on the constructed viewer and the concrete three-page file. -/
theorem C3_three_page_scenario_witness :
    ((PDFViewer.new emptyUI).handleFileSelect (some threePageFile)).currentPage = 1 ∧
    ((PDFViewer.new emptyUI).handleFileSelect (some threePageFile)).totalPages = 3 ∧
    ((PDFViewer.new emptyUI).handleFileSelect (some threePageFile)).nextPage.nextPage.currentPage
      = 3 ∧
    ((PDFViewer.new emptyUI).handleFileSelect
      (some threePageFile)).nextPage.nextPage.nextPage.currentPage = 3 :=
  C3_three_page_scenario (PDFViewer.new emptyUI) threePageFile
    { pages := [some letterPage, some letterPage, some letterPage] } rfl rfl rfl

/-! ## Rounding of JavaScript numbers: lemmas -/

theorem roundHalfEven_nearest (y : ℚ) (k : Int) :
    |(roundHalfEven y : ℚ) - y| ≤ |(k : ℚ) - y| := by
  have hf := Int.floor_le y
  have hlt := Int.lt_floor_add_one y
  have hk : (k : ℚ) ≤ ⌊y⌋ ∨ ((⌊y⌋ : ℚ) + 1 ≤ k) := by
    rcases le_or_lt k ⌊y⌋ with h | h
    · left; exact_mod_cast h
    · right; exact_mod_cast h
  have h1 := le_abs_self ((k : ℚ) - y)
  have h2 := neg_abs_le ((k : ℚ) - y)
  unfold roundHalfEven
  split_ifs with c1 c2 c3 <;> push_cast <;> rw [abs_le] <;> constructor <;>
    rcases hk with hk | hk <;> linarith

theorem roundHalfEven_intCast (n : Int) : roundHalfEven (n : ℚ) = n := by
  unfold roundHalfEven
  simp

theorem roundHalfEven_half_le (y : ℚ) : |(roundHalfEven y : ℚ) - y| ≤ 1 / 2 := by
  have hf := Int.floor_le y
  have hlt := Int.lt_floor_add_one y
  unfold roundHalfEven
  split_ifs with c1 c2 c3 <;> push_cast <;> rw [abs_le] <;> constructor <;> linarith

theorem roundHalfEven_mono (a b : ℚ) (h : a ≤ b) : roundHalfEven a ≤ roundHalfEven b := by
  by_contra hlt
  push_neg at hlt
  have h1 : (roundHalfEven b : ℚ) + 1 ≤ roundHalfEven a := by exact_mod_cast hlt
  have ha := roundHalfEven_nearest a (roundHalfEven b)
  have hb := roundHalfEven_nearest b (roundHalfEven a)
  have ha2 := roundHalfEven_half_le a
  have hb2 := roundHalfEven_half_le b
  rw [abs_le] at ha2 hb2
  -- both are within a half, so b ≤ R b + 1/2 ≤ R a - 1/2 ≤ a
  have : a = b := by linarith
  subst this
  linarith

theorem two_zpow_pos (e : Int) : (0 : ℚ) < 2 ^ e := zpow_pos (by norm_num) e

theorem ulpExp_binade (p : Nat) (t : ℚ) (ht : t ≠ 0) :
    (2 : ℚ) ^ ((p : Int) - 1) ≤ |t / 2 ^ ulpExp p t| ∧ |t / 2 ^ ulpExp p t| < 2 ^ (p : Int) := by
  have hpos : 0 < |t| := abs_pos.2 ht
  have h1 : ((2 : ℕ) : ℚ) ^ Int.log 2 |t| ≤ |t| := Int.zpow_log_le_self (by norm_num) hpos
  have h2 : |t| < ((2 : ℕ) : ℚ) ^ (Int.log 2 |t| + 1) :=
    Int.lt_zpow_succ_log_self (by norm_num) |t|
  simp only [Nat.cast_ofNat] at h1 h2
  have hE := two_zpow_pos (ulpExp p t)
  rw [abs_div, abs_of_pos hE, le_div_iff₀ hE, div_lt_iff₀ hE, ← zpow_add₀ (by norm_num),
    ← zpow_add₀ (by norm_num)]
  unfold ulpExp
  constructor
  · have : ((p : Int) - 1 + (Int.log 2 |t| - ((p : Int) - 1))) = Int.log 2 |t| := by ring
    rw [this]; exact h1
  · have : ((p : Int) + (Int.log 2 |t| - ((p : Int) - 1))) = Int.log 2 |t| + 1 := by ring
    rw [this]; exact h2

/-- The exponent is determined by the binade. -/
theorem ulpExp_of_binade (p : Nat) (t : ℚ) (k : Int) (h1 : (2 : ℚ) ^ k ≤ |t|)
    (h2 : |t| < 2 ^ (k + 1)) : ulpExp p t = k - ((p : Int) - 1) := by
  have hpos : 0 < |t| := lt_of_lt_of_le (two_zpow_pos k) h1
  have hk : Int.log 2 |t| = k := by
    apply le_antisymm
    · have := (Int.lt_zpow_iff_log_lt (b := 2) (by norm_num) hpos (x := k + 1)).1
        (by simpa using h2)
      omega
    · exact (Int.zpow_le_iff_le_log (b := 2) (by norm_num) hpos (x := k)).1 (by simpa using h1)
  unfold ulpExp
  rw [hk]

theorem roundTo_of_ne (p : Nat) (t : ℚ) (ht : t ≠ 0) :
    roundTo p t = (roundHalfEven (t / 2 ^ ulpExp p t) : ℚ) * 2 ^ ulpExp p t := by
  unfold roundTo
  rw [if_neg ht]

/-- Evaluation of `roundTo` from the binade of the argument. -/
theorem roundTo_of_binade (p : Nat) (t : ℚ) (k : Int) (h1 : (2 : ℚ) ^ k ≤ |t|)
    (h2 : |t| < 2 ^ (k + 1)) :
    roundTo p t =
      (roundHalfEven (t / 2 ^ (k - ((p : Int) - 1))) : ℚ) * 2 ^ (k - ((p : Int) - 1)) := by
  have hpos : 0 < |t| := lt_of_lt_of_le (two_zpow_pos k) h1
  rw [roundTo_of_ne p t (abs_pos.1 hpos), ulpExp_of_binade p t k h1 h2]

/-- No number with a `p`-bit significand is nearer to `t` than `roundTo p t`. -/
theorem roundTo_nearest (p : Nat) (hp : 1 ≤ p) (t c : ℚ) (hc : Rep p c) :
    |roundTo p t - t| ≤ |c - t| := by
  by_cases ht : t = 0
  · subst ht
    simp [roundTo]
  obtain ⟨n, f, hcn, hn⟩ := hc
  have hE := two_zpow_pos (ulpExp p t)
  obtain ⟨hb1, hb2⟩ := ulpExp_binade p t ht
  rw [roundTo_of_ne p t ht]
  set e := ulpExp p t with he
  set y := t / 2 ^ e with hy
  have ht2 : t = y * 2 ^ e := by rw [hy]; field_simp
  have hgoal : ∀ c1 : ℚ, |(roundHalfEven y : ℚ) - y| ≤ |c1 - y| → c = c1 * 2 ^ e →
      |(roundHalfEven y : ℚ) * 2 ^ e - t| ≤ |c - t| := by
    intro c1 h hc1
    have e1 : (roundHalfEven y : ℚ) * 2 ^ e - t = ((roundHalfEven y : ℚ) - y) * 2 ^ e := by
      rw [sub_mul, ← ht2]
    have e2 : c - t = (c1 - y) * 2 ^ e := by
      rw [sub_mul, ← ht2, hc1]
    rw [e1, e2, abs_mul, abs_mul, abs_of_pos hE]
    exact mul_le_mul_of_nonneg_right h hE.le
  have hc1 : c = (n * 2 ^ (f - e)) * 2 ^ e := by
    rw [mul_assoc, ← zpow_add₀ (by norm_num), hcn]
    congr 2
    ring
  apply hgoal _ _ hc1
  rcases le_or_lt e f with hfe | hfe
  · -- the candidate is an integer multiple of the unit
    obtain ⟨d, hd⟩ : ∃ d : ℕ, f - e = d := ⟨(f - e).toNat, by omega⟩
    have : ((n : ℚ) * 2 ^ (f - e)) = ((n * 2 ^ d : Int) : ℚ) := by
      rw [hd, zpow_natCast]; push_cast; ring
    rw [this]
    exact roundHalfEven_nearest y _
  · -- the candidate is no larger than the lower end of the binade
    have hpow : (2 : ℚ) ^ (f - e) ≤ 2 ^ (-1 : Int) :=
      zpow_le_zpow_right₀ (by norm_num) (by omega)
    have hnq : |(n : ℚ)| ≤ 2 ^ (p : Int) := by
      rw [zpow_natCast]
      have : ((|n| : Int) : ℚ) ≤ ((2 ^ p : Int) : ℚ) := by exact_mod_cast hn
      simpa using this
    have hsmall : |(n : ℚ) * 2 ^ (f - e)| ≤ 2 ^ ((p : Int) - 1) := by
      rw [abs_mul, abs_of_pos (two_zpow_pos _)]
      calc |(n : ℚ)| * 2 ^ (f - e) ≤ 2 ^ (p : Int) * 2 ^ (-1 : Int) :=
            mul_le_mul hnq hpow (two_zpow_pos _).le (two_zpow_pos _).le
        _ = 2 ^ ((p : Int) - 1) := by
            rw [← zpow_add₀ (by norm_num)]; rfl
    obtain ⟨q, hq⟩ : ∃ q : ℕ, (p : Int) - 1 = q := ⟨p - 1, by omega⟩
    have hint : ((2 : ℚ) ^ ((p : Int) - 1)) = (((2 : Int) ^ q : Int) : ℚ) := by
      rw [hq, zpow_natCast]; push_cast; rfl
    rw [abs_le] at hsmall
    rcases le_or_lt 0 y with hy0 | hy0
    · rw [abs_of_nonneg hy0] at hb1
      have hk := roundHalfEven_nearest y ((2 : Int) ^ q)
      rw [← hint] at hk
      refine le_trans hk ?_
      rw [abs_of_nonpos (by linarith), abs_of_nonpos (by linarith)]
      linarith
    · rw [abs_of_neg hy0] at hb1
      have hk := roundHalfEven_nearest y (-(2 : Int) ^ q)
      have hint2 : ((-(2 : Int) ^ q : Int) : ℚ) = -(2 : ℚ) ^ ((p : Int) - 1) := by
        rw [hint]; push_cast; rfl
      rw [hint2] at hk
      refine le_trans hk ?_
      rw [abs_of_nonneg (by linarith), abs_of_nonneg (by linarith)]
      linarith

/-- The result of `roundTo p` has a significand of at most `p` bits. -/
theorem roundTo_rep (p : Nat) (t : ℚ) : Rep p (roundTo p t) := by
  by_cases ht : t = 0
  · subst ht
    exact ⟨0, 0, by simp [roundTo], by simp⟩
  obtain ⟨hb1, hb2⟩ := ulpExp_binade p t ht
  rw [roundTo_of_ne p t ht]
  refine ⟨_, _, rfl, ?_⟩
  set y := t / 2 ^ ulpExp p t
  have hP : ((2 : ℚ) ^ (p : Int)) = (((2 : Int) ^ p : Int) : ℚ) := by
    rw [zpow_natCast]; push_cast; rfl
  rw [hP, abs_lt] at hb2
  have hlo : ((-(2 : Int) ^ p : Int) : ℚ) ≤ y := by push_cast; push_cast at hb2; linarith
  have h1 := roundHalfEven_mono _ _ hlo
  have h2 := roundHalfEven_mono _ _ hb2.2.le
  rw [roundHalfEven_intCast] at h1 h2
  rw [abs_le]
  exact ⟨h1, h2⟩


theorem roundHalfEven_eq (y : ℚ) (n : Int) (h1 : (n : ℚ) - 1 / 2 < y) (h2 : y < n + 1 / 2) :
    roundHalfEven y = n := by
  have hk := roundHalfEven_nearest y n
  have hn : |(n : ℚ) - y| < 1 / 2 := by rw [abs_lt]; constructor <;> linarith
  have hlt : |((roundHalfEven y - n : Int) : ℚ)| < 1 := by
    push_cast
    have e : (roundHalfEven y : ℚ) - n = ((roundHalfEven y : ℚ) - y) - ((n : ℚ) - y) := by ring
    rw [e]
    calc |((roundHalfEven y : ℚ) - y) - ((n : ℚ) - y)|
        ≤ |(roundHalfEven y : ℚ) - y| + |(n : ℚ) - y| := abs_sub _ _
      _ < 1 := by linarith
  have hz : |roundHalfEven y - n| < 1 := by exact_mod_cast hlt
  have := Int.abs_lt_one_iff.1 hz
  omega

theorem roundHalfEven_tie (y : ℚ) (n : Int) (heven : n % 2 = 0)
    (h : y = n + 1 / 2 ∨ y = n - 1 / 2) : roundHalfEven y = n := by
  rcases h with h | h
  · have hfl : ⌊y⌋ = n := by
      rw [Int.floor_eq_iff, h]; constructor <;> linarith
    unfold roundHalfEven
    rw [hfl, h]
    norm_num [heven]
  · have hfl : ⌊y⌋ = n - 1 := by
      rw [Int.floor_eq_iff, h]; push_cast; constructor <;> linarith
    have hodd : ¬ (n - 1) % 2 = 0 := by omega
    unfold roundHalfEven
    rw [hfl, h]
    push_cast
    norm_num [hodd]

theorem roundHalfEven_spec (y : ℚ) :
    |(roundHalfEven y : ℚ) - y| < 1 / 2 ∨
    (roundHalfEven y % 2 = 0 ∧
      (y = roundHalfEven y + 1 / 2 ∨ y = roundHalfEven y - 1 / 2)) := by
  have hf := Int.floor_le y
  have hlt := Int.lt_floor_add_one y
  unfold roundHalfEven
  split_ifs with c1 c2 c3
  · left; rw [abs_lt]; constructor <;> linarith
  · left; push_cast; rw [abs_lt]; constructor <;> linarith
  · right; exact ⟨c3, Or.inl (by linarith)⟩
  · right; refine ⟨by omega, Or.inr (by push_cast; linarith)⟩

theorem roundHalfEven_neg (y : ℚ) : roundHalfEven (-y) = -roundHalfEven y := by
  rcases roundHalfEven_spec y with h | ⟨heven, h⟩
  · rw [abs_lt] at h
    apply roundHalfEven_eq <;> push_cast <;> linarith
  · apply roundHalfEven_tie _ _ (by omega)
    rcases h with h | h
    · right; push_cast; linarith
    · left; push_cast; linarith

theorem roundTo_neg (p : Nat) (t : ℚ) : roundTo p (-t) = -roundTo p t := by
  unfold roundTo ulpExp
  by_cases ht : t = 0
  · simp [ht]
  · rw [if_neg ht, if_neg (neg_ne_zero.2 ht), abs_neg, neg_div, roundHalfEven_neg]
    push_cast
    ring

/-- Numbers with a significand of at most `p` bits are not changed. -/
theorem roundTo_fixed (p : Nat) (hp : 1 ≤ p) (t : ℚ) (h : Rep p t) : roundTo p t = t := by
  have h1 := roundTo_nearest p hp t t h
  rw [sub_self, abs_zero] at h1
  have h2 := abs_nonneg (roundTo p t - t)
  have h3 : |roundTo p t - t| = 0 := le_antisymm h1 h2
  rw [abs_eq_zero] at h3
  linarith

/-- Rounding is monotone. -/
theorem roundTo_mono (p : Nat) (hp : 1 ≤ p) (a b : ℚ) (h : a ≤ b) :
    roundTo p a ≤ roundTo p b := by
  rcases h.eq_or_lt with h | h
  · rw [h]
  by_contra hlt
  push_neg at hlt
  have h1 := roundTo_nearest p hp a _ (roundTo_rep p b)
  have h2 := roundTo_nearest p hp b _ (roundTo_rep p a)
  rcases abs_cases (roundTo p a - a) with ⟨e1, s1⟩ | ⟨e1, s1⟩ <;>
  rcases abs_cases (roundTo p b - a) with ⟨e2, s2⟩ | ⟨e2, s2⟩ <;>
  rcases abs_cases (roundTo p b - b) with ⟨e3, s3⟩ | ⟨e3, s3⟩ <;>
  rcases abs_cases (roundTo p a - b) with ⟨e4, s4⟩ | ⟨e4, s4⟩ <;>
  rw [e1, e2] at h1 <;> rw [e3, e4] at h2 <;> linarith

/-- The rounding error is at most half a unit in the last place. -/
theorem roundTo_half_ulp (p : Nat) (t : ℚ) (ht : t ≠ 0) :
    |roundTo p t - t| ≤ 2 ^ (ulpExp p t - 1) := by
  have hE := two_zpow_pos (ulpExp p t)
  rw [roundTo_of_ne p t ht]
  have e1 : (roundHalfEven (t / 2 ^ ulpExp p t) : ℚ) * 2 ^ ulpExp p t - t =
      ((roundHalfEven (t / 2 ^ ulpExp p t) : ℚ) - t / 2 ^ ulpExp p t) * 2 ^ ulpExp p t := by
    field_simp
  rw [e1, abs_mul, abs_of_pos hE, zpow_sub_one₀ (by norm_num)]
  have := roundHalfEven_half_le (t / 2 ^ ulpExp p t)
  calc |(roundHalfEven (t / 2 ^ ulpExp p t) : ℚ) - t / 2 ^ ulpExp p t| * 2 ^ ulpExp p t
      ≤ 1 / 2 * 2 ^ ulpExp p t := mul_le_mul_of_nonneg_right this hE.le
    _ = 2 ^ ulpExp p t * 2⁻¹ := by ring

/-- The rounding error of a number below `2 ^ (k + 1)` in size. -/
theorem roundTo_abs_err (p : Nat) (t : ℚ) (k : Int) (h : |t| < 2 ^ (k + 1)) :
    |roundTo p t - t| ≤ 2 ^ (k - (p : Int)) := by
  by_cases ht : t = 0
  · subst ht
    simp only [roundTo, if_true, sub_self, abs_zero]
    exact (two_zpow_pos _).le
  have hpos : 0 < |t| := abs_pos.2 ht
  have hlog : Int.log 2 |t| < k + 1 :=
    (Int.lt_zpow_iff_log_lt (b := 2) (by norm_num) hpos).1 (by simpa using h)
  refine le_trans (roundTo_half_ulp p t ht) ?_
  apply zpow_le_zpow_right₀ (by norm_num)
  unfold ulpExp
  omega

/-- The relative rounding error is at most `2 ^ -p`. -/
theorem roundTo_rel_err (p : Nat) (t : ℚ) : |roundTo p t - t| ≤ |t| / 2 ^ p := by
  by_cases ht : t = 0
  · subst ht
    simp [roundTo]
  have hpos : 0 < |t| := abs_pos.2 ht
  have h1 : ((2 : ℕ) : ℚ) ^ Int.log 2 |t| ≤ |t| := Int.zpow_log_le_self (by norm_num) hpos
  simp only [Nat.cast_ofNat] at h1
  refine le_trans (roundTo_half_ulp p t ht) ?_
  rw [le_div_iff₀ (by positivity), ← zpow_natCast, ← zpow_add₀ (by norm_num)]
  have : ulpExp p t - 1 + (p : Int) = Int.log 2 |t| := by unfold ulpExp; ring
  rw [this]
  exact h1

theorem roundTo_pos (p : Nat) (hp : 1 ≤ p) (t : ℚ) (ht : 0 < t) : 0 < roundTo p t := by
  have h := roundTo_rel_err p t
  rw [abs_of_pos ht, abs_le] at h
  have hp2 : (2 : ℚ) ≤ 2 ^ p := by
    calc (2 : ℚ) = 2 ^ 1 := by norm_num
      _ ≤ 2 ^ p := pow_le_pow_right₀ (by norm_num) hp
  have : t / 2 ^ p ≤ t / 2 := div_le_div_of_nonneg_left ht.le (by norm_num) hp2
  linarith


theorem fl64_mono (a b : ℚ) (h : a ≤ b) : fl64 a ≤ fl64 b := roundTo_mono 53 (by norm_num) a b h

theorem fl32_mono (a b : ℚ) (h : a ≤ b) : fl32 a ≤ fl32 b := roundTo_mono 24 (by norm_num) a b h

theorem fl64_fixed (t : ℚ) (n e : Int) (h : t = n * 2 ^ e) (hn : |n| ≤ 2 ^ 53) : fl64 t = t :=
  roundTo_fixed 53 (by norm_num) t ⟨n, e, h, hn⟩

theorem fl32_fixed (t : ℚ) (n e : Int) (h : t = n * 2 ^ e) (hn : |n| ≤ 2 ^ 24) : fl32 t = t :=
  roundTo_fixed 24 (by norm_num) t ⟨n, e, h, hn⟩

theorem fl64_zero : fl64 0 = 0 := by simp [fl64, roundTo]

/-- Evaluation of `roundTo` at a number that is not a tie, from its binade. -/
theorem roundTo_eval (p : Nat) (t : ℚ) (k n : Int) (h1 : (2 : ℚ) ^ k ≤ |t|)
    (h2 : |t| < 2 ^ (k + 1)) (h3 : (n : ℚ) - 1 / 2 < t / 2 ^ (k - ((p : Int) - 1)))
    (h4 : t / 2 ^ (k - ((p : Int) - 1)) < n + 1 / 2) :
    roundTo p t = n * 2 ^ (k - ((p : Int) - 1)) := by
  rw [roundTo_of_binade p t k h1 h2, roundHalfEven_eq _ n h3 h4]

/-- Evaluation of `roundTo` at a tie next to an even significand. -/
theorem roundTo_eval_tie (p : Nat) (t : ℚ) (k n : Int) (h1 : (2 : ℚ) ^ k ≤ |t|)
    (h2 : |t| < 2 ^ (k + 1)) (heven : n % 2 = 0)
    (h3 : t / 2 ^ (k - ((p : Int) - 1)) = n + 1 / 2 ∨
      t / 2 ^ (k - ((p : Int) - 1)) = n - 1 / 2) :
    roundTo p t = n * 2 ^ (k - ((p : Int) - 1)) := by
  rw [roundTo_of_binade p t k h1 h2, roundHalfEven_tie _ n heven h3]

/-! ## Aspect-preserving fit (C4, C5) -/

/-- C4: for a page of positive size `(w, h)` on the 1920×1440 buffer,
`renderPage` computes `scale = min (1920 / w) (1440 / h)` and hands the
rasterizer the scaled viewport `(w·scale, h·scale)` with the pure translation
`[1, 0, 0, 1, (1920 - w·scale) / 2, (1440 - h·scale) / 2]`; when the render
resolves, the buffer holds exactly that page over a white fill. -/
theorem C4_fit_scale_and_offsets (v : PDFViewer) (d : PDFDoc) (n : Int) (p : Page)
    (hidle : v.pageRendering = false) (hdoc : v.pdfDoc = some d)
    (hpage : d.getPage n = some p) (hrender : p.render = RenderOutcome.resolved)
    (hW : v.canvas.width = 1920) (hH : v.canvas.height = 1440)
    (_hw : 0 < p.width) (_hh : 0 < p.height) :
    PDFViewer.fitScale v.canvas p = min (1920 / p.width) (1440 / p.height) ∧
    (v.renderPageResume (RenderTask.awaitingPage (some p) n)).2 =
      some (RenderTask.awaitingRender p n
        (p.width * min (1920 / p.width) (1440 / p.height),
          p.height * min (1920 / p.width) (1440 / p.height))
        [1, 0, 0, 1,
          (1920 - p.width * min (1920 / p.width) (1440 / p.height)) / 2,
          (1440 - p.height * min (1920 / p.width) (1440 / p.height)) / 2]) ∧
    (v.renderPage n).canvas =
      { width := 1920, height := 1440, background := "#FFFFFF",
        paints := [Paint.page n
          (p.width * min (1920 / p.width) (1440 / p.height))
          (p.height * min (1920 / p.width) (1440 / p.height))
          [1, 0, 0, 1,
            (1920 - p.width * min (1920 / p.width) (1440 / p.height)) / 2,
            (1440 - p.height * min (1920 / p.width) (1440 / p.height)) / 2]] } := by
  refine ⟨?_, ?_, ?_⟩
  · simp [PDFViewer.fitScale, Page.getViewport, hW, hH]
  · simp [PDFViewer.renderPageResume, PDFViewer.fitScale, PDFViewer.fitOffset,
      Page.getViewport, hW, hH]
  · simp [PDFViewer.renderPage, PDFViewer.renderPageStart, PDFViewer.finish,
      PDFViewer.renderPageResume, PDFViewer.emit, PDFViewer.fitScale, PDFViewer.fitOffset,
      Page.getViewport, Canvas.fillRect, hidle, hdoc, hpage, hrender, hW, hH]

/-- C4 on the letter page: scale 20/11, viewport 12240/11 × 1440, offsets
4440/11 and 0. -/
theorem C4_fit_scale_and_offsets_witness :
    ((PDFViewer.new emptyUI).handleFileSelect (some threePageFile)).canvas =
      { width := 1920, height := 1440, background := "#FFFFFF",
        paints := [Paint.page 1 (12240 / 11) 1440 [1, 0, 0, 1, 4440 / 11, 0]] } := by
  have hmin : min ((1920 : ℚ) / 612) (1440 / 792) = 20 / 11 := by
    rw [min_eq_right (by norm_num)]; norm_num
  have h := (C4_fit_scale_and_offsets
    { (((PDFViewer.new emptyUI).renderLoadingCanvas.emit (Effect.arrayBuffer "slides.pdf"))) with
      pdfDoc := some { pages := [some letterPage, some letterPage, some letterPage] }
      totalPages := 3
      currentPage := 1
      ui := { pageInfo := "Page 1 / 3", prevDisabled := true, nextDisabled := false,
              pdfFilename := "slides.pdf", pdfInfoHidden := false } }
    { pages := [some letterPage, some letterPage, some letterPage] } 1 letterPage
    rfl rfl rfl rfl rfl rfl (by norm_num [letterPage]) (by norm_num [letterPage])).2.2
  simp only [letterPage, hmin] at h
  norm_num at h
  exact h

/-- In exact arithmetic, for a page of positive size on the 1920×1440 buffer,
the viewport handed to the rasterizer is the page scaled by one positive factor
on both axes, the offsets are non-negative, the placed page ends inside the
buffer on both axes, and one of the two offsets is zero. -/
theorem PDFViewer.fit_exact (c : Canvas) (p : Page)
    (hW : c.width = 1920) (hH : c.height = 1440) (hw : 0 < p.width) (hh : 0 < p.height) :
    0 < PDFViewer.fitScale c p ∧
    p.getViewport (PDFViewer.fitScale c p)
      = (p.width * PDFViewer.fitScale c p, p.height * PDFViewer.fitScale c p) ∧
    0 ≤ (PDFViewer.fitOffset c (p.getViewport (PDFViewer.fitScale c p))).1 ∧
    0 ≤ (PDFViewer.fitOffset c (p.getViewport (PDFViewer.fitScale c p))).2 ∧
    (PDFViewer.fitOffset c (p.getViewport (PDFViewer.fitScale c p))).1
      + (p.getViewport (PDFViewer.fitScale c p)).1 ≤ 1920 ∧
    (PDFViewer.fitOffset c (p.getViewport (PDFViewer.fitScale c p))).2
      + (p.getViewport (PDFViewer.fitScale c p)).2 ≤ 1440 ∧
    ((PDFViewer.fitOffset c (p.getViewport (PDFViewer.fitScale c p))).1 = 0 ∨
      (PDFViewer.fitOffset c (p.getViewport (PDFViewer.fitScale c p))).2 = 0) := by
  have hs : PDFViewer.fitScale c p = min (1920 / p.width) (1440 / p.height) := by
    simp [PDFViewer.fitScale, Page.getViewport, hW, hH]
  have hpos : 0 < PDFViewer.fitScale c p := by
    rw [hs]; exact lt_min (div_pos (by norm_num) hw) (div_pos (by norm_num) hh)
  have hsw : p.width * PDFViewer.fitScale c p ≤ 1920 := by
    have h1 : PDFViewer.fitScale c p ≤ 1920 / p.width := by rw [hs]; exact min_le_left _ _
    have h2 := mul_le_mul_of_nonneg_left h1 hw.le
    rwa [mul_div_cancel₀ _ hw.ne'] at h2
  have hsh : p.height * PDFViewer.fitScale c p ≤ 1440 := by
    have h1 : PDFViewer.fitScale c p ≤ 1440 / p.height := by rw [hs]; exact min_le_right _ _
    have h2 := mul_le_mul_of_nonneg_left h1 hh.le
    rwa [mul_div_cancel₀ _ hh.ne'] at h2
  have hfill : p.width * PDFViewer.fitScale c p = 1920 ∨
      p.height * PDFViewer.fitScale c p = 1440 := by
    rcases le_total ((1920 : ℚ) / p.width) (1440 / p.height) with h | h
    · left; rw [hs, min_eq_left h, mul_div_cancel₀ _ hw.ne']
    · right; rw [hs, min_eq_right h, mul_div_cancel₀ _ hh.ne']
  simp only [PDFViewer.fitOffset, Page.getViewport, hW, hH]
  refine ⟨hpos, trivial, by linarith, by linarith, by linarith, by linarith, ?_⟩
  rcases hfill with h | h
  · left; rw [h]; norm_num
  · right; rw [h]; norm_num

/-- The scaled side of a page: the product of a side `w` with a scale no
larger than the rounded quotient `W / w` exceeds `W` by at most one unit in the
last place. -/
theorem fit_scaled_le (W w s : ℚ) (hW0 : 0 < W) (hW : W ≤ 2048) (hw : 0 < w)
    (hs : s ≤ fl64 (W / w)) (hfix : fl64 (W + 1 / 2 ^ 42) = W + 1 / 2 ^ 42) :
    fl64 (w * s) ≤ W + 1 / 2 ^ 42 := by
  have hq : 0 < W / w := div_pos hW0 hw
  have hr := roundTo_rel_err 53 (W / w)
  rw [abs_of_pos hq, abs_le] at hr
  have h1 : fl64 (W / w) ≤ W / w + W / w / 2 ^ 53 := by unfold fl64; linarith
  have h2 : w * s ≤ w * (W / w + W / w / 2 ^ 53) :=
    mul_le_mul_of_nonneg_left (le_trans hs h1) hw.le
  have h3 : w * (W / w + W / w / 2 ^ 53) = W + W / 2 ^ 53 := by field_simp; ring
  have h4 : w * s ≤ W + 1 / 2 ^ 42 := by
    rw [h3] at h2
    have : W / 2 ^ 53 ≤ 1 / 2 ^ 42 := by
      rw [div_le_iff₀ (by positivity)]
      norm_num
      linarith
    linarith
  rw [← hfix]
  exact fl64_mono _ _ h4

theorem fit_scaled_ge (W w : ℚ) (hW0 : 0 < W) (hW : W ≤ 2048) (hw : 0 < w)
    (hfix : fl64 (W - 1 / 2 ^ 42) = W - 1 / 2 ^ 42) :
    W - 1 / 2 ^ 42 ≤ fl64 (w * fl64 (W / w)) := by
  have hq : 0 < W / w := div_pos hW0 hw
  have hr := roundTo_rel_err 53 (W / w)
  rw [abs_of_pos hq, abs_le] at hr
  have h1 : W / w - W / w / 2 ^ 53 ≤ fl64 (W / w) := by unfold fl64; linarith
  have h2 : w * (W / w - W / w / 2 ^ 53) ≤ w * fl64 (W / w) :=
    mul_le_mul_of_nonneg_left h1 hw.le
  have h3 : w * (W / w - W / w / 2 ^ 53) = W - W / 2 ^ 53 := by field_simp; ring
  have h4 : W - 1 / 2 ^ 42 ≤ w * fl64 (W / w) := by
    rw [h3] at h2
    have : W / 2 ^ 53 ≤ 1 / 2 ^ 42 := by
      rw [div_le_iff₀ (by positivity)]
      norm_num
      linarith
    linarith
  rw [← hfix]
  exact fl64_mono _ _ h4

/-- The offset computed from a scaled side that exceeds `W` by at most one unit
in the last place. -/
theorem fit_offset (W sw : ℚ) (hsw : sw ≤ W + 1 / 2 ^ 42) :
    -(1 / 2 ^ 43) ≤ fl64 (fl64 (W - sw) / 2) ∧
    fl64 (fl64 (W - sw) / 2) + sw ≤ W + 1 / 2 ^ 42 ∧
    (sw ≤ W → 0 ≤ fl64 (fl64 (W - sw) / 2) ∧ fl64 (fl64 (W - sw) / 2) + sw ≤ W) ∧
    (W - 1 / 2 ^ 42 ≤ sw → |fl64 (fl64 (W - sw) / 2)| ≤ 1 / 2 ^ 43) := by
  have f1 : fl64 (-(1 / 2 ^ 42)) = -(1 / 2 ^ 42) :=
    fl64_fixed _ (-1) (-42) (by norm_num) (by norm_num)
  have f2 : fl64 (-(1 / 2 ^ 43)) = -(1 / 2 ^ 43) :=
    fl64_fixed _ (-1) (-43) (by norm_num) (by norm_num)
  have f3 : fl64 (1 / 2 ^ 42) = 1 / 2 ^ 42 :=
    fl64_fixed _ 1 (-42) (by norm_num) (by norm_num)
  have f4 : fl64 (1 / 2 ^ 43) = 1 / 2 ^ 43 :=
    fl64_fixed _ 1 (-43) (by norm_num) (by norm_num)
  have hlow1 : -(1 / 2 ^ 42) ≤ fl64 (W - sw) := by
    rw [← f1]; exact fl64_mono _ _ (by linarith)
  have hlow : -(1 / 2 ^ 43) ≤ fl64 (fl64 (W - sw) / 2) := by
    rw [← f2]; exact fl64_mono _ _ (by linarith)
  have hin : sw ≤ W → 0 ≤ fl64 (fl64 (W - sw) / 2) ∧ fl64 (fl64 (W - sw) / 2) + sw ≤ W := by
    intro h
    have hd : 0 ≤ W - sw := by linarith
    have h0 : 0 ≤ fl64 (W - sw) := by
      rw [← fl64_zero]; exact fl64_mono _ _ hd
    have h1 : 0 ≤ fl64 (fl64 (W - sw) / 2) := by
      rw [← fl64_zero]; exact fl64_mono _ _ (by linarith)
    have e1 := roundTo_rel_err 53 (W - sw)
    rw [abs_of_nonneg hd, abs_le] at e1
    have e2 := roundTo_rel_err 53 (fl64 (W - sw) / 2)
    rw [abs_of_nonneg (by linarith : 0 ≤ fl64 (W - sw) / 2), abs_le] at e2
    have e1' : fl64 (W - sw) ≤ (W - sw) * (1 + 1 / 2 ^ 53) := by
      unfold fl64; linarith
    have e2' : fl64 (fl64 (W - sw) / 2) ≤ fl64 (W - sw) / 2 * (1 + 1 / 2 ^ 53) := by
      unfold fl64 at *; linarith
    have e3 : fl64 (W - sw) / 2 * (1 + 1 / 2 ^ 53) ≤
        (W - sw) * (1 + 1 / 2 ^ 53) / 2 * (1 + 1 / 2 ^ 53) := by
      apply mul_le_mul_of_nonneg_right _ (by norm_num)
      linarith
    have e4 : (W - sw) * (1 + 1 / 2 ^ 53) / 2 * (1 + 1 / 2 ^ 53) ≤ W - sw := by
      have : (W - sw) * (1 + 1 / 2 ^ 53) / 2 * (1 + 1 / 2 ^ 53) =
          (W - sw) * ((1 + 1 / 2 ^ 53) * (1 + 1 / 2 ^ 53) / 2) := by ring
      rw [this]
      calc (W - sw) * ((1 + 1 / 2 ^ 53) * (1 + 1 / 2 ^ 53) / 2) ≤ (W - sw) * 1 :=
            mul_le_mul_of_nonneg_left (by norm_num) hd
        _ = W - sw := mul_one _
    exact ⟨h1, by linarith⟩
  refine ⟨hlow, ?_, hin, ?_⟩
  · rcases le_or_lt sw W with h | h
    · have := (hin h).2
      have : (0 : ℚ) ≤ 1 / 2 ^ 42 := by norm_num
      linarith
    · have h0 : fl64 (W - sw) ≤ 0 := by
        rw [← fl64_zero]; exact fl64_mono _ _ (by linarith)
      have h1 : fl64 (fl64 (W - sw) / 2) ≤ 0 := by
        rw [← fl64_zero]; exact fl64_mono _ _ (by linarith)
      linarith
  · intro h
    have hup1 : fl64 (W - sw) ≤ 1 / 2 ^ 42 := by
      rw [← f3]; exact fl64_mono _ _ (by linarith)
    have hup : fl64 (fl64 (W - sw) / 2) ≤ 1 / 2 ^ 43 := by
      rw [← f4]; exact fl64_mono _ _ (by linarith)
    rw [abs_le]
    exact ⟨hlow, hup⟩


theorem a3_scale (c : Canvas) (hW : c.width = 1920) (hH : c.height = 1440) :
    PDFViewer.fitScale64 c a3Page = 5445158239641910 / 2 ^ 52 := by
  have hw : fl64 842 = 842 := fl64_fixed _ 842 0 (by norm_num) (by norm_num)
  have hh : fl64 1191 = 1191 := fl64_fixed _ 1191 0 (by norm_num) (by norm_num)
  have h2 : fl64 2 = 2 := fl64_fixed _ 2 0 (by norm_num) (by norm_num)
  have hs2 : fl64 (1440 / 1191) = 5445158239641910 / 2 ^ 52 := by
    have := roundTo_eval 53 (1440 / 1191) 0 5445158239641910
      (by rw [abs_of_pos (by norm_num)]; norm_num)
      (by rw [abs_of_pos (by norm_num)]; norm_num) (by norm_num) (by norm_num)
    unfold fl64
    rw [this]
    norm_num
  have hs1 : 2 ≤ fl64 (1920 / 842) := by
    rw [← h2]; exact fl64_mono _ _ (by norm_num)
  simp only [PDFViewer.fitScale64, Page.getViewport64, hW, hH, a3Page, mul_one, hw, hh, hs2]
  apply min_eq_right
  refine le_trans ?_ hs1
  norm_num

/-- The numbers `renderPage` computes for the A3 page on a 1920×1440 buffer. -/
theorem a3_offsets (c : Canvas) (hW : c.width = 1920) (hH : c.height = 1440) :
    (a3Page.getViewport64 (PDFViewer.fitScale64 c a3Page)).2 = 1440 + 1 / 2 ^ 42 ∧
    (PDFViewer.fitOffset64 c
      (a3Page.getViewport64 (PDFViewer.fitScale64 c a3Page))).2 = -(1 / 2 ^ 43) ∧
    448 ≤ (PDFViewer.fitOffset64 c
      (a3Page.getViewport64 (PDFViewer.fitScale64 c a3Page))).1 ∧
    ¬ (0 ≤ (PDFViewer.fitOffset64 c
      (a3Page.getViewport64 (PDFViewer.fitScale64 c a3Page))).2) ∧
    ¬ ((PDFViewer.fitOffset64 c
        (a3Page.getViewport64 (PDFViewer.fitScale64 c a3Page))).2 +
      (a3Page.getViewport64 (PDFViewer.fitScale64 c a3Page)).2 ≤ 1440) ∧
    ¬ ((PDFViewer.fitOffset64 c
        (a3Page.getViewport64 (PDFViewer.fitScale64 c a3Page))).1 = 0 ∨
      (PDFViewer.fitOffset64 c
        (a3Page.getViewport64 (PDFViewer.fitScale64 c a3Page))).2 = 0) := by
  have hsh : fl64 (1191 * (5445158239641910 / 2 ^ 52)) = 1440 + 1 / 2 ^ 42 := by
    have := roundTo_eval 53 (1191 * (5445158239641910 / 2 ^ 52)) 10 6333186975989761
      (by rw [abs_of_pos (by norm_num)]; norm_num)
      (by rw [abs_of_pos (by norm_num)]; norm_num) (by norm_num) (by norm_num)
    unfold fl64
    rw [this]
    norm_num
  have f1 : fl64 (-(1 / 2 ^ 42)) = -(1 / 2 ^ 42) :=
    fl64_fixed _ (-1) (-42) (by norm_num) (by norm_num)
  have f2 : fl64 (-(1 / 2 ^ 43)) = -(1 / 2 ^ 43) :=
    fl64_fixed _ (-1) (-43) (by norm_num) (by norm_num)
  have f3 : fl64 1024 = 1024 := fl64_fixed _ 1024 0 (by norm_num) (by norm_num)
  have f4 : fl64 896 = 896 := fl64_fixed _ 896 0 (by norm_num) (by norm_num)
  have f5 : fl64 448 = 448 := fl64_fixed _ 448 0 (by norm_num) (by norm_num)
  have hsw : fl64 (842 * (5445158239641910 / 2 ^ 52)) ≤ 1024 := by
    rw [← f3]; exact fl64_mono _ _ (by norm_num)
  have hy : fl64 (fl64 (1440 - (1440 + 1 / 2 ^ 42)) / 2) = -(1 / 2 ^ 43) := by
    have e1 : (1440 : ℚ) - (1440 + 1 / 2 ^ 42) = -(1 / 2 ^ 42) := by ring
    have e2 : (-(1 / 2 ^ 42) : ℚ) / 2 = -(1 / 2 ^ 43) := by norm_num
    rw [e1, f1, e2, f2]
  have hx : 448 ≤ fl64 (fl64 (1920 - fl64 (842 * (5445158239641910 / 2 ^ 52))) / 2) := by
    have h1 : 896 ≤ fl64 (1920 - fl64 (842 * (5445158239641910 / 2 ^ 52))) := by
      rw [← f4]; exact fl64_mono _ _ (by linarith)
    rw [← f5]
    exact fl64_mono _ _ (by linarith)
  simp only [a3_scale c hW hH]
  simp only [Page.getViewport64, PDFViewer.fitOffset64, hW, hH, a3Page, hsh, hy]
  refine ⟨trivial, trivial, hx, by norm_num, by norm_num, ?_⟩
  rintro (h | h)
  · rw [h] at hx; norm_num at hx
  · norm_num at h

/-- C5 fails as stated: for an A3 page (842 × 1191 points) on the 1920×1440
buffer, the binary64 numbers that `renderPage` computes are a scaled height of
`1440 + 2⁻⁴²` and `offsetY = -2⁻⁴³`, with `offsetX ≥ 448`: `offsetY` is
negative, the placed page ends below the buffer, and neither offset is 0. -/
theorem C5_counterexample :
    (a3Page.getViewport64 (PDFViewer.fitScale64 (PDFViewer.new emptyUI).canvas a3Page)).2 = 1440 + 1 / 2 ^ 42 ∧
    (PDFViewer.fitOffset64 (PDFViewer.new emptyUI).canvas
      (a3Page.getViewport64 (PDFViewer.fitScale64 (PDFViewer.new emptyUI).canvas a3Page))).2 = -(1 / 2 ^ 43) ∧
    448 ≤ (PDFViewer.fitOffset64 (PDFViewer.new emptyUI).canvas
      (a3Page.getViewport64 (PDFViewer.fitScale64 (PDFViewer.new emptyUI).canvas a3Page))).1 ∧
    ¬ (0 ≤ (PDFViewer.fitOffset64 (PDFViewer.new emptyUI).canvas
      (a3Page.getViewport64 (PDFViewer.fitScale64 (PDFViewer.new emptyUI).canvas a3Page))).2) ∧
    ¬ ((PDFViewer.fitOffset64 (PDFViewer.new emptyUI).canvas
        (a3Page.getViewport64 (PDFViewer.fitScale64 (PDFViewer.new emptyUI).canvas a3Page))).2 +
      (a3Page.getViewport64 (PDFViewer.fitScale64 (PDFViewer.new emptyUI).canvas a3Page)).2 ≤ 1440) ∧
    ¬ ((PDFViewer.fitOffset64 (PDFViewer.new emptyUI).canvas
        (a3Page.getViewport64 (PDFViewer.fitScale64 (PDFViewer.new emptyUI).canvas a3Page))).1 = 0 ∨
      (PDFViewer.fitOffset64 (PDFViewer.new emptyUI).canvas
        (a3Page.getViewport64 (PDFViewer.fitScale64 (PDFViewer.new emptyUI).canvas a3Page))).2 = 0) :=
  a3_offsets _ rfl rfl

/-- C5 with the rounding of JavaScript numbers: for a page whose sides are
positive binary64 numbers, on the 1920×1440 buffer, `renderPage` uses one
positive scale for both sides of the viewport; each offset is at least `-2⁻⁴³`
and the placed page ends at most `2⁻⁴²` beyond the buffer on each axis; on an
axis where the scaled side does not exceed the buffer the offset is
non-negative and the placed page ends inside the buffer; and one of the two
offsets is at most `2⁻⁴³` in size. -/
theorem C5_page_fits_buffer (c : Canvas) (p : Page)
    (hW : c.width = 1920) (hH : c.height = 1440) (hw : 0 < p.width) (hh : 0 < p.height)
    (hw64 : fl64 p.width = p.width) (hh64 : fl64 p.height = p.height) :
    0 < PDFViewer.fitScale64 c p ∧
    p.getViewport64 (PDFViewer.fitScale64 c p) =
      (fl64 (p.width * PDFViewer.fitScale64 c p), fl64 (p.height * PDFViewer.fitScale64 c p)) ∧
    -(1 / 2 ^ 43) ≤ (PDFViewer.fitOffset64 c (p.getViewport64 (PDFViewer.fitScale64 c p))).1 ∧
    -(1 / 2 ^ 43) ≤ (PDFViewer.fitOffset64 c (p.getViewport64 (PDFViewer.fitScale64 c p))).2 ∧
    (PDFViewer.fitOffset64 c (p.getViewport64 (PDFViewer.fitScale64 c p))).1
      + (p.getViewport64 (PDFViewer.fitScale64 c p)).1 ≤ 1920 + 1 / 2 ^ 42 ∧
    (PDFViewer.fitOffset64 c (p.getViewport64 (PDFViewer.fitScale64 c p))).2
      + (p.getViewport64 (PDFViewer.fitScale64 c p)).2 ≤ 1440 + 1 / 2 ^ 42 ∧
    ((p.getViewport64 (PDFViewer.fitScale64 c p)).1 ≤ 1920 →
      0 ≤ (PDFViewer.fitOffset64 c (p.getViewport64 (PDFViewer.fitScale64 c p))).1 ∧
      (PDFViewer.fitOffset64 c (p.getViewport64 (PDFViewer.fitScale64 c p))).1
        + (p.getViewport64 (PDFViewer.fitScale64 c p)).1 ≤ 1920) ∧
    ((p.getViewport64 (PDFViewer.fitScale64 c p)).2 ≤ 1440 →
      0 ≤ (PDFViewer.fitOffset64 c (p.getViewport64 (PDFViewer.fitScale64 c p))).2 ∧
      (PDFViewer.fitOffset64 c (p.getViewport64 (PDFViewer.fitScale64 c p))).2
        + (p.getViewport64 (PDFViewer.fitScale64 c p)).2 ≤ 1440) ∧
    (|(PDFViewer.fitOffset64 c (p.getViewport64 (PDFViewer.fitScale64 c p))).1| ≤ 1 / 2 ^ 43 ∨
      |(PDFViewer.fitOffset64 c (p.getViewport64 (PDFViewer.fitScale64 c p))).2| ≤ 1 / 2 ^ 43) := by
  have hs : PDFViewer.fitScale64 c p = min (fl64 (1920 / p.width)) (fl64 (1440 / p.height)) := by
    simp [PDFViewer.fitScale64, Page.getViewport64, hW, hH, hw64, hh64]
  have hp1 : 0 < fl64 (1920 / p.width) := roundTo_pos 53 (by norm_num) _ (div_pos (by norm_num) hw)
  have hp2 : 0 < fl64 (1440 / p.height) := roundTo_pos 53 (by norm_num) _ (div_pos (by norm_num) hh)
  have hpos : 0 < PDFViewer.fitScale64 c p := by rw [hs]; exact lt_min hp1 hp2
  have g1 : fl64 (1920 + 1 / 2 ^ 42) = 1920 + 1 / 2 ^ 42 :=
    fl64_fixed _ (1920 * 2 ^ 42 + 1) (-42) (by norm_num) (by norm_num)
  have g2 : fl64 (1440 + 1 / 2 ^ 42) = 1440 + 1 / 2 ^ 42 :=
    fl64_fixed _ (1440 * 2 ^ 42 + 1) (-42) (by norm_num) (by norm_num)
  have g3 : fl64 (1920 - 1 / 2 ^ 42) = 1920 - 1 / 2 ^ 42 :=
    fl64_fixed _ (1920 * 2 ^ 42 - 1) (-42) (by norm_num) (by norm_num)
  have g4 : fl64 (1440 - 1 / 2 ^ 42) = 1440 - 1 / 2 ^ 42 :=
    fl64_fixed _ (1440 * 2 ^ 42 - 1) (-42) (by norm_num) (by norm_num)
  have hsw : fl64 (p.width * PDFViewer.fitScale64 c p) ≤ 1920 + 1 / 2 ^ 42 :=
    fit_scaled_le 1920 p.width _ (by norm_num) (by norm_num) hw
      (by rw [hs]; exact min_le_left _ _) g1
  have hsh : fl64 (p.height * PDFViewer.fitScale64 c p) ≤ 1440 + 1 / 2 ^ 42 :=
    fit_scaled_le 1440 p.height _ (by norm_num) (by norm_num) hh
      (by rw [hs]; exact min_le_right _ _) g2
  have ox := fit_offset 1920 _ hsw
  have oy := fit_offset 1440 _ hsh
  simp only [PDFViewer.fitOffset64, Page.getViewport64, hW, hH]
  refine ⟨hpos, trivial, ox.1, oy.1, ox.2.1, oy.2.1, ox.2.2.1, oy.2.2.1, ?_⟩
  rcases le_total (fl64 (1920 / p.width)) (fl64 (1440 / p.height)) with h | h
  · left
    apply ox.2.2.2
    rw [hs, min_eq_left h]
    exact fit_scaled_ge 1920 p.width (by norm_num) (by norm_num) hw g3
  · right
    apply oy.2.2.2
    rw [hs, min_eq_right h]
    exact fit_scaled_ge 1440 p.height (by norm_num) (by norm_num) hh g4

/-- C5 on the A3 page, where the scaled height exceeds the buffer by `2⁻⁴²`:
`offsetY ≥ -2⁻⁴³`, the placed page ends at most `2⁻⁴²` below the buffer, and
one of the offsets is at most `2⁻⁴³` in size. -/
theorem C5_page_fits_buffer_witness :
    -(1 / 2 ^ 43) ≤ (PDFViewer.fitOffset64 (PDFViewer.new emptyUI).canvas
      (a3Page.getViewport64 (PDFViewer.fitScale64 (PDFViewer.new emptyUI).canvas a3Page))).2 ∧
    (PDFViewer.fitOffset64 (PDFViewer.new emptyUI).canvas
        (a3Page.getViewport64 (PDFViewer.fitScale64 (PDFViewer.new emptyUI).canvas a3Page))).2
      + (a3Page.getViewport64 (PDFViewer.fitScale64 (PDFViewer.new emptyUI).canvas a3Page)).2
      ≤ 1440 + 1 / 2 ^ 42 ∧
    (|(PDFViewer.fitOffset64 (PDFViewer.new emptyUI).canvas
        (a3Page.getViewport64
          (PDFViewer.fitScale64 (PDFViewer.new emptyUI).canvas a3Page))).1| ≤ 1 / 2 ^ 43 ∨
      |(PDFViewer.fitOffset64 (PDFViewer.new emptyUI).canvas
        (a3Page.getViewport64
          (PDFViewer.fitScale64 (PDFViewer.new emptyUI).canvas a3Page))).2| ≤ 1 / 2 ^ 43) := by
  have h := C5_page_fits_buffer (PDFViewer.new emptyUI).canvas a3Page rfl rfl
    (by norm_num [a3Page]) (by norm_num [a3Page])
    (fl64_fixed _ 842 0 (by norm_num [a3Page]) (by norm_num))
    (fl64_fixed _ 1191 0 (by norm_num [a3Page]) (by norm_num))
  exact ⟨h.2.2.2.1, h.2.2.2.2.2.1, h.2.2.2.2.2.2.2.2⟩

/-! ## Single flight and render failure (C6, C7) -/

/-- C6: a `renderPage(n)` call made while `pageRendering` is set returns at
once and changes nothing: no page is requested (the record of outside calls is
the same), and the raster buffer, dirty flag, `currentPage`, `totalPages` and
`pageRendering` are as before; no render is left suspended by the call. -/
theorem C6_single_flight (v : PDFViewer) (n : Int) (hbusy : v.pageRendering = true) :
    v.renderPageStart n = (v, none) ∧ v.renderPage n = v := by
  simp [PDFViewer.renderPage, PDFViewer.renderPageStart, PDFViewer.finish, hbusy]

/-- C6 on the viewer suspended in the load-time render of page 1: asking for
page 2 then changes nothing. -/
theorem C6_single_flight_witness :
    (((PDFViewer.new emptyUI).handleFileSelectStart (some threePageFile)).1.handleFileSelectResume
        threePageFile).1.renderPage 2 =
    (((PDFViewer.new emptyUI).handleFileSelectStart (some threePageFile)).1.handleFileSelectResume
        threePageFile).1 :=
  (C6_single_flight _ 2 (by decide)).2

/-- C7 fails as stated: on the viewer showing page 1 of a document whose page 2
is found but rejects its render, `renderPage(2)` is a failed rasterization, yet
the buffer no longer holds page 1 afterwards: it was cleared before the render
was attempted. -/
theorem C7_counterexample :
    ((PDFViewer.new emptyUI).handleFileSelect (some halfBrokenFile)).pageRendering = false ∧
    (∃ d p painted,
      ((PDFViewer.new emptyUI).handleFileSelect (some halfBrokenFile)).pdfDoc = some d ∧
      d.getPage 2 = some p ∧ p.render = RenderOutcome.rejected painted) ∧
    (((PDFViewer.new emptyUI).handleFileSelect (some halfBrokenFile)).renderPage 2).canvas ≠
      ((PDFViewer.new emptyUI).handleFileSelect (some halfBrokenFile)).canvas := by
  refine ⟨by decide, ⟨_, brokenPage, [], rfl, by decide, rfl⟩, ?_⟩
  intro h
  have h1 := congrArg Canvas.lastRasterized h
  revert h1
  decide

/-- C7, amended: a `renderPage(n)` call that starts (no render in flight) and
fails does not raise: it ends with `pageRendering` cleared, the error logged
and the dirty flag as it was.  When no document is loaded or the page lookup
rejects, the raster buffer is unchanged; when the page is found and its render
rejects, the buffer holds the white fill made before the render plus whatever
the failed render painted. -/
theorem C7_render_failure (v : PDFViewer) (n : Int) (hidle : v.pageRendering = false) :
    ((v.pdfDoc = none ∨ ∃ d, v.pdfDoc = some d ∧ d.getPage n = none) →
      (v.renderPage n).canvas = v.canvas ∧
      (v.renderPage n).needsUpdate = v.needsUpdate ∧
      (v.renderPage n).pageRendering = false ∧
      (v.renderPage n).effects.getLast? = some (Effect.consoleError "Error rendering page:")) ∧
    (∀ d p painted, v.pdfDoc = some d → d.getPage n = some p →
      p.render = RenderOutcome.rejected painted →
      (v.renderPage n).canvas = { v.canvas with background := "#FFFFFF", paints := painted } ∧
      (v.renderPage n).needsUpdate = v.needsUpdate ∧
      (v.renderPage n).pageRendering = false ∧
      (v.renderPage n).effects.getLast? = some (Effect.consoleError "Error rendering page:")) := by
  constructor
  · rintro (hdoc | ⟨d, hdoc, hpage⟩)
    · simp [PDFViewer.renderPage, PDFViewer.renderPageStart, PDFViewer.finish,
        PDFViewer.renderPageCatch, PDFViewer.emit, hidle, hdoc]
    · simp [PDFViewer.renderPage, PDFViewer.renderPageStart, PDFViewer.finish,
        PDFViewer.renderPageResume, PDFViewer.renderPageCatch, PDFViewer.emit, hidle, hdoc,
        hpage]
  · intro d p painted hdoc hpage hrender
    simp [PDFViewer.renderPage, PDFViewer.renderPageStart, PDFViewer.finish,
      PDFViewer.renderPageResume, PDFViewer.renderPageCatch, PDFViewer.emit, Canvas.fillRect,
      hidle, hdoc, hpage, hrender]

/-- C7 amended, at the two failures of the half-broken document: page 3 does not
exist and the buffer keeps page 1; page 2 rejects and the buffer is left white. -/
theorem C7_render_failure_witness :
    (((PDFViewer.new emptyUI).handleFileSelect (some halfBrokenFile)).renderPage 3).canvas =
      ((PDFViewer.new emptyUI).handleFileSelect (some halfBrokenFile)).canvas ∧
    (((PDFViewer.new emptyUI).handleFileSelect (some halfBrokenFile)).renderPage 2).canvas =
      { ((PDFViewer.new emptyUI).handleFileSelect (some halfBrokenFile)).canvas with
        background := "#FFFFFF", paints := [] } :=
  ⟨((C7_render_failure ((PDFViewer.new emptyUI).handleFileSelect (some halfBrokenFile)) 3
      (by decide)).1 (Or.inr ⟨_, rfl, by decide⟩)).1,
   ((C7_render_failure ((PDFViewer.new emptyUI).handleFileSelect (some halfBrokenFile)) 2
      (by decide)).2 _ brokenPage [] rfl (by decide) rfl).1⟩

/-! ## Uploads that fail (C9, C10) -/

/-- C9: when no file is selected or the selected file's declared type is not
exactly `application/pdf`, `handleFileSelect` only raises the alert: no decode
is started and `totalPages`, `currentPage`, the document handle, the raster
buffer (and every other field of the viewer) are unchanged. -/
theorem C9_wrong_type_rejected (v : PDFViewer) (file : Option File)
    (hbad : ∀ f, file = some f → f.type ≠ "application/pdf") :
    v.handleFileSelectStart file =
      (v.emit (Effect.alert "Please select a valid PDF file"), none) ∧
    v.handleFileSelect file = v.emit (Effect.alert "Please select a valid PDF file") ∧
    (v.handleFileSelect file).totalPages = v.totalPages ∧
    (v.handleFileSelect file).currentPage = v.currentPage ∧
    (v.handleFileSelect file).pdfDoc = v.pdfDoc ∧
    (v.handleFileSelect file).canvas = v.canvas := by
  have hstart : v.handleFileSelectStart file =
      (v.emit (Effect.alert "Please select a valid PDF file"), none) := by
    cases file with
    | none => rfl
    | some f => simp [PDFViewer.handleFileSelectStart, hbad f rfl]
  have hall : v.handleFileSelect file = v.emit (Effect.alert "Please select a valid PDF file") := by
    simp [PDFViewer.handleFileSelect, hstart]
  refine ⟨hstart, hall, ?_, ?_, ?_, ?_⟩ <;> rw [hall] <;> rfl

/-- C9 on a PNG upload made while page 1 of the three-page document is shown. -/
theorem C9_wrong_type_rejected_witness :
    ((PDFViewer.new emptyUI).handleFileSelect (some threePageFile)).handleFileSelect (some pngFile)
      = ((PDFViewer.new emptyUI).handleFileSelect (some threePageFile)).emit
          (Effect.alert "Please select a valid PDF file") :=
  (C9_wrong_type_rejected ((PDFViewer.new emptyUI).handleFileSelect (some threePageFile))
    (some pngFile) (by intro f hf; cases hf; decide)).2.1

/-- C10 fails as stated: with page 1 of the three-page document on the buffer,
uploading a file declared as PDF that does not decode leaves a different
buffer (the page is gone). -/
theorem C10_counterexample :
    corruptFile.type = "application/pdf" ∧ corruptFile.decode = none ∧
    (((PDFViewer.new emptyUI).handleFileSelect (some threePageFile)).handleFileSelect
        (some corruptFile)).canvas ≠
      ((PDFViewer.new emptyUI).handleFileSelect (some threePageFile)).canvas := by
  refine ⟨rfl, rfl, ?_⟩
  intro h
  have h1 := congrArg Canvas.lastRasterized h
  revert h1
  decide

/-- C10, amended: when a file declared as `application/pdf` fails to decode,
`handleFileSelect` leaves the document handle, `totalPages`, `currentPage` and
`pageRendering` unchanged, reports the error, and replaces the raster buffer by
the blank "Upload a PDF to view" placeholder, marking the texture dirty. -/
theorem C10_decode_failure (v : PDFViewer) (f : File)
    (htype : f.type = "application/pdf") (hdec : f.decode = none) :
    (v.handleFileSelect (some f)).pdfDoc = v.pdfDoc ∧
    (v.handleFileSelect (some f)).totalPages = v.totalPages ∧
    (v.handleFileSelect (some f)).currentPage = v.currentPage ∧
    (v.handleFileSelect (some f)).pageRendering = v.pageRendering ∧
    (v.handleFileSelect (some f)).canvas = v.renderBlankCanvas.canvas ∧
    (v.handleFileSelect (some f)).needsUpdate = true ∧
    (v.handleFileSelect (some f)).effects = v.effects ++
      [Effect.arrayBuffer f.name, Effect.consoleError "Error loading PDF:",
        Effect.alert "Error loading PDF file"] := by
  simp [PDFViewer.handleFileSelect, PDFViewer.handleFileSelectStart,
    PDFViewer.handleFileSelectResume, PDFViewer.finish, PDFViewer.renderBlankCanvas,
    PDFViewer.renderLoadingCanvas, PDFViewer.emit, Canvas.fillRect, Canvas.fillText, htype, hdec]

/-- C10 amended, on the corrupt upload made while page 1 of the three-page
document is shown: the document stays loaded, the buffer shows the placeholder. -/
theorem C10_decode_failure_witness :
    (((PDFViewer.new emptyUI).handleFileSelect (some threePageFile)).handleFileSelect
        (some corruptFile)).pdfDoc = threePageFile.decode ∧
    (((PDFViewer.new emptyUI).handleFileSelect (some threePageFile)).handleFileSelect
        (some corruptFile)).canvas = (PDFViewer.new emptyUI).canvas := by
  have h := C10_decode_failure ((PDFViewer.new emptyUI).handleFileSelect (some threePageFile))
    corruptFile rfl rfl
  exact ⟨h.1, h.2.2.2.2.1⟩

/-! ## The buffer and the current page (C8) -/

/-- C8 fails as stated: load the three-page document; while the render of
page 1 is waiting for its page, click "next" (the index becomes 2, the render
of page 2 is dropped by the single-flight guard); let the render of page 1
finish.  A document is loaded, nothing is in flight, `currentPage = 2`, and the
buffer holds page 1. -/
theorem C8_counterexample :
    (((Sys.init emptyUI).run staleRun).viewer.pdfDoc.isSome = true ∧
      ((Sys.init emptyUI).run staleRun).viewer.pageRendering = false ∧
      ((Sys.init emptyUI).run staleRun).rendering.length = 0 ∧
      ((Sys.init emptyUI).run staleRun).decoding.length = 0) ∧
    ((Sys.init emptyUI).run staleRun).viewer.currentPage = 2 ∧
    ((Sys.init emptyUI).run staleRun).viewer.canvas.lastRasterized = some 1 ∧
    ((Sys.init emptyUI).run staleRun).viewer.canvas.lastRasterized ≠
      some ((Sys.init emptyUI).run staleRun).viewer.currentPage := by
  decide

namespace PDFViewer

theorem getPage_of_renders (d : PDFDoc) (n : Int) (hd : d.renders = true)
    (h1 : 1 ≤ n) (h2 : n ≤ (d.numPages : Int)) :
    ∃ p, d.getPage n = some p ∧ p.render = RenderOutcome.resolved := by
  have hlt : (n - 1).toNat < d.pages.length := by
    unfold PDFDoc.numPages at h2; omega
  have hall : ∀ q ∈ d.pages, (match q with
      | some p =>
        (match p.render with
          | RenderOutcome.resolved => true
          | RenderOutcome.rejected _ => false)
      | none => false) = true := by
    have := hd
    unfold PDFDoc.renders at this
    rw [Bool.and_eq_true] at this
    exact List.all_eq_true.1 this.2
  have hq := hall _ (List.getElem_mem hlt)
  have hget : d.pages.get? (n - 1).toNat = some (d.pages[(n - 1).toNat]) := by
    rw [List.get?_eq_getElem?]; exact List.getElem?_eq_getElem hlt
  cases hp : d.pages[(n - 1).toNat] with
  | none => rw [hp] at hq; simp at hq
  | some p =>
    rw [hp] at hq hget
    refine ⟨p, ?_, ?_⟩
    · unfold PDFDoc.getPage
      rw [if_pos ⟨h1, h2⟩, hget]
      rfl
    · cases hr : p.render with
      | resolved => rfl
      | rejected painted => simp only [hr] at hq; simp at hq

theorem renderPage_shows (v : PDFViewer) (d : PDFDoc) (n : Int)
    (hidle : v.pageRendering = false) (hdoc : v.pdfDoc = some d) (hd : d.renders = true)
    (h1 : 1 ≤ n) (h2 : n ≤ (d.numPages : Int)) :
    (v.renderPage n).pageRendering = false ∧
    (v.renderPage n).canvas.lastRasterized = some n := by
  obtain ⟨p, hpage, hrender⟩ := getPage_of_renders d n hd h1 h2
  simp [renderPage, renderPageStart, finish, renderPageResume, emit, Canvas.fillRect,
    Canvas.lastRasterized, hidle, hdoc, hpage, hrender]

theorem updatePageInfo_rest (v : PDFViewer) :
    v.updatePageInfo.pageRendering = v.pageRendering ∧
    v.updatePageInfo.canvas = v.canvas := by
  unfold updatePageInfo
  split <;> simp

theorem nextPage_settled (v : PDFViewer) (h : v.Settled) : v.nextPage.Settled := by
  by_cases hb : v.currentPage ≥ v.totalPages
  · have : v.nextPage = v := by simp [nextPage, nextPageStart, finish, hb]
    rw [this]; exact h
  · have hidx := nextPage_index v
    rw [if_neg hb] at hidx
    cases hdoc : v.pdfDoc with
    | none =>
      refine ⟨?_, ?_⟩
      · simp [nextPage, nextPageStart, finish, hb, renderPageStart, renderPageCatch, emit,
          updatePageInfo, hdoc, h.1]
      · intro d hd
        rw [hidx.2.2, hdoc] at hd
        cases hd
    | some d =>
      obtain ⟨hr, hlo, hhi, htot, _⟩ := h.2 d hdoc
      have heq : v.nextPage =
          (updatePageInfo { v with currentPage := v.currentPage + 1 }).renderPage
            (v.currentPage + 1) := by
        simp [nextPage, nextPageStart, renderPage, hb, (updatePageInfo_index _).1]
      have hu := updatePageInfo_index { v with currentPage := v.currentPage + 1 }
      have hu2 := updatePageInfo_rest { v with currentPage := v.currentPage + 1 }
      have hs := renderPage_shows (updatePageInfo { v with currentPage := v.currentPage + 1 })
        d (v.currentPage + 1) (hu2.1.trans h.1) (hu.2.2.trans hdoc) hr (by omega) (by omega)
      rw [← heq] at hs
      refine ⟨hs.1, ?_⟩
      intro d1 hd1
      rw [hidx.2.2, hdoc] at hd1
      cases hd1
      rw [hidx.1, hidx.2.1]
      exact ⟨hr, by omega, by omega, htot, hs.2⟩

theorem previousPage_settled (v : PDFViewer) (h : v.Settled) : v.previousPage.Settled := by
  by_cases hb : v.currentPage ≤ 1
  · have : v.previousPage = v := by simp [previousPage, previousPageStart, finish, hb]
    rw [this]; exact h
  · have hidx := previousPage_index v
    rw [if_neg hb] at hidx
    cases hdoc : v.pdfDoc with
    | none =>
      refine ⟨?_, ?_⟩
      · simp [previousPage, previousPageStart, finish, hb, renderPageStart, renderPageCatch,
          emit, updatePageInfo, hdoc, h.1]
      · intro d hd
        rw [hidx.2.2, hdoc] at hd
        cases hd
    | some d =>
      obtain ⟨hr, hlo, hhi, htot, _⟩ := h.2 d hdoc
      have heq : v.previousPage =
          (updatePageInfo { v with currentPage := v.currentPage - 1 }).renderPage
            (v.currentPage - 1) := by
        simp [previousPage, previousPageStart, renderPage, hb, (updatePageInfo_index _).1]
      have hu := updatePageInfo_index { v with currentPage := v.currentPage - 1 }
      have hu2 := updatePageInfo_rest { v with currentPage := v.currentPage - 1 }
      have hs := renderPage_shows (updatePageInfo { v with currentPage := v.currentPage - 1 })
        d (v.currentPage - 1) (hu2.1.trans h.1) (hu.2.2.trans hdoc) hr (by omega) (by omega)
      rw [← heq] at hs
      refine ⟨hs.1, ?_⟩
      intro d1 hd1
      rw [hidx.2.2, hdoc] at hd1
      cases hd1
      rw [hidx.1, hidx.2.1]
      exact ⟨hr, by omega, by omega, htot, hs.2⟩

theorem emit_settled (v : PDFViewer) (e : Effect) (h : v.Settled) : (v.emit e).Settled := h

theorem handleFileSelect_settled (v : PDFViewer) (file : Option File)
    (hs : (UserAction.upload file).sound = true) (h : v.Settled) :
    (v.handleFileSelect file).Settled := by
  cases file with
  | none => exact emit_settled v _ h
  | some f =>
    by_cases htype : f.type = "application/pdf"
    · have hf : f.sound = true := hs
      unfold File.sound at hf
      rw [if_pos htype] at hf
      cases hdec : f.decode with
      | none => rw [hdec] at hf; simp at hf
      | some d =>
        rw [hdec] at hf
        have hr : d.renders = true := hf
        have hn : 1 ≤ d.numPages := by
          have := hr
          unfold PDFDoc.renders at this
          rw [Bool.and_eq_true] at this
          exact of_decide_eq_true this.1
        have hl := handleFileSelect_success v f d htype hdec
        obtain ⟨p, hpage, hrender⟩ :=
          getPage_of_renders d 1 hr (le_refl 1) (by exact_mod_cast hn)
        have hshow : (v.handleFileSelect (some f)).pageRendering = false ∧
            (v.handleFileSelect (some f)).canvas.lastRasterized = some 1 := by
          simp [handleFileSelect, handleFileSelectStart, handleFileSelectResume, updatePageInfo,
            renderPageStart, finish, renderPageResume, emit, renderLoadingCanvas,
            Canvas.fillRect, Canvas.fillText, Canvas.lastRasterized, htype, hdec, h.1, hpage,
            hrender]
        refine ⟨hshow.1, ?_⟩
        intro d1 hd1
        rw [hl.2.2] at hd1
        cases hd1
        rw [hl.1, hl.2.1]
        exact ⟨hr, le_refl 1, by exact_mod_cast hn, rfl, hshow.2⟩
    · have : v.handleFileSelect (some f) =
          v.emit (Effect.alert "Please select a valid PDF file") := by
        simp [handleFileSelect, handleFileSelectStart, htype]
      rw [this]
      exact emit_settled v _ h

theorem listen_upload (v : PDFViewer) (file : Option File) :
    v.listen (UserAction.upload file) = v.handleFileSelect file := by
  unfold listen listenStart handleFileSelect
  simp only
  rcases hst : v.handleFileSelectStart file with ⟨v1, _ | f⟩ <;> simp [finish]

theorem listen_settled (v : PDFViewer) (a : UserAction) (hs : a.sound = true)
    (h : v.Settled) : (v.listen a).Settled := by
  cases a with
  | upload file =>
    rw [listen_upload]
    exact handleFileSelect_settled v file hs h
  | prevClick => exact previousPage_settled v h
  | nextClick => exact nextPage_settled v h
  | keydown key =>
    by_cases hdoc : v.pdfDoc.isSome = true
    · by_cases hl : key = "ArrowLeft"
      · have : v.listen (UserAction.keydown key) = v.previousPage := by
          simp [listen, listenStart, hdoc, hl, previousPage]
        rw [this]; exact previousPage_settled v h
      · by_cases hr : key = "ArrowRight"
        · have : v.listen (UserAction.keydown key) = v.nextPage := by
            simp [listen, listenStart, hdoc, hr, nextPage]
          rw [this]; exact nextPage_settled v h
        · have : v.listen (UserAction.keydown key) = v := by
            simp [listen, listenStart, hdoc, hl, hr, finish]
          rw [this]; exact h
    · have : v.listen (UserAction.keydown key) = v := by
        simp [listen, listenStart, hdoc, finish]
      rw [this]; exact h

theorem listens_settled (as : List UserAction) (v : PDFViewer)
    (hs : ∀ a ∈ as, a.sound = true) (h : v.Settled) : (as.foldl listen v).Settled := by
  induction as generalizing v with
  | nil => exact h
  | cons a as ih =>
    exact ih (v.listen a) (fun b hb => hs b (List.mem_cons_of_mem a hb))
      (listen_settled v a (hs a (List.mem_cons_self a as)) h)

theorem new_settled (ui : UI) : (new ui).Settled :=
  ⟨rfl, fun _ hd => by cases hd⟩

end PDFViewer

/-- C8, amended: when every listener invocation (upload, prev/next click, key
press) runs to completion before the next one starts, and every uploaded file
is either refused by the MIME check or decodes to a document with at least one
page whose pages are all found and render, then in every state reached from
construction no render is in flight and, whenever a document is loaded, the
page last rasterized into the raster buffer is the page numbered
`currentPage`. -/
theorem C8_buffer_shows_current_page (ui : UI) (actions : List UserAction)
    (hsound : ∀ a ∈ actions, a.sound = true) :
    (actions.foldl PDFViewer.listen (PDFViewer.new ui)).pageRendering = false ∧
    ((actions.foldl PDFViewer.listen (PDFViewer.new ui)).pdfDoc.isSome = true →
      (actions.foldl PDFViewer.listen (PDFViewer.new ui)).canvas.lastRasterized =
        some (actions.foldl PDFViewer.listen (PDFViewer.new ui)).currentPage) := by
  have h := PDFViewer.listens_settled actions (PDFViewer.new ui) hsound (PDFViewer.new_settled ui)
  refine ⟨h.1, ?_⟩
  intro hdoc
  obtain ⟨d, hd⟩ := Option.isSome_iff_exists.1 hdoc
  exact (h.2 d hd).2.2.2.2

/-- C8 amended, on the same user actions as the counterexample run, each now
completing before the next: the buffer holds page 2 and `currentPage = 2`. -/
theorem C8_buffer_shows_current_page_witness :
    ([UserAction.upload (some threePageFile), UserAction.nextClick].foldl PDFViewer.listen
        (PDFViewer.new emptyUI)).currentPage = 2 ∧
    ([UserAction.upload (some threePageFile), UserAction.nextClick].foldl PDFViewer.listen
        (PDFViewer.new emptyUI)).canvas.lastRasterized = some 2 := by
  have h := (C8_buffer_shows_current_page emptyUI
    [UserAction.upload (some threePageFile), UserAction.nextClick] (by decide)).2 (by decide)
  have hc : ([UserAction.upload (some threePageFile), UserAction.nextClick].foldl
      PDFViewer.listen (PDFViewer.new emptyUI)).currentPage = 2 := by decide
  exact ⟨hc, by rw [h, hc]⟩

/-! ## Load and dirty flag (C11, C12) -/

/-- C11: when a file declared as PDF decodes to a document with `numPages = n`,
`handleFileSelect` sets `totalPages = n` and `currentPage = 1` whatever the
state before, and then calls `renderPage(1)` on that state; when no render is
in flight this call requests page 1 of the new document. -/
theorem C11_load_resets_and_renders (v : PDFViewer) (f : File) (doc : PDFDoc)
    (htype : f.type = "application/pdf") (hdec : f.decode = some doc) :
    (v.handleFileSelect (some f)).totalPages = (doc.numPages : Int) ∧
    (v.handleFileSelect (some f)).currentPage = 1 ∧
    (∃ v3 : PDFViewer,
      v3.totalPages = (doc.numPages : Int) ∧ v3.currentPage = 1 ∧ v3.pdfDoc = some doc ∧
      (v.handleFileSelectStart (some f)).1.handleFileSelectResume f = v3.renderPageStart 1 ∧
      v.handleFileSelect (some f) = v3.renderPage 1) ∧
    (v.pageRendering = false →
      ((v.handleFileSelectStart (some f)).1.handleFileSelectResume f).1.effects =
        v.effects ++ [Effect.arrayBuffer f.name, Effect.getPage 1] ∧
      ((v.handleFileSelectStart (some f)).1.handleFileSelectResume f).2 =
        some (RenderTask.awaitingPage (doc.getPage 1) 1)) := by
  have hl := PDFViewer.handleFileSelect_success v f doc htype hdec
  refine ⟨hl.2.1, hl.1, ?_, ?_⟩
  · refine ⟨PDFViewer.updatePageInfo
      { (v.renderLoadingCanvas.emit (Effect.arrayBuffer f.name)) with
        pdfDoc := some doc, totalPages := (doc.numPages : Int), currentPage := 1,
        ui := { (v.renderLoadingCanvas.emit (Effect.arrayBuffer f.name)).ui with
                pdfFilename := f.name, pdfInfoHidden := false } }, ?_, ?_, ?_, ?_, ?_⟩
    · exact (PDFViewer.updatePageInfo_index _).2.1
    · exact (PDFViewer.updatePageInfo_index _).1
    · exact (PDFViewer.updatePageInfo_index _).2.2
    · simp [PDFViewer.handleFileSelectStart, PDFViewer.handleFileSelectResume, htype, hdec,
        (PDFViewer.updatePageInfo_index _).1]
    · simp [PDFViewer.handleFileSelect, PDFViewer.handleFileSelectStart,
        PDFViewer.handleFileSelectResume, PDFViewer.renderPage, htype, hdec,
        (PDFViewer.updatePageInfo_index _).1]
  · intro hidle
    simp [PDFViewer.handleFileSelectStart, PDFViewer.handleFileSelectResume,
      PDFViewer.updatePageInfo, PDFViewer.renderPageStart, PDFViewer.renderLoadingCanvas,
      PDFViewer.emit, htype, hdec, hidle]

/-- C11 on a second upload made while page 3 of a document is shown: the index
goes back to 1. -/
theorem C11_load_resets_and_renders_witness :
    (((PDFViewer.new emptyUI).handleFileSelect (some threePageFile)).nextPage.nextPage).currentPage
      = 3 ∧
    ((((PDFViewer.new emptyUI).handleFileSelect (some threePageFile)).nextPage.nextPage).handleFileSelect
      (some halfBrokenFile)).totalPages = 2 ∧
    ((((PDFViewer.new emptyUI).handleFileSelect (some threePageFile)).nextPage.nextPage).handleFileSelect
      (some halfBrokenFile)).currentPage = 1 := by
  have h := C11_load_resets_and_renders
    (((PDFViewer.new emptyUI).handleFileSelect (some threePageFile)).nextPage.nextPage)
    halfBrokenFile { pages := [some letterPage, some brokenPage] } rfl rfl
  exact ⟨by decide, h.1, h.2.1⟩

/-- C12: a `renderPage` call skipped by the single-flight check leaves the
dirty flag as it was; one in which the page is found and its render resolves
sets it; one that fails (no document, page lookup rejected, or render
rejected) leaves it as it was. -/
theorem C12_dirty_flag (v : PDFViewer) (n : Int) :
    (v.pageRendering = true → (v.renderPage n).needsUpdate = v.needsUpdate) ∧
    (v.pageRendering = false →
      (∀ d p, v.pdfDoc = some d → d.getPage n = some p → p.render = RenderOutcome.resolved →
        (v.renderPage n).needsUpdate = true) ∧
      (v.pdfDoc = none → (v.renderPage n).needsUpdate = v.needsUpdate) ∧
      (∀ d, v.pdfDoc = some d → d.getPage n = none →
        (v.renderPage n).needsUpdate = v.needsUpdate) ∧
      (∀ d p painted, v.pdfDoc = some d → d.getPage n = some p →
        p.render = RenderOutcome.rejected painted →
        (v.renderPage n).needsUpdate = v.needsUpdate)) := by
  refine ⟨fun hbusy => ?_, fun hidle => ⟨?_, ?_, ?_, ?_⟩⟩
  · simp [PDFViewer.renderPage, PDFViewer.renderPageStart, PDFViewer.finish, hbusy]
  · intro d p hdoc hpage hrender
    simp [PDFViewer.renderPage, PDFViewer.renderPageStart, PDFViewer.finish,
      PDFViewer.renderPageResume, PDFViewer.emit, hidle, hdoc, hpage, hrender]
  · intro hdoc
    simp [PDFViewer.renderPage, PDFViewer.renderPageStart, PDFViewer.finish,
      PDFViewer.renderPageCatch, PDFViewer.emit, hidle, hdoc]
  · intro d hdoc hpage
    simp [PDFViewer.renderPage, PDFViewer.renderPageStart, PDFViewer.finish,
      PDFViewer.renderPageResume, PDFViewer.renderPageCatch, PDFViewer.emit, hidle, hdoc, hpage]
  · intro d p painted hdoc hpage hrender
    simp [PDFViewer.renderPage, PDFViewer.renderPageStart, PDFViewer.finish,
      PDFViewer.renderPageResume, PDFViewer.renderPageCatch, PDFViewer.emit, hidle, hdoc, hpage,
      hrender]

/-- C12 on the half-broken document with the flag consumed (false): rendering
page 1 sets it, rendering page 2 (render rejected) or page 3 (no such page)
leaves it false. -/
theorem C12_dirty_flag_witness :
    ({ (PDFViewer.new emptyUI).handleFileSelect (some halfBrokenFile) with
        needsUpdate := false }.renderPage 1).needsUpdate = true ∧
    ({ (PDFViewer.new emptyUI).handleFileSelect (some halfBrokenFile) with
        needsUpdate := false }.renderPage 2).needsUpdate = false ∧
    ({ (PDFViewer.new emptyUI).handleFileSelect (some halfBrokenFile) with
        needsUpdate := false }.renderPage 3).needsUpdate = false :=
  ⟨((C12_dirty_flag { (PDFViewer.new emptyUI).handleFileSelect (some halfBrokenFile) with
        needsUpdate := false } 1).2 (by decide)).1 _ letterPage rfl (by decide) rfl,
   ((C12_dirty_flag { (PDFViewer.new emptyUI).handleFileSelect (some halfBrokenFile) with
        needsUpdate := false } 2).2 (by decide)).2.2.2 _ brokenPage [] rfl (by decide) rfl,
   ((C12_dirty_flag { (PDFViewer.new emptyUI).handleFileSelect (some halfBrokenFile) with
        needsUpdate := false } 3).2 (by decide)).2.2.1 _ rfl (by decide)⟩

/-! ## Camera navigator: shared lemmas -/

theorem max_min_bounds (lo hi x : ℚ) (h : lo ≤ hi) :
    lo ≤ max lo (min hi x) ∧ max lo (min hi x) ≤ hi ∧
    (lo ≤ x → x ≤ hi → max lo (min hi x) = x) := by
  refine ⟨le_max_left _ _, max_le h (min_le_left _ _), ?_⟩
  intro h1 h2
  rw [min_eq_right h2, max_eq_right h1]

theorem Vector3.lerpVectors_one (a b : Vector3) : a.lerpVectors b 1 = b := by
  cases b
  simp [Vector3.lerpVectors]

theorem Vector3.lerpVectors_zero (a b : Vector3) : a.lerpVectors b 0 = a := by
  cases a
  simp [Vector3.lerpVectors]

theorem Vector3.lerpVectors_inj (a b : Vector3) (hab : a ≠ b) (e t : ℚ) (het : e ≠ t) :
    a.lerpVectors b e ≠ a.lerpVectors b t := by
  intro h
  apply hab
  have hx := congrArg Vector3.x h
  have hy := congrArg Vector3.y h
  have hz := congrArg Vector3.z h
  simp only [Vector3.lerpVectors, add_right_inj] at hx hy hz
  have hne : e - t ≠ 0 := sub_ne_zero.2 het
  have key : ∀ u v : ℚ, (v - u) * e = (v - u) * t → u = v := by
    intro u v huv
    have h0 : (v - u) * (e - t) = 0 := by rw [mul_sub, huv, sub_self]
    rcases mul_eq_zero.1 h0 with h1 | h1
    · linarith
    · exact absurd h1 hne
  cases a
  cases b
  simp only [Vector3.mk.injEq]
  exact ⟨key _ _ hx, key _ _ hy, key _ _ hz⟩

theorem eased_half : eased (1 / 2) = 1 / 2 := by
  norm_num [eased]

theorem eased_one : eased 1 = 1 := by
  norm_num [eased]

theorem eased_ne_self (p : ℚ) (h0 : 0 < p) (h1 : p < 1) (hp : p ≠ 1 / 2) : eased p ≠ p := by
  unfold eased
  split
  · intro h
    have h2 : p * (2 * p - 1) = 0 := by linarith
    rcases mul_eq_zero.1 h2 with h3 | h3
    · linarith
    · apply hp; linarith
  · intro h
    have h2 : (1 - p) * (2 * p - 1) = 0 := by ring_nf; ring_nf at h; linarith
    rcases mul_eq_zero.1 h2 with h3 | h3
    · linarith
    · apply hp; linarith

theorem Transition.progress_lt_one_iff (tr : Transition) (now : Int) :
    tr.progress now < 1 ↔ now - tr.startTime < 1500 := by
  unfold Transition.progress
  rw [min_lt_iff]
  constructor
  · rintro (h | h)
    · rw [div_lt_one (by norm_num)] at h
      exact_mod_cast h
    · exact absurd h (lt_irrefl _)
  · intro h
    left
    rw [div_lt_one (by norm_num)]
    exact_mod_cast h

theorem Transition.progress_eq_one (tr : Transition) (now : Int)
    (h : 1500 ≤ now - tr.startTime) : tr.progress now = 1 := by
  unfold Transition.progress
  apply min_eq_right
  rw [one_le_div (by norm_num)]
  exact_mod_cast h

theorem Transition.write_done (tr : Transition) (now : Int)
    (h : 1500 ≤ now - tr.startTime) :
    tr.write now = { position := tr.targetPosition, target := tr.targetLookAt } := by
  simp [Transition.write, Transition.progress_eq_one tr now h, eased_one,
    Vector3.lerpVectors_one]

namespace CameraSys

variable {O : OrbitControls}

theorem animate_raf (s : CameraSys O) (tr : Transition) (now : Int) :
    (s.animate tr now).raf = s.raf ++ (if tr.progress now < 1 then [tr] else []) := by
  unfold animate
  split <;> simp

theorem animate_pose (s : CameraSys O) (tr : Transition) (now : Int) :
    (s.animate tr now).controls.pose = (O.update s.controls.orbit (tr.write now)).2 := by
  unfold animate
  split <;> simp [CameraControls.controlsUpdate]

theorem foldl_animate_raf (q : List Transition) (acc : CameraSys O) (now : Int) :
    (q.foldl (fun a tr => a.animate tr now) acc).raf =
      acc.raf ++ q.filter (fun tr => decide (tr.progress now < 1)) := by
  induction q generalizing acc with
  | nil => simp
  | cons tr q ih =>
    rw [List.foldl_cons, ih, animate_raf]
    by_cases h : tr.progress now < 1 <;> simp [h, List.filter_cons]

theorem frame_raf (s : CameraSys O) (now : Int) :
    (s.frame now).raf = s.raf.filter (fun tr => decide (tr.progress now < 1)) := by
  unfold frame
  rw [foldl_animate_raf]
  simp

theorem frame_of_raf_nil (s : CameraSys O) (now : Int) (h : s.raf = []) : s.frame now = s := by
  unfold frame
  rw [h]
  cases s
  simp at h
  simp [h]

theorem frames_of_raf_nil (nows : List Int) (s : CameraSys O) (h : s.raf = []) :
    s.frames nows = s := by
  induction nows with
  | nil => rfl
  | cons n nows ih =>
    unfold frames at ih ⊢
    rw [List.foldl_cons, frame_of_raf_nil s n h]
    exact ih

theorem animate_fixed (s : CameraSys O) (tr : Transition) (now : Int) :
    (s.animate tr now).controls.defaultPosition = s.controls.defaultPosition ∧
    (s.animate tr now).controls.defaultTarget = s.controls.defaultTarget ∧
    (s.animate tr now).controls.boardPosition = s.controls.boardPosition ∧
    (s.animate tr now).controls.boardTarget = s.controls.boardTarget ∧
    (s.animate tr now).controls.fov = s.controls.fov ∧
    (s.animate tr now).controls.cameraBounds = s.controls.cameraBounds := by
  unfold animate
  split <;> simp [CameraControls.controlsUpdate]

theorem animateCamera_raf (s : CameraSys O) (p l : Vector3) (startNow now : Int)
    (h : now - startNow < 1500) :
    (s.animateCamera p l startNow now).raf =
      s.raf ++ [Transition.mk s.controls.pose.position s.controls.pose.target p l startNow] := by
  unfold animateCamera
  rw [animate_raf, if_pos ((Transition.progress_lt_one_iff _ now).2 h)]

theorem resetCamera_animated (s : CameraSys O) (startNow now : Int) :
    s.resetCamera true startNow now =
      s.animateCamera s.controls.defaultPosition s.controls.defaultTarget startNow now := by
  simp [resetCamera]

theorem focusBoard_animated (s : CameraSys O) (startNow now : Int) :
    s.focusBoard true startNow now =
      s.animateCamera s.controls.boardPosition s.controls.boardTarget startNow now := by
  simp [focusBoard]

theorem frames_append (s : CameraSys O) (a b : List Int) :
    s.frames (a ++ b) = (s.frames a).frames b := by
  unfold frames
  rw [List.foldl_append]

end CameraSys

/-! ## Camera navigator (C13 – C18) -/

/-- C13: with the bounds set by `init()`, whatever position the orbit control
leaves, after `update()` the camera position satisfies `-9 ≤ x ≤ 9`,
`0.5 ≤ y ≤ 3.5`, `-7 ≤ z ≤ 7`, and each coordinate that the orbit control left
inside its range is unchanged. -/
theorem C13_update_clamps (O : OrbitControls) (c : CameraControls O)
    (hb : c.cameraBounds = some CameraControls.roomBounds) :
    (-9 ≤ c.update.pose.position.x ∧ c.update.pose.position.x ≤ 9) ∧
    (1 / 2 ≤ c.update.pose.position.y ∧ c.update.pose.position.y ≤ 7 / 2) ∧
    (-7 ≤ c.update.pose.position.z ∧ c.update.pose.position.z ≤ 7) ∧
    (-9 ≤ (O.update c.orbit c.pose).2.position.x → (O.update c.orbit c.pose).2.position.x ≤ 9 →
      c.update.pose.position.x = (O.update c.orbit c.pose).2.position.x) ∧
    (1 / 2 ≤ (O.update c.orbit c.pose).2.position.y →
      (O.update c.orbit c.pose).2.position.y ≤ 7 / 2 →
      c.update.pose.position.y = (O.update c.orbit c.pose).2.position.y) ∧
    (-7 ≤ (O.update c.orbit c.pose).2.position.z → (O.update c.orbit c.pose).2.position.z ≤ 7 →
      c.update.pose.position.z = (O.update c.orbit c.pose).2.position.z) := by
  have hx := max_min_bounds (-9) 9 (O.update c.orbit c.pose).2.position.x (by norm_num)
  have hy := max_min_bounds (1 / 2) (7 / 2) (O.update c.orbit c.pose).2.position.y (by norm_num)
  have hz := max_min_bounds (-7) 7 (O.update c.orbit c.pose).2.position.z (by norm_num)
  have hu : c.update.pose.position =
      { x := max (-9) (min 9 (O.update c.orbit c.pose).2.position.x)
        y := max (1 / 2) (min (7 / 2) (O.update c.orbit c.pose).2.position.y)
        z := max (-7) (min 7 (O.update c.orbit c.pose).2.position.z) } := by
    simp [CameraControls.update, CameraControls.controlsUpdate, hb, CameraControls.roomBounds]
  rw [hu]
  exact ⟨⟨hx.1, hx.2.1⟩, ⟨hy.1, hy.2.1⟩, ⟨hz.1, hz.2.1⟩, hx.2.2, hy.2.2, hz.2.2⟩

/-- C13 on the constructed navigator, whose camera stands at (0, 4, 12): `x` is
in range and stays 0, the result is inside the bounds. -/
theorem C13_update_clamps_witness :
    (CameraControls.new idleOrbit 60 ()).update.pose.position.x = 0 ∧
    (CameraControls.new idleOrbit 60 ()).update.pose.position.y ≤ 7 / 2 ∧
    (CameraControls.new idleOrbit 60 ()).update.pose.position.z ≤ 7 := by
  have h := C13_update_clamps idleOrbit (CameraControls.new idleOrbit 60 ()) rfl
  have hx := h.2.2.2.1 (by show (-9 : ℚ) ≤ 0; norm_num) (by show (0 : ℚ) ≤ 9; norm_num)
  exact ⟨hx, h.2.1.2, h.2.2.1.2⟩

/-- C14: a run of `animate` with `elapsed ≥ 1500` has `progress = 1` and
`eased = 1`, `lerpVectors(A, B, 1) = B`, so it writes exactly the target
position and the target look-at; the pose it leaves is what
`controls.update()` makes of that pose, and it schedules no further frame. -/
theorem C14_transition_reaches_target (O : OrbitControls) (s : CameraSys O) (tr : Transition)
    (now : Int) (h : 1500 ≤ now - tr.startTime) :
    tr.progress now = 1 ∧ eased 1 = 1 ∧
    (∀ a b : Vector3, a.lerpVectors b 1 = b) ∧
    tr.write now = { position := tr.targetPosition, target := tr.targetLookAt } ∧
    (s.animate tr now).controls.pose =
      (O.update s.controls.orbit { position := tr.targetPosition, target := tr.targetLookAt }).2 ∧
    (s.animate tr now).raf = s.raf := by
  have hp := Transition.progress_eq_one tr now h
  refine ⟨hp, eased_one, Vector3.lerpVectors_one, Transition.write_done tr now h, ?_, ?_⟩
  · rw [CameraSys.animate_pose, Transition.write_done tr now h]
  · rw [CameraSys.animate_raf, hp]
    simp

/-- C14 on the unit transition at 1500 ms, the orbit control being idle: the
camera is at the target. -/
theorem C14_transition_reaches_target_witness :
    (idleSys.animate unitTransition 1500).controls.pose =
      { position := { x := 1, y := 0, z := 0 }, target := { x := 1, y := 0, z := 0 } } :=
  (C14_transition_reaches_target idleOrbit idleSys unitTransition 1500 (by decide)).2.2.2.2.1

/-- C15 fails as stated: for the unit transition (start and target differ) the
position written at progress 0.5 is the linear blend `lerpVectors(A, B, 0.5)`. -/
theorem C15_counterexample :
    unitTransition.startPosition ≠ unitTransition.targetPosition ∧
    unitTransition.progress 750 = 1 / 2 ∧
    (unitTransition.write 750).position =
      unitTransition.startPosition.lerpVectors unitTransition.targetPosition (1 / 2) := by
  have hp : unitTransition.progress 750 = 1 / 2 := by
    norm_num [Transition.progress, unitTransition]
  refine ⟨by decide, hp, ?_⟩
  simp only [Transition.write, hp, eased_half]

/-- C15, amended: the position written at progress 0.5 is the eased blend
`lerpVectors(A, B, eased(0.5))`, and since `eased(0.5) = 0.5` it coincides
with the linear blend `lerpVectors(A, B, 0.5)`.  For `A ≠ B` the eased blend
differs from the linear blend at every progress strictly between 0 and 1 other
than 0.5. -/
theorem C15_eased_blend (tr : Transition) (now : Int) (hhalf : now - tr.startTime = 750) :
    tr.progress now = 1 / 2 ∧
    (tr.write now).position =
      tr.startPosition.lerpVectors tr.targetPosition (eased (1 / 2)) ∧
    eased (1 / 2) = 1 / 2 ∧
    (tr.write now).position = tr.startPosition.lerpVectors tr.targetPosition (1 / 2) ∧
    (∀ p : ℚ, 0 < p → p < 1 → p ≠ 1 / 2 → tr.startPosition ≠ tr.targetPosition →
      tr.startPosition.lerpVectors tr.targetPosition (eased p) ≠
        tr.startPosition.lerpVectors tr.targetPosition p) := by
  have hp : tr.progress now = 1 / 2 := by
    unfold Transition.progress
    rw [hhalf]
    norm_num
  refine ⟨hp, ?_, eased_half, ?_, ?_⟩
  · simp only [Transition.write, hp]
  · simp only [Transition.write, hp, eased_half]
  · intro p h0 h1 hne hab
    exact Vector3.lerpVectors_inj _ _ hab _ _ (eased_ne_self p h0 h1 hne)

/-- C15 amended, on the unit transition: at 750 ms the camera is at x = 1/2,
the linear midpoint, while at progress 1/4 the eased blend is not the linear
one. -/
theorem C15_eased_blend_witness :
    (unitTransition.write 750).position = { x := 1 / 2, y := 0, z := 0 } ∧
    unitTransition.startPosition.lerpVectors unitTransition.targetPosition (eased (1 / 4)) ≠
      unitTransition.startPosition.lerpVectors unitTransition.targetPosition (1 / 4) := by
  have h := C15_eased_blend unitTransition 750 (by decide)
  refine ⟨?_, h.2.2.2.2 (1 / 4) (by norm_num) (by norm_num) (by norm_num) (by decide)⟩
  rw [h.2.2.2.1]
  norm_num [Vector3.lerpVectors, unitTransition]

/-- C16: each run of `animate` uses `progress = min (elapsed / 1500) 1` and hands
itself to `requestAnimationFrame` again exactly when `progress < 1`, that is
when `elapsed < 1500`.  Hence, for a transition alone in flight, the first
frame with `elapsed ≥ 1500` leaves nothing scheduled and later frames change
nothing. -/
theorem C16_time_boxed (O : OrbitControls) (s : CameraSys O) (tr : Transition) (now : Int)
    (ns : List Int) (m : Int) (rest : List Int) (hraf : s.raf = [tr])
    (hns : ∀ n ∈ ns, n - tr.startTime < 1500) (hm : 1500 ≤ m - tr.startTime) :
    tr.progress now = min (((now - tr.startTime : Int) : ℚ) / 1500) 1 ∧
    (tr.progress now < 1 ↔ now - tr.startTime < 1500) ∧
    (tr.progress now < 1 → (s.animate tr now).raf = s.raf ++ [tr]) ∧
    (¬ tr.progress now < 1 → (s.animate tr now).raf = s.raf) ∧
    (s.frames ns).raf = [tr] ∧
    (s.frames (ns ++ [m])).raf = [] ∧
    s.frames (ns ++ m :: rest) = s.frames (ns ++ [m]) := by
  have hpre : ∀ (l : List Int) (s0 : CameraSys O), s0.raf = [tr] →
      (∀ n ∈ l, n - tr.startTime < 1500) → (s0.frames l).raf = [tr] := by
    intro l
    induction l with
    | nil => intro s0 h0 _; exact h0
    | cons n l ih =>
      intro s0 h0 hl
      have hn := (Transition.progress_lt_one_iff tr n).2 (hl n (List.mem_cons_self n l))
      have h1 : (s0.frame n).raf = [tr] := by
        rw [CameraSys.frame_raf, h0]
        simp [hn]
      exact ih (s0.frame n) h1 (fun k hk => hl k (List.mem_cons_of_mem n hk))
  have hmid := hpre ns s hraf hns
  have hlast : (s.frames (ns ++ [m])).raf = [] := by
    rw [CameraSys.frames_append]
    show ((s.frames ns).frame m).raf = []
    rw [CameraSys.frame_raf, hmid]
    have hnot : ¬ tr.progress m < 1 := by
      rw [Transition.progress_lt_one_iff]; omega
    simp [hnot]
  refine ⟨rfl, Transition.progress_lt_one_iff tr now, ?_, ?_, hmid, hlast, ?_⟩
  · intro hlt
    rw [CameraSys.animate_raf, if_pos hlt]
  · intro hge
    rw [CameraSys.animate_raf, if_neg hge, List.append_nil]
  · have hsplit : ns ++ m :: rest = (ns ++ [m]) ++ rest := by simp
    rw [hsplit, CameraSys.frames_append, CameraSys.frames_of_raf_nil rest _ hlast]

/-- C16 on the unit transition with frames at 16, 700, 1499, then 1500, then
1516 and 1533 ms: nothing is scheduled after the frame at 1500 and the later
frames change nothing. -/
theorem C16_time_boxed_witness :
    ({ idleSys with raf := [unitTransition] }.frames ([16, 700, 1499] ++ [1500])).raf = [] ∧
    { idleSys with raf := [unitTransition] }.frames ([16, 700, 1499] ++ 1500 :: [1516, 1533]) =
      { idleSys with raf := [unitTransition] }.frames ([16, 700, 1499] ++ [1500]) := by
  have h := C16_time_boxed idleOrbit { idleSys with raf := [unitTransition] } unitTransition 0
    [16, 700, 1499] 1500 [1516, 1533] rfl (by decide) (by decide)
  exact ⟨h.2.2.2.2.2.1, h.2.2.2.2.2.2⟩

namespace CameraSys

variable {O : OrbitControls}

theorem runCallbacks_append (clock : Nat → Int) (q : List Transition) (tr : Transition)
    (i : Nat) (acc : CameraSys O) :
    runCallbacks clock i (q ++ [tr]) acc =
      (runCallbacks clock i q acc).animate tr (clock (i + q.length)) := by
  induction q generalizing i acc with
  | nil => rfl
  | cons t q ih =>
    show runCallbacks clock (i + 1) (q ++ [tr]) (acc.animate t (clock i)) =
      (runCallbacks clock (i + 1) q (acc.animate t (clock i))).animate tr
        (clock (i + (q.length + 1)))
    rw [ih]
    congr 2
    omega

theorem runCallbacks_raf (clock : Nat → Int) (q : List Transition) (i : Nat)
    (acc : CameraSys O) :
    ∃ q1, (runCallbacks clock i q acc).raf = acc.raf ++ q1 ∧ ∀ tr ∈ q1, tr ∈ q := by
  induction q generalizing i acc with
  | nil => exact ⟨[], by simp [runCallbacks], by simp⟩
  | cons t q ih =>
    obtain ⟨q1, h1, h2⟩ := ih (i + 1) (acc.animate t (clock i))
    rw [animate_raf] at h1
    refine ⟨(if t.progress (clock i) < 1 then [t] else []) ++ q1, ?_, ?_⟩
    · simp only [runCallbacks]
      rw [h1, List.append_assoc]
    · intro tr htr
      rcases List.mem_append.1 htr with h | h
      · split at h
        · rw [List.mem_singleton.1 h]; exact List.mem_cons_self _ _
        · simp at h
      · exact List.mem_cons_of_mem _ (h2 tr h)

theorem runCallbacks_raf_done (clock : Nat → Int) (q : List Transition) (i : Nat)
    (acc : CameraSys O) (h : ∀ tr ∈ q, ∀ j, 1500 ≤ clock j - tr.startTime) :
    (runCallbacks clock i q acc).raf = acc.raf := by
  induction q generalizing i acc with
  | nil => rfl
  | cons t q ih =>
    simp only [runCallbacks]
    rw [ih _ _ (fun tr htr => h tr (List.mem_cons_of_mem _ htr)), animate_raf]
    have hnot : ¬ t.progress (clock i) < 1 := by
      rw [Transition.progress_lt_one_iff]
      have := h t (List.mem_cons_self _ _) i
      omega
    simp [hnot]

/-- A frame in which every callback reads the same clock value. -/
theorem frameWith_const (s : CameraSys O) (now : Int) : s.frameWith (fun _ => now) = s.frame now := by
  unfold frameWith frame
  generalize ({ s with raf := [] } : CameraSys O) = acc
  generalize (0 : Nat) = i
  induction s.raf generalizing i acc with
  | nil => rfl
  | cons t q ih =>
    simp only [runCallbacks, List.foldl_cons]
    exact ih _ _

theorem frameWith_of_raf_nil (s : CameraSys O) (clock : Nat → Int) (h : s.raf = []) :
    s.frameWith clock = s := by
  unfold frameWith
  rw [h]
  cases s
  simp at h
  simp [runCallbacks, h]

theorem framesWith_of_raf_nil (clocks : List (Nat → Int)) (s : CameraSys O) (h : s.raf = []) :
    s.framesWith clocks = s := by
  induction clocks with
  | nil => rfl
  | cons c clocks ih =>
    unfold framesWith at ih ⊢
    rw [List.foldl_cons, frameWith_of_raf_nil s c h]
    exact ih

/-- A frame with the newest transition last in the queue: its callback runs
last, on the state the older callbacks leave. -/
theorem frameWith_last (s : CameraSys O) (q : List Transition) (tr : Transition)
    (clock : Nat → Int) (hraf : s.raf = q ++ [tr]) :
    s.frameWith clock =
      (runCallbacks clock 0 q { s with raf := [] }).animate tr (clock q.length) := by
  unfold frameWith
  rw [hraf, runCallbacks_append, Nat.zero_add]

end CameraSys

/-- C17 fails as stated: `focusBoard` (to B1) and then `resetCamera` (to B2) are
started in the same millisecond 0.  In a frame in which the first callback
reads `Date.now() = 1499` and the second reads 1500, the second transition
reaches progress 1 and stops while the first is handed over again; in the next
frame, at 1516 ms, the first transition reaches progress 1 and writes last.
Both have reached progress 1, nothing is scheduled, and the camera is at the
board viewpoint B1, not at the default viewpoint B2. -/
theorem C17_counterexample :
    ((((idleSys.focusBoard true 0 0).resetCamera true 0 0).frameWith
        (fun i => if i = 0 then 1499 else 1500)).raf.map fun tr => tr.targetPosition) =
      [{ x := 0, y := 5 / 2, z := -2 }] ∧
    ((((idleSys.focusBoard true 0 0).resetCamera true 0 0).frameWith
        (fun i => if i = 0 then 1499 else 1500)).frameWith (fun _ => 1516)).raf = [] ∧
    ((((idleSys.focusBoard true 0 0).resetCamera true 0 0).frameWith
        (fun i => if i = 0 then 1499 else 1500)).frameWith (fun _ => 1516)).controls.pose =
      { position := { x := 0, y := 5 / 2, z := -2 },
        target := { x := 0, y := 5 / 2, z := -73 / 10 } } ∧
    ((((idleSys.focusBoard true 0 0).resetCamera true 0 0).frameWith
        (fun i => if i = 0 then 1499 else 1500)).frameWith (fun _ => 1516)).controls.pose ≠
      { position := idleSys.controls.defaultPosition,
        target := idleSys.controls.defaultTarget } := by
  refine ⟨by decide!, by decide!, by decide!, by decide!⟩


/-- C17 with one clock reading per callback: let a transition to `(B2p, B2l)` be
started at time `t2` while transitions started no later are in flight.  After
frames in which every callback reads the clock before `t2 + 1500`, the new
transition is the last one scheduled, behind transitions that were in flight
when it started.  Any further frame ends with what `controls.update()` makes
of the pose the new transition wrote, on the orbit state the older callbacks
leave: no write of an older transition is the last of the frame.  A frame in
which every callback reads the clock at `t2 + 1500` or later ends with what
`controls.update()` makes of position `B2p` and look-at `B2l`, with nothing
scheduled, and later frames change nothing.  Where `controls.update()` leaves
poses as it finds them, that frame ends with position `B2p` and look-at
`B2l`. -/
theorem C17_last_caller_wins (O : OrbitControls) (s : CameraSys O) (B2p B2l : Vector3)
    (t2 now0 : Int) (hq : ∀ tr ∈ s.raf, tr.startTime ≤ t2) (h0 : now0 - t2 < 1500)
    (cs : List (Nat → Int)) (hcs : ∀ c ∈ cs, ∀ i, c i - t2 < 1500)
    (c : Nat → Int)
    (cm : Nat → Int) (hm : ∀ i, 1500 ≤ cm i - t2) (rest : List (Nat → Int)) :
    (∃ q : List Transition,
      ((s.animateCamera B2p B2l t2 now0).framesWith cs).raf =
        q ++ [Transition.mk s.controls.pose.position s.controls.pose.target B2p B2l t2] ∧
      (∀ tr ∈ q, tr ∈ s.raf) ∧
      (((s.animateCamera B2p B2l t2 now0).framesWith cs).frameWith c).controls.pose =
        (O.update
          (CameraSys.runCallbacks c 0 q
            { (s.animateCamera B2p B2l t2 now0).framesWith cs with raf := [] }).controls.orbit
          (Transition.write
            (Transition.mk s.controls.pose.position s.controls.pose.target B2p B2l t2)
            (c q.length))).2 ∧
      (((s.animateCamera B2p B2l t2 now0).framesWith cs).frameWith cm).controls.pose =
        (O.update
          (CameraSys.runCallbacks cm 0 q
            { (s.animateCamera B2p B2l t2 now0).framesWith cs with raf := [] }).controls.orbit
          { position := B2p, target := B2l }).2) ∧
    (((s.animateCamera B2p B2l t2 now0).framesWith cs).frameWith cm).raf = [] ∧
    (((s.animateCamera B2p B2l t2 now0).framesWith cs).frameWith cm).framesWith rest =
      ((s.animateCamera B2p B2l t2 now0).framesWith cs).frameWith cm ∧
    ((∀ σ p, (O.update σ p).2 = p) →
      (((s.animateCamera B2p B2l t2 now0).framesWith cs).frameWith cm).controls.pose =
        { position := B2p, target := B2l }) := by
  obtain ⟨T2, hT⟩ : ∃ T2 : Transition, Transition.mk s.controls.pose.position
      s.controls.pose.target B2p B2l t2 = T2 := ⟨_, rfl⟩
  have hstart : T2.startTime = t2 := by rw [← hT]
  have htarget : T2.targetPosition = B2p ∧ T2.targetLookAt = B2l := by rw [← hT]; exact ⟨rfl, rfl⟩
  rw [hT]
  have hinv : ∀ (l : List (Nat → Int)) (s0 : CameraSys O),
      (∃ q, s0.raf = q ++ [T2] ∧ ∀ tr ∈ q, tr ∈ s.raf) →
      (∀ k ∈ l, ∀ i, k i - t2 < 1500) →
      ∃ q, (s0.framesWith l).raf = q ++ [T2] ∧ ∀ tr ∈ q, tr ∈ s.raf := by
    intro l
    induction l with
    | nil => intro s0 h _; exact h
    | cons k l ih =>
      intro s0 h hl
      obtain ⟨q, hraf, hqs⟩ := h
      have hk : T2.progress (k q.length) < 1 := by
        rw [Transition.progress_lt_one_iff, hstart]
        exact hl k (List.mem_cons_self k l) q.length
      obtain ⟨q1, hq1, hsub⟩ := CameraSys.runCallbacks_raf k q 0 ({ s0 with raf := [] })
      refine ih (s0.frameWith k) ⟨q1, ?_, fun tr htr => hqs tr (hsub tr htr)⟩
        (fun j hj => hl j (List.mem_cons_of_mem k hj))
      rw [CameraSys.frameWith_last s0 q T2 k hraf, CameraSys.animate_raf, if_pos hk, hq1]
      simp
  have hfirst : ∃ q, (s.animateCamera B2p B2l t2 now0).raf = q ++ [T2] ∧
      ∀ tr ∈ q, tr ∈ s.raf := by
    refine ⟨s.raf, ?_, fun tr htr => htr⟩
    unfold CameraSys.animateCamera
    rw [hT, CameraSys.animate_raf,
      if_pos ((Transition.progress_lt_one_iff T2 now0).2 (by rw [hstart]; exact h0))]
  obtain ⟨q, hraf, hqs⟩ := hinv cs _ hfirst hcs
  have hdone : Transition.write T2 (cm q.length) = { position := B2p, target := B2l } := by
    rw [Transition.write_done T2 _ (by rw [hstart]; exact hm q.length), htarget.1, htarget.2]
  have hposem : (((s.animateCamera B2p B2l t2 now0).framesWith cs).frameWith cm).controls.pose =
      (O.update
        (CameraSys.runCallbacks cm 0 q
          { (s.animateCamera B2p B2l t2 now0).framesWith cs with raf := [] }).controls.orbit
        { position := B2p, target := B2l }).2 := by
    rw [CameraSys.frameWith_last _ q T2 cm hraf, CameraSys.animate_pose, hdone]
  have hlast : (((s.animateCamera B2p B2l t2 now0).framesWith cs).frameWith cm).raf = [] := by
    rw [CameraSys.frameWith_last _ q T2 cm hraf, CameraSys.animate_raf,
      CameraSys.runCallbacks_raf_done cm q 0 _ (fun tr htr j => by
        have h1 := hq tr (hqs tr htr)
        have h2 := hm j
        omega)]
    have hnot : ¬ T2.progress (cm q.length) < 1 := by
      rw [Transition.progress_lt_one_iff, hstart]
      have := hm q.length
      omega
    simp [hnot]
  refine ⟨⟨q, hraf, hqs, ?_, hposem⟩, hlast, CameraSys.framesWith_of_raf_nil rest _ hlast, ?_⟩
  · rw [CameraSys.frameWith_last _ q T2 c hraf, CameraSys.animate_pose]
  · intro hidle
    rw [hposem, hidle]

/-- C17 on the constructed navigator: `focusBoard` is started at 0 ms and
`resetCamera` at 500 ms; after frames whose callbacks read 516 and 517 ms, then
1800 and 1801 ms, the frame whose callbacks read 2000 and 2001 ms leaves the
camera at the default position looking at the default target, with nothing
scheduled. -/
theorem C17_last_caller_wins_witness :
    (((((idleSys.focusBoard true 0 0).resetCamera true 500 500).framesWith
        [fun i => if i = 0 then 516 else 517, fun i => if i = 0 then 1800 else 1801]).frameWith
        (fun i => if i = 0 then 2000 else 2001)).controls.pose =
      { position := { x := 0, y := 4, z := 12 }, target := { x := 0, y := 2, z := -5 } }) ∧
    ((((idleSys.focusBoard true 0 0).resetCamera true 500 500).framesWith
        [fun i => if i = 0 then 516 else 517, fun i => if i = 0 then 1800 else 1801]).frameWith
        (fun i => if i = 0 then 2000 else 2001)).raf = [] := by
  have hraf : (idleSys.focusBoard true 0 0).raf =
      [Transition.mk idleSys.controls.pose.position idleSys.controls.pose.target
        idleSys.controls.boardPosition idleSys.controls.boardTarget 0] := by
    rw [CameraSys.focusBoard_animated, CameraSys.animateCamera_raf _ _ _ _ _ (by decide)]
    rfl
  have hfix : (idleSys.focusBoard true 0 0).controls.defaultPosition = { x := 0, y := 4, z := 12 } ∧
      (idleSys.focusBoard true 0 0).controls.defaultTarget = { x := 0, y := 2, z := -5 } := by
    rw [CameraSys.focusBoard_animated]
    unfold CameraSys.animateCamera
    exact ⟨(CameraSys.animate_fixed _ _ _).1, (CameraSys.animate_fixed _ _ _).2.1⟩
  have h := C17_last_caller_wins idleOrbit (idleSys.focusBoard true 0 0)
    (idleSys.focusBoard true 0 0).controls.defaultPosition
    (idleSys.focusBoard true 0 0).controls.defaultTarget 500 500
    (by
      intro tr htr
      rw [hraf] at htr
      rw [List.mem_singleton.1 htr]
      decide)
    (by decide)
    [fun i => if i = 0 then 516 else 517, fun i => if i = 0 then 1800 else 1801]
    (by
      intro c hc i
      simp only [List.mem_cons, List.mem_singleton, List.not_mem_nil, or_false] at hc
      rcases hc with rfl | rfl <;> by_cases hi : i = 0 <;> simp [hi])
    (fun _ => 1900)
    (fun i => if i = 0 then 2000 else 2001)
    (by intro i; by_cases hi : i = 0 <;> simp [hi])
    []
  rw [← CameraSys.resetCamera_animated, hfix.1, hfix.2] at h
  exact ⟨h.2.2.2 (fun _ _ => rfl), h.2.1⟩

namespace CameraSys

theorem focusPosition_degenerate (m : JSMath) (fov : ℚ) (box : Box3) (distance : ℚ)
    (hsize : box.getSize = { x := 0, y := 0, z := 0 }) :
    cameraDistance m fov box distance = 0 ∧
    focusPosition m fov box distance = box.getCenter := by
  have hd : cameraDistance m fov box distance = 0 := by
    simp [cameraDistance, hsize]
  refine ⟨hd, ?_⟩
  unfold focusPosition
  simp only [hd]
  cases hc : box.getCenter
  simp [Vector3.add, Vector3.multiplyScalar]

end CameraSys

/-- C18 fails as stated: for a bounding box with no extent and the default
`distance = 5`, the camera distance computed by `focusOnObject` is 0 and the
transition it starts has the box centre itself as target camera position. -/
theorem C18_counterexample :
    pointBox.getSize = { x := 0, y := 0, z := 0 } ∧
    CameraSys.cameraDistance approxMath idleSys.controls.fov pointBox 5 = 0 ∧
    (idleSys.focusOnObject approxMath pointBox 5 0 0).raf.map Transition.targetPosition =
      [pointBox.getCenter] ∧
    (idleSys.focusOnObject approxMath pointBox 5 0 0).raf.map Transition.targetLookAt =
      [pointBox.getCenter] := by
  have hsize : pointBox.getSize = { x := 0, y := 0, z := 0 } := by
    simp [Box3.getSize, Box3.isEmpty, pointBox]
  have h := CameraSys.focusPosition_degenerate approxMath idleSys.controls.fov pointBox 5 hsize
  refine ⟨hsize, h.1, ?_, ?_⟩
  · unfold CameraSys.focusOnObject
    rw [CameraSys.animateCamera_raf _ _ _ _ _ (by decide), h.2]
    rfl
  · unfold CameraSys.focusOnObject
    rw [CameraSys.animateCamera_raf _ _ _ _ _ (by decide)]
    rfl

/-- C18, amended: for an object whose bounding box has zero size in every
dimension, `focusOnObject` does not raise and substitutes no default: the
camera distance it computes from the zero size is 0 (the sine of half the
field of view being non-zero), so the transition it starts has the box centre
both as target camera position and as look-at target. -/
theorem C18_degenerate_box (m : JSMath) (O : OrbitControls) (s : CameraSys O) (box : Box3)
    (distance : ℚ) (startNow now : Int)
    (hsize : box.getSize = { x := 0, y := 0, z := 0 })
    (_hsin : m.sin (s.controls.fov * (m.pi / 180) / 2) ≠ 0) :
    CameraSys.cameraDistance m s.controls.fov box distance = 0 ∧
    CameraSys.focusPosition m s.controls.fov box distance = box.getCenter ∧
    s.focusOnObject m box distance startNow now =
      s.animateCamera box.getCenter box.getCenter startNow now := by
  have h := CameraSys.focusPosition_degenerate m s.controls.fov box distance hsize
  refine ⟨h.1, h.2, ?_⟩
  unfold CameraSys.focusOnObject
  rw [h.2]

/-- C18 amended, on the point box with the distance factor 0.8 used by the
focus-teacher button. -/
theorem C18_degenerate_box_witness :
    CameraSys.focusPosition approxMath idleSys.controls.fov pointBox (4 / 5) =
      pointBox.getCenter :=
  (C18_degenerate_box approxMath idleOrbit idleSys pointBox (4 / 5) 0 0
    (by simp [Box3.getSize, Box3.isEmpty, pointBox])
    (by
      show approxMath.sin ((60 : ℚ) * (approxMath.pi / 180) / 2) ≠ 0
      norm_num [approxMath])).2.1

/-! ## Characters and particles (C19, C20) -/

theorem Student.update_overwrites (m : JSMath) (t t1 : ℚ) (st : Student) :
    Student.update m t (Student.update m t1 st) = Student.update m t st := by
  cases hc : st.children <;> simp [Student.update, hc]

theorem Teacher.update_overwrites_gesture (m : JSMath) (t t1 : ℚ) (te : Teacher) :
    Teacher.update m t (Teacher.update m t1 te) = Teacher.update m t te := by
  rcases hc : te.children with _ | ⟨c0, _ | ⟨c1, _ | ⟨c2, _ | ⟨arm, rest⟩⟩⟩⟩ <;>
    simp [Teacher.update, hc]

theorem Characters.update_twice (m : JSMath) (c : Characters) (t t1 : ℚ) :
    (c.update m t1).update m t = c.update m t := by
  unfold Characters.update
  congr 1
  · simp only [List.map_map]
    apply List.map_congr_left
    intro st _
    exact Student.update_overwrites m t t1 st
  · cases c.teacher with
    | none => rfl
    | some te => simp [Option.map, Teacher.update_overwrites_gesture]

theorem Characters.update_after (m : JSMath) (earlier : List ℚ) (c : Characters) (t : ℚ) :
    (earlier.foldl (Characters.update m) c).update m t = c.update m t := by
  induction earlier generalizing c with
  | nil => rfl
  | cons t1 earlier ih =>
    rw [List.foldl_cons, ih, Characters.update_twice]

/-- C19: `Characters.update(t)` writes each student's height
`baseY + sin(t·swaySpeed + swayOffset)·swayAmount` and head tilt, and the
teacher's yaw and right-arm rotation, from `t` and the parameters fixed at
construction alone, and changes none of those parameters; so `update(t)` after
any sequence of earlier `update` calls leaves the same state as `update(t)`
alone. -/
theorem C19_characters_stateless (m : JSMath) (c : Characters) (earlier : List ℚ) (t : ℚ) :
    (earlier.foldl (Characters.update m) c).update m t = c.update m t ∧
    (c.update m t).students.map (fun st => st.position.y) =
      c.students.map (fun st => st.baseY + m.sin (t * st.swaySpeed + st.swayOffset) * st.swayAmount) ∧
    (c.update m t).teacher.map (fun te => te.rotationY) =
      c.teacher.map (fun te => te.baseRotation + m.sin (t * te.gestureSpeed) * te.gestureAmount) ∧
    (c.update m t).students.map
        (fun st => (st.baseY, st.swaySpeed, st.swayAmount, st.swayOffset)) =
      c.students.map (fun st => (st.baseY, st.swaySpeed, st.swayAmount, st.swayOffset)) ∧
    (c.update m t).teacher.map
        (fun te => (te.baseRotation, te.gestureSpeed, te.gestureAmount)) =
      c.teacher.map (fun te => (te.baseRotation, te.gestureSpeed, te.gestureAmount)) := by
  refine ⟨Characters.update_after m earlier c t, ?_, ?_, ?_, ?_⟩
  · simp [Characters.update, Student.update, Function.comp_def]
  · cases h : c.teacher <;> simp [Characters.update, Teacher.update, h]
  · simp [Characters.update, Student.update, Function.comp_def]
  · cases h : c.teacher <;> simp [Characters.update, Teacher.update, h]

theorem Book.foldl_update (m : JSMath) (times : List ℚ) (b : Book) :
    times.foldl (fun q t => Book.update m t q) b = Book.after m times b := by
  induction times generalizing b with
  | nil =>
    cases b with
    | mk position rotation speed radius offset =>
      cases position
      cases rotation
      simp [Book.after]
  | cons t times ih =>
    rw [List.foldl_cons, ih]
    cases b with
    | mk position rotation speed radius offset =>
      cases position
      cases rotation
      simp only [Book.after, Book.update, List.map_cons, List.sum_cons, List.length_cons,
        Nat.cast_add, Nat.cast_one, Book.mk.injEq, Vector3.mk.injEq, and_true, true_and]
      refine ⟨by ring, by ring, by ring⟩

theorem ParticleEffects.update_dust (m : JSMath) (pe : ParticleEffects) (t : ℚ) :
    (pe.update m t).dust = pe.dust.map DustParticle.step := by
  obtain ⟨ps⟩ := pe
  unfold ParticleEffects.update ParticleEffects.dust
  simp only
  induction ps with
  | nil => rfl
  | cons p ps ih =>
    simp only [List.map_cons, List.flatten_cons, List.map_append, ← ih]
    cases p <;> simp [Particle.update]

theorem ParticleEffects.update_books (m : JSMath) (pe : ParticleEffects) (t : ℚ) :
    (pe.update m t).books = pe.books.map (Book.update m t) := by
  obtain ⟨ps⟩ := pe
  unfold ParticleEffects.update ParticleEffects.books
  simp only
  induction ps with
  | nil => rfl
  | cons p ps ih =>
    simp only [List.map_cons, List.flatten_cons, List.map_append, ← ih]
    cases p <;> simp [Particle.update]

theorem ParticleEffects.run_dust (m : JSMath) (times : List ℚ) (pe : ParticleEffects) :
    (times.foldl (ParticleEffects.update m) pe).dust =
      pe.dust.map (DustParticle.step^[times.length]) := by
  induction times generalizing pe with
  | nil => simp
  | cons t times ih =>
    rw [List.foldl_cons, ih, ParticleEffects.update_dust, List.map_map, List.length_cons,
      Function.iterate_succ]

theorem ParticleEffects.run_books (m : JSMath) (times : List ℚ) (pe : ParticleEffects) :
    (times.foldl (ParticleEffects.update m) pe).books =
      pe.books.map (fun b => times.foldl (fun q t => Book.update m t q) b) := by
  induction times generalizing pe with
  | nil => simp
  | cons t times ih =>
    rw [List.foldl_cons, ih, ParticleEffects.update_books, List.map_map]
    rfl

/-- C20 fails as stated: two runs on the same constructed effects that both end
with `update(1)` disagree when one of them made an `update(0)` call before:
the dust particle stands at height 1/100 in one and 1/50 in the other, the
book's `rotation.x` is 1/500 in one and 1/250 in the other. -/
theorem C20_counterexample :
    ((smallEffects.update approxMath 1).dust.map (fun d => d.position.y) = [1 / 100] ∧
      (((smallEffects.update approxMath 0).update approxMath 1).dust.map
        (fun d => d.position.y) = [1 / 50])) ∧
    ((smallEffects.update approxMath 1).books.map (fun b => b.rotation.x) = [1 / 500] ∧
      (((smallEffects.update approxMath 0).update approxMath 1).books.map
        (fun b => b.rotation.x) = [1 / 250])) ∧
    smallEffects.update approxMath 1 ≠ (smallEffects.update approxMath 0).update approxMath 1 := by
  have hd1 : (smallEffects.update approxMath 1).dust.map (fun d => d.position.y) = [1 / 100] := by
    norm_num [ParticleEffects.update, ParticleEffects.dust, Particle.update, DustParticle.step,
      smallEffects]
  have hd2 : ((smallEffects.update approxMath 0).update approxMath 1).dust.map
      (fun d => d.position.y) = [1 / 50] := by
    norm_num [ParticleEffects.update, ParticleEffects.dust, Particle.update, DustParticle.step,
      smallEffects]
  have hb1 : (smallEffects.update approxMath 1).books.map (fun b => b.rotation.x) = [1 / 500] := by
    norm_num [ParticleEffects.update, ParticleEffects.books, Particle.update, Book.update,
      smallEffects]
  have hb2 : ((smallEffects.update approxMath 0).update approxMath 1).books.map
      (fun b => b.rotation.x) = [1 / 250] := by
    norm_num [ParticleEffects.update, ParticleEffects.books, Particle.update, Book.update,
      smallEffects]
  refine ⟨⟨hd1, hd2⟩, ⟨hb1, hb2⟩, ?_⟩
  intro h
  rw [← h, hd1] at hd2
  norm_num at hd2

/-- C20, amended: `ParticleEffects.update` is incremental.  After `update` calls
at times `t₁ … tₙ`, each dust particle has been advanced `n` times by the
per-call step, which does not look at the time; each book has had `0.002·n`
added to its `rotation.x`, `0.003·n` to its `rotation.y`, and
`Σ sin(tᵢ·speed + offset)·0.001` to its height.  So the dust positions and the
book rotations depend on the constructed state and on how many calls were made
(two runs of equal length agree on them whatever the times), and the book
heights depend on the times of all the calls. -/
theorem C20_particles_incremental (m : JSMath) (pe : ParticleEffects) (times times1 : List ℚ)
    (hlen : times1.length = times.length) :
    (times.foldl (ParticleEffects.update m) pe).dust =
      pe.dust.map (DustParticle.step^[times.length]) ∧
    (times.foldl (ParticleEffects.update m) pe).books = pe.books.map (Book.after m times) ∧
    (times1.foldl (ParticleEffects.update m) pe).dust =
      (times.foldl (ParticleEffects.update m) pe).dust ∧
    (times1.foldl (ParticleEffects.update m) pe).books.map (fun b => b.rotation) =
      (times.foldl (ParticleEffects.update m) pe).books.map (fun b => b.rotation) := by
  have hbooks : ∀ ts : List ℚ,
      (ts.foldl (ParticleEffects.update m) pe).books = pe.books.map (Book.after m ts) := by
    intro ts
    rw [ParticleEffects.run_books]
    apply List.map_congr_left
    intro b _
    exact Book.foldl_update m ts b
  refine ⟨ParticleEffects.run_dust m times pe, hbooks times, ?_, ?_⟩
  · rw [ParticleEffects.run_dust, ParticleEffects.run_dust, hlen]
  · rw [hbooks, hbooks]
    simp [Book.after, hlen, Function.comp_def]

/-- C20 amended, on the small effects: the runs `[0, 1]` and `[5, 7]` leave the
same dust, and the book's `rotation.x` after either is 1/250. -/
theorem C20_particles_incremental_witness :
    ([5, 7].foldl (ParticleEffects.update approxMath) smallEffects).dust =
      ([0, 1].foldl (ParticleEffects.update approxMath) smallEffects).dust ∧
    ([0, 1].foldl (ParticleEffects.update approxMath) smallEffects).books.map
      (fun b => b.rotation.x) = [1 / 250] := by
  have h := C20_particles_incremental approxMath smallEffects [0, 1] [5, 7] rfl
  refine ⟨h.2.2.1, ?_⟩
  rw [h.2.1]
  norm_num [ParticleEffects.books, Book.after, smallEffects]

/-! ## Utilities and easing (C21, C23, C27) -/

/-- C21 fails as stated: on the empty palette `randomColor` yields `undefined`,
not a colour. -/
theorem C21_counterexample :
    randomColor [] (1 / 2) = none ∧ ¬ ∃ colour, randomColor [] (1 / 2) = some colour := by
  have h : randomColor [] (1 / 2) = none := by simp [randomColor]
  exact ⟨h, fun ⟨c, hc⟩ => by rw [h] at hc; cases hc⟩

/-- C21, amended: applied to an empty palette `randomColor` does not fail and
yields `undefined` (no colour, no default) whatever `Math.random()` returns;
applied to a non-empty palette, with `Math.random()` in `[0, 1)`, it yields an
element of the palette. -/
theorem C21_random_colour (palette : List String) (random : ℚ) :
    randomColor [] random = none ∧
    (palette ≠ [] → 0 ≤ random → random < 1 →
      ∃ colour ∈ palette, randomColor palette random = some colour) := by
  refine ⟨by simp [randomColor], ?_⟩
  intro hne h0 h1
  have hlen : 0 < (palette.length : ℚ) := by
    exact_mod_cast List.length_pos.2 hne
  have hidx0 : 0 ≤ Int.floor (random * (palette.length : ℚ)) :=
    Int.floor_nonneg.2 (mul_nonneg h0 hlen.le)
  have hidx1 : Int.floor (random * (palette.length : ℚ)) < (palette.length : Int) := by
    rw [Int.floor_lt]
    have : random * (palette.length : ℚ) < 1 * (palette.length : ℚ) :=
      mul_lt_mul_of_pos_right h1 hlen
    simpa using this
  have hlt : (Int.floor (random * (palette.length : ℚ))).toNat < palette.length := by omega
  refine ⟨palette[(Int.floor (random * (palette.length : ℚ))).toNat], List.getElem_mem hlt, ?_⟩
  unfold randomColor
  simp only [hidx0, if_true]
  rw [List.get?_eq_getElem?]
  exact List.getElem?_eq_getElem hlt

/-- C21 amended, on a palette of two skin tones with `Math.random() = 3/4`. -/
theorem C21_random_colour_witness :
    ∃ colour ∈ ["#FFE0BD", "#F1C27D"], randomColor ["#FFE0BD", "#F1C27D"] (3 / 4) = some colour :=
  (C21_random_colour ["#FFE0BD", "#F1C27D"] (3 / 4)).2 (by simp) (by norm_num) (by norm_num)

/-- C23: for `min ≤ max`, `clamp(value, min, max)` lies in `[min, max]`, equals
`value` when `value` is in `[min, max]`, and equals the expression
`max(min, min(max, value))`; with the bounds set by `init()`, the position
that `CameraControls.update` leaves is the `clamp` of each coordinate left by
the orbit control. -/
theorem C23_clamp_refines (value min max : ℚ) (h : min ≤ max)
    (O : OrbitControls) (c : CameraControls O)
    (hb : c.cameraBounds = some CameraControls.roomBounds) :
    (min ≤ clamp value min max ∧ clamp value min max ≤ max) ∧
    (min ≤ value → value ≤ max → clamp value min max = value) ∧
    clamp value min max = Max.max min (Min.min max value) ∧
    c.update.pose.position =
      { x := clamp (O.update c.orbit c.pose).2.position.x (-9) 9
        y := clamp (O.update c.orbit c.pose).2.position.y (1 / 2) (7 / 2)
        z := clamp (O.update c.orbit c.pose).2.position.z (-7) 7 } := by
  have key : ∀ v lo hi : ℚ, lo ≤ hi → Min.min (Max.max v lo) hi = Max.max lo (Min.min hi v) := by
    intro v lo hi hlh
    rcases le_total v lo with h1 | h1
    · rw [max_eq_right h1, min_eq_left hlh, min_eq_right (h1.trans hlh), max_eq_left h1]
    · rw [max_eq_left h1]
      rcases le_total v hi with h2 | h2
      · rw [min_eq_left h2, min_eq_right h2, max_eq_right h1]
      · rw [min_eq_right h2, min_eq_left h2, max_eq_right hlh]
  have hb3 := max_min_bounds min max value h
  refine ⟨?_, ?_, key value min max h, ?_⟩
  · unfold clamp
    rw [key value min max h]
    exact ⟨hb3.1, hb3.2.1⟩
  · intro h1 h2
    unfold clamp
    rw [key value min max h]
    exact hb3.2.2 h1 h2
  · unfold clamp
    rw [key _ (-9) 9 (by norm_num), key _ (1 / 2) (7 / 2) (by norm_num),
      key _ (-7) 7 (by norm_num)]
    simp [CameraControls.update, CameraControls.controlsUpdate, hb, CameraControls.roomBounds]

/-- C23 on the height 4 of the constructed camera and the bounds 0.5 and 3.5. -/
theorem C23_clamp_refines_witness : clamp 4 (1 / 2) (7 / 2) = 7 / 2 := by
  have h := (C23_clamp_refines 4 (1 / 2) (7 / 2) (by norm_num) idleOrbit
    (CameraControls.new idleOrbit 60 ()) rfl).2.2.1
  rw [h]
  norm_num

/-- C27: the easing of `animate` is `2t²` below 0.5 and `1 - (2 - 2t)²/2` from
0.5 on; it takes 0 to 0 and 1 to 1, stays in `[0, 1]` on `[0, 1]`, and is
non-decreasing on `[0, 1]`, also across 0.5. -/
theorem C27_easing (s t : ℚ) (hs : 0 ≤ s) (hst : s ≤ t) (ht : t ≤ 1) :
    eased t = (if t < 1 / 2 then 2 * t ^ 2 else 1 - (2 - 2 * t) ^ 2 / 2) ∧
    eased 0 = 0 ∧ eased 1 = 1 ∧
    (0 ≤ eased t ∧ eased t ≤ 1) ∧
    eased s ≤ eased t := by
  have hform : ∀ u : ℚ, eased u = (if u < 1 / 2 then 2 * u ^ 2 else 1 - (2 - 2 * u) ^ 2 / 2) := by
    intro u
    unfold eased
    split <;> ring
  have hrange : ∀ u : ℚ, 0 ≤ u → u ≤ 1 → 0 ≤ eased u ∧ eased u ≤ 1 := by
    intro u h0 h1
    rw [hform]
    split
    · constructor <;> nlinarith
    · constructor <;> nlinarith
  refine ⟨hform t, by norm_num [eased], eased_one, hrange t (hs.trans hst) ht, ?_⟩
  rw [hform s, hform t]
  by_cases h1 : s < 1 / 2 <;> by_cases h2 : t < 1 / 2
  · rw [if_pos h1, if_pos h2]; nlinarith
  · rw [if_pos h1, if_neg h2]; nlinarith
  · exact absurd (lt_of_le_of_lt hst h2) h1
  · rw [if_neg h1, if_neg h2]; nlinarith

/-- C27 between progress 0.4 and 0.6, on either side of the branch point. -/
theorem C27_easing_witness : eased (2 / 5) ≤ eased (3 / 5) :=
  (C27_easing (2 / 5) (3 / 5) (by norm_num) (by norm_num) (by norm_num)).2.2.2.2

/-! ## Camera bounds and named viewpoints (C25, C26) -/

theorem lerp_between (lo hi a b e : ℚ) (ha : lo ≤ a ∧ a ≤ hi) (hb : lo ≤ b ∧ b ≤ hi)
    (he : 0 ≤ e ∧ e ≤ 1) : lo ≤ a + (b - a) * e ∧ a + (b - a) * e ≤ hi := by
  obtain ⟨ha1, ha2⟩ := ha
  obtain ⟨hb1, hb2⟩ := hb
  obtain ⟨he0, he1⟩ := he
  constructor
  · nlinarith [mul_nonneg (sub_nonneg.2 he1) (sub_nonneg.2 ha1),
      mul_nonneg he0 (sub_nonneg.2 hb1)]
  · nlinarith [mul_nonneg (sub_nonneg.2 he1) (sub_nonneg.2 ha2),
      mul_nonneg he0 (sub_nonneg.2 hb2)]

theorem eased_unit (p : ℚ) (h0 : 0 ≤ p) (h1 : p ≤ 1) : 0 ≤ eased p ∧ eased p ≤ 1 := by
  unfold eased
  split
  · constructor <;> nlinarith
  · constructor <;> nlinarith

/-- C25: when the start position and the target position of a transition lie
within the camera bounds, the position written by a run of `animate` at any
progress in `[0, 1]` (any clock reading not before the start) lies within the
bounds: the eased factor is in `[0, 1]` and the interpolation stays between
its end points on every axis. -/
theorem C25_transition_in_bounds (tr : Transition) (now : Int) (p : ℚ)
    (hA : CameraControls.roomBounds.Contains tr.startPosition)
    (hB : CameraControls.roomBounds.Contains tr.targetPosition)
    (hnow : 0 ≤ now - tr.startTime) (hp0 : 0 ≤ p) (hp1 : p ≤ 1) :
    (0 ≤ tr.progress now ∧ tr.progress now ≤ 1) ∧
    (0 ≤ eased p ∧ eased p ≤ 1) ∧
    CameraControls.roomBounds.Contains (tr.startPosition.lerpVectors tr.targetPosition (eased p)) ∧
    CameraControls.roomBounds.Contains (tr.write now).position := by
  have hprog : 0 ≤ tr.progress now ∧ tr.progress now ≤ 1 := by
    unfold Transition.progress
    refine ⟨le_min (div_nonneg (by exact_mod_cast hnow) (by norm_num)) (by norm_num),
      min_le_right _ _⟩
  have hbox : ∀ e : ℚ, 0 ≤ e ∧ e ≤ 1 →
      CameraControls.roomBounds.Contains (tr.startPosition.lerpVectors tr.targetPosition e) := by
    intro e he
    exact ⟨lerp_between _ _ _ _ e hA.1 hB.1 he, lerp_between _ _ _ _ e hA.2.1 hB.2.1 he,
      lerp_between _ _ _ _ e hA.2.2 hB.2.2 he⟩
  exact ⟨hprog, eased_unit p hp0 hp1, hbox _ (eased_unit p hp0 hp1),
    hbox _ (eased_unit _ hprog.1 hprog.2)⟩

/-- C25 on a transition inside the room, 400 ms after its start. -/
theorem C25_transition_in_bounds_witness :
    CameraControls.roomBounds.Contains (roomTransition.write 400).position :=
  (C25_transition_in_bounds roomTransition 400 (1 / 4)
    (by norm_num [CameraBounds.Contains, CameraControls.roomBounds, roomTransition])
    (by norm_num [CameraBounds.Contains, CameraControls.roomBounds, roomTransition])
    (by decide) (by norm_num) (by norm_num)).2.2.2

/-- C26 at the failing input: `boardPosition` lies within the camera bounds and
the position reached by a completed `focusBoard` is left unchanged by
`update()`, but `defaultPosition = (0, 4, 12)` does not lie within them, and
`update()` moves the position reached by a completed `resetCamera` to
`(0, 3.5, 7)`. -/
theorem C26_reset_position_is_clamped :
    (CameraControls.roomBounds.Contains idleSys.controls.boardPosition ∧
      ((idleSys.focusBoard true 0 0).frame 1500).controls.pose.position =
        idleSys.controls.boardPosition ∧
      ((idleSys.focusBoard true 0 0).frame 1500).controls.update.pose.position =
        idleSys.controls.boardPosition) ∧
    (¬ CameraControls.roomBounds.Contains idleSys.controls.defaultPosition ∧
      ((idleSys.resetCamera true 0 0).frame 1500).controls.pose.position =
        { x := 0, y := 4, z := 12 } ∧
      ((idleSys.resetCamera true 0 0).frame 1500).controls.update.pose.position =
        { x := 0, y := 7 / 2, z := 7 }) := by
  refine ⟨⟨?_, by decide!, by decide!⟩, ⟨?_, by decide!, by decide!⟩⟩
  · norm_num [CameraBounds.Contains, CameraControls.roomBounds, idleSys, CameraControls.new,
      CameraControls.controlsUpdate]
  · norm_num [CameraBounds.Contains, CameraControls.roomBounds, idleSys, CameraControls.new,
      CameraControls.controlsUpdate]

/-! ## Lighting (C29) -/

/-- C29: on the constructed lighting system, `setShadows(false)` followed by
`setShadows(true)` gives back the constructed state, in which the directional
light, the board spotlight and ceiling lights 0 and 1 cast shadows; and after
any sequence of `setShadows` calls ceiling lights 2 to 5 do not cast shadows. -/
theorem C29_shadows_restored (calls : List Bool) :
    (LightingSystem.new.setShadows false).setShadows true = LightingSystem.new ∧
    LightingSystem.new.lights.directional.map (fun l => l.castShadow) = some true ∧
    LightingSystem.new.lights.boardSpot.map (fun l => l.castShadow) = some true ∧
    LightingSystem.new.lights.ceiling.map (fun c => c.map (fun l => l.castShadow)) =
      some [true, true, false, false, false, false] ∧
    (calls.foldl LightingSystem.setShadows LightingSystem.new).lights.ceiling.map
        (fun c => (c.drop 2).map (fun l => l.castShadow)) =
      some [false, false, false, false] := by
  have hon : LightingSystem.new.setShadows true = LightingSystem.new := by decide!
  have hoff : (LightingSystem.new.setShadows false).setShadows false =
      LightingSystem.new.setShadows false := by decide!
  have hback : (LightingSystem.new.setShadows false).setShadows true = LightingSystem.new := by
    decide!
  have hinv : ∀ (bs : List Bool) (l : LightingSystem),
      (l = LightingSystem.new ∨ l = LightingSystem.new.setShadows false) →
      (bs.foldl LightingSystem.setShadows l = LightingSystem.new ∨
        bs.foldl LightingSystem.setShadows l = LightingSystem.new.setShadows false) := by
    intro bs
    induction bs with
    | nil => intro l hl; exact hl
    | cons b bs ih =>
      intro l hl
      apply ih
      rcases hl with hl | hl <;> cases b
      · right; rw [hl]
      · left; rw [hl, hon]
      · right; rw [hl, hoff]
      · left; rw [hl, hback]
  refine ⟨hback, by decide!, by decide!, by decide!, ?_⟩
  rcases hinv calls LightingSystem.new (Or.inl rfl) with h | h
  · rw [h]; decide!
  · rw [h]; decide!

/-! ## Frame driver (C22, C30) -/

namespace VirtualClassroom

variable {O : OrbitControls}

theorem callOn_some {α : Type} (x : Option α) (f : α → α) (call : FrameCall)
    (h : x.isSome = true) : callOn x f call = (x.map f, [call]) := by
  cases x with
  | none => simp at h
  | some v => rfl

theorem callOn_fst {α : Type} (x : Option α) (f : α → α) (call : FrameCall) :
    (callOn x f call).1 = x.map f := by
  cases x <;> rfl

theorem updateFps_rest (b : VirtualClassroom O) (t : ℚ) :
    (b.updateFps t).1.isRunning = b.isRunning ∧ (b.updateFps t).1.frameCount = b.frameCount ∧
    (b.updateFps t).1.cameraControls = b.cameraControls ∧
    (b.updateFps t).1.characters = b.characters ∧
    (b.updateFps t).1.particles = b.particles ∧
    (b.updateFps t).1.lighting = b.lighting ∧
    (b.updateFps t).1.pdfViewer = b.pdfViewer ∧
    (∀ call ∈ (b.updateFps t).2, call = FrameCall.fpsUpdate) := by
  unfold updateFps
  cases b.fpsCounter <;> simp

theorem animate_running (m : JSMath) (a : VirtualClassroom O) (inp : FrameInput)
    (hrun : a.isRunning = true) :
    (animate m a inp).1.isRunning = true ∧
    (animate m a inp).1.frameCount = some (a.frameCount.getD 0 + 1) := by
  unfold animate
  simp only [hrun, Bool.true_eq_false, if_false]
  split_ifs <;> simp [updateFps_rest, hrun]

/-- The components after a running `animate()`: the camera navigator is
updated; characters and particles are updated in even frames, lighting and the
PDF viewer in frames divisible by 3, and are left as they are otherwise. -/
theorem animate_components (m : JSMath) (a : VirtualClassroom O) (inp : FrameInput)
    (hrun : a.isRunning = true) :
    (animate m a inp).1.cameraControls = a.cameraControls.map CameraControls.update ∧
    (animate m a inp).1.characters =
      (if (a.frameCount.getD 0 + 1) % 2 = 0
        then a.characters.map (fun c => c.update m inp.elapsedTime) else a.characters) ∧
    (animate m a inp).1.particles =
      (if (a.frameCount.getD 0 + 1) % 2 = 0
        then a.particles.map (fun p => p.update m inp.elapsedTime) else a.particles) ∧
    (animate m a inp).1.lighting =
      (if (a.frameCount.getD 0 + 1) % 3 = 0
        then a.lighting.map (fun l => l.update m inp.deltaTime inp.dateNow) else a.lighting) ∧
    (animate m a inp).1.pdfViewer =
      (if (a.frameCount.getD 0 + 1) % 3 = 0
        then a.pdfViewer.map (fun v => v.update inp.deltaTime) else a.pdfViewer) := by
  unfold animate
  simp only [hrun, Bool.true_eq_false, if_false]
  split_ifs <;> simp [updateFps_rest, callOn_fst]

/-- The calls of a running `animate()` when every component has been created. -/
theorem animate_calls (m : JSMath) (a : VirtualClassroom O) (inp : FrameInput)
    (hrun : a.isRunning = true)
    (hcam : a.cameraControls.isSome = true) (hchar : a.characters.isSome = true)
    (hpart : a.particles.isSome = true) (hlight : a.lighting.isSome = true)
    (hpdf : a.pdfViewer.isSome = true) :
    ∃ fps : List FrameCall, (∀ call ∈ fps, call = FrameCall.fpsUpdate) ∧
      (animate m a inp).2 =
        [FrameCall.requestAnimationFrame] ++ fps ++ [FrameCall.controlsUpdate] ++
        (if (a.frameCount.getD 0 + 1) % 2 = 0
          then [FrameCall.charactersUpdate, FrameCall.particlesUpdate] else []) ++
        (if (a.frameCount.getD 0 + 1) % 3 = 0
          then [FrameCall.lightingUpdate, FrameCall.pdfViewerUpdate] else []) ++
        [FrameCall.render] := by
  unfold animate
  simp only [hrun, Bool.true_eq_false, if_false]
  by_cases h10 : (a.frameCount.getD 0 + 1) % 10 = 0
  · refine ⟨(updateFps { a with frameCount := some (a.frameCount.getD 0 + 1) }
      inp.performanceNow).2, (updateFps_rest _ _).2.2.2.2.2.2.2, ?_⟩
    simp only [h10, if_true, updateFps_rest]
    rw [callOn_some _ _ _ hcam]
    split_ifs <;> simp [callOn_some, hchar, hpart, hlight, hpdf, hrun]
  · refine ⟨[], by simp, ?_⟩
    simp only [h10, if_false]
    rw [callOn_some _ _ _ hcam]
    split_ifs <;> simp [callOn_some, hchar, hpart, hlight, hpdf]

theorem run_cons (m : JSMath) (a : VirtualClassroom O) (inp : FrameInput)
    (inputs : List FrameInput) (calls : List FrameCall) :
    (List.foldl
      (fun acc i => ((animate m acc.1 i).1, acc.2 ++ (animate m acc.1 i).2)) (a, calls)
      (inp :: inputs)).1 =
    (List.foldl
      (fun acc i => ((animate m acc.1 i).1, acc.2 ++ (animate m acc.1 i).2))
      ((animate m a inp).1, calls ++ (animate m a inp).2) inputs).1 := rfl

theorem run_frameCount (m : JSMath) (inputs : List FrameInput) (a : VirtualClassroom O)
    (calls : List FrameCall) (hrun : a.isRunning = true) :
    (List.foldl
      (fun acc i => ((animate m acc.1 i).1, acc.2 ++ (animate m acc.1 i).2)) (a, calls)
      inputs).1.frameCount.getD 0 = a.frameCount.getD 0 + inputs.length := by
  induction inputs generalizing a calls with
  | nil => simp
  | cons inp inputs ih =>
    rw [run_cons, ih _ _ (animate_running m a inp hrun).1, (animate_running m a inp hrun).2]
    simp only [Option.getD_some, List.length_cons]
    omega

end VirtualClassroom

/-- C22: with every component created, a running `animate()` makes exactly one
`requestAnimationFrame` call, one camera-controls update and one render call,
and raises the frame count to `n`; it calls the update of characters and of
particles exactly when `n` is even and that of lighting and of the PDF viewer
exactly when `n` is divisible by 3.  The state it leaves holds the camera
navigator after `update()`, characters and particles after their `update` in
even frames and unchanged in odd ones, lighting and the PDF viewer after their
`update` in frames divisible by 3 and unchanged in the others.  The count after
any number of frames from a fresh start is that number.  When `isRunning` is
false it changes nothing and makes no call. -/
theorem C22_frame_cadence (m : JSMath) (O : OrbitControls) (a : VirtualClassroom O)
    (inp : FrameInput) (inputs : List FrameInput)
    (hcam : a.cameraControls.isSome = true) (hchar : a.characters.isSome = true)
    (hpart : a.particles.isSome = true) (hlight : a.lighting.isSome = true)
    (hpdf : a.pdfViewer.isSome = true) :
    (a.isRunning = true →
      (VirtualClassroom.animate m a inp).2.count FrameCall.render = 1 ∧
      (VirtualClassroom.animate m a inp).2.count FrameCall.controlsUpdate = 1 ∧
      (VirtualClassroom.animate m a inp).2.count FrameCall.requestAnimationFrame = 1 ∧
      (VirtualClassroom.animate m a inp).1.frameCount = some (a.frameCount.getD 0 + 1) ∧
      (FrameCall.charactersUpdate ∈ (VirtualClassroom.animate m a inp).2 ↔
        (a.frameCount.getD 0 + 1) % 2 = 0) ∧
      (FrameCall.particlesUpdate ∈ (VirtualClassroom.animate m a inp).2 ↔
        (a.frameCount.getD 0 + 1) % 2 = 0) ∧
      (FrameCall.lightingUpdate ∈ (VirtualClassroom.animate m a inp).2 ↔
        (a.frameCount.getD 0 + 1) % 3 = 0) ∧
      (FrameCall.pdfViewerUpdate ∈ (VirtualClassroom.animate m a inp).2 ↔
        (a.frameCount.getD 0 + 1) % 3 = 0) ∧
      (VirtualClassroom.animate m a inp).1.cameraControls =
        a.cameraControls.map CameraControls.update ∧
      (VirtualClassroom.animate m a inp).1.characters =
        (if (a.frameCount.getD 0 + 1) % 2 = 0
          then a.characters.map (fun c => c.update m inp.elapsedTime) else a.characters) ∧
      (VirtualClassroom.animate m a inp).1.particles =
        (if (a.frameCount.getD 0 + 1) % 2 = 0
          then a.particles.map (fun p => p.update m inp.elapsedTime) else a.particles) ∧
      (VirtualClassroom.animate m a inp).1.lighting =
        (if (a.frameCount.getD 0 + 1) % 3 = 0
          then a.lighting.map (fun l => l.update m inp.deltaTime inp.dateNow)
          else a.lighting) ∧
      (VirtualClassroom.animate m a inp).1.pdfViewer =
        (if (a.frameCount.getD 0 + 1) % 3 = 0
          then a.pdfViewer.map (fun v => v.update inp.deltaTime) else a.pdfViewer) ∧
      (a.frameCount = none →
        (VirtualClassroom.run m a inputs).1.frameCount.getD 0 = inputs.length)) ∧
    (a.isRunning = false → VirtualClassroom.animate m a inp = (a, [])) := by
  constructor
  · intro hrun
    obtain ⟨fps, hfps, hcalls⟩ :=
      VirtualClassroom.animate_calls m a inp hrun hcam hchar hpart hlight hpdf
    have hcomp := VirtualClassroom.animate_components m a inp hrun
    have hcount : ∀ call : FrameCall, call ≠ FrameCall.fpsUpdate → fps.count call = 0 := by
      intro call hne
      rw [List.count_eq_zero]
      intro hmem
      exact hne (hfps call hmem)
    have hnot : ∀ call : FrameCall, call ≠ FrameCall.fpsUpdate → call ∉ fps :=
      fun call hne hmem => hne (hfps call hmem)
    refine ⟨?_, ?_, ?_, (VirtualClassroom.animate_running m a inp hrun).2, ?_, ?_, ?_, ?_,
      hcomp.1, hcomp.2.1, hcomp.2.2.1, hcomp.2.2.2.1, hcomp.2.2.2.2, ?_⟩
    · rw [hcalls]; split_ifs <;> simp [List.count_append, hcount]
    · rw [hcalls]; split_ifs <;> simp [List.count_append, hcount]
    · rw [hcalls]; split_ifs <;> simp [List.count_append, hcount]
    · rw [hcalls]; split_ifs <;> simp_all
    · rw [hcalls]; split_ifs <;> simp_all
    · rw [hcalls]; split_ifs <;> simp_all
    · rw [hcalls]; split_ifs <;> simp_all
    · intro hfresh
      have h := VirtualClassroom.run_frameCount m inputs a [] hrun
      rw [hfresh] at h
      simpa [VirtualClassroom.run] using h
  · intro hstop
    simp [VirtualClassroom.animate, hstop]

/-- C22 on the demo application: its sixth frame calls the update of every
component and leaves each of them updated. -/
theorem C22_frame_cadence_witness :
    (VirtualClassroom.animate approxMath { demoApp with frameCount := some 5 }
      (FrameInput.mk (1 / 60) (1 / 10) 100 100)).2 =
      [FrameCall.requestAnimationFrame, FrameCall.controlsUpdate, FrameCall.charactersUpdate,
        FrameCall.particlesUpdate, FrameCall.lightingUpdate, FrameCall.pdfViewerUpdate,
        FrameCall.render] ∧
    (VirtualClassroom.animate approxMath { demoApp with frameCount := some 5 }
      (FrameInput.mk (1 / 60) (1 / 10) 100 100)).2.count FrameCall.render = 1 ∧
    (VirtualClassroom.animate approxMath { demoApp with frameCount := some 5 }
      (FrameInput.mk (1 / 60) (1 / 10) 100 100)).1.particles =
      some (smallEffects.update approxMath (1 / 10)) ∧
    (VirtualClassroom.animate approxMath { demoApp with frameCount := some 5 }
      (FrameInput.mk (1 / 60) (1 / 10) 100 100)).1.characters =
      demoApp.characters.map (fun c => c.update approxMath (1 / 10)) := by
  have h := (C22_frame_cadence approxMath idleOrbit { demoApp with frameCount := some 5 }
    (FrameInput.mk (1 / 60) (1 / 10) 100 100) [] rfl rfl rfl rfl rfl).1 rfl
  exact ⟨by decide!, h.1, h.2.2.2.2.2.2.2.2.2.2.1, h.2.2.2.2.2.2.2.2.2.1⟩

/-- C30 at the failing input: the demo application renders ten frames 100 ms
apart, a window of 1000 ms since the counter was created; `FPSCounter.update`
is called on the tenth frame only, counts one frame and reports
`round(1·1000/1000) = 1`, where ten rendered frames give `round(10·1000/1000)
= 10`. -/
theorem C30_fps_counts_every_tenth_frame :
    (VirtualClassroom.run approxMath demoApp tenSlowFrames).2.count FrameCall.render = 10 ∧
    (VirtualClassroom.run approxMath demoApp tenSlowFrames).2.count FrameCall.fpsUpdate = 1 ∧
    (VirtualClassroom.run approxMath demoApp tenSlowFrames).1.fpsCounter =
      some { fps := 1, frames := 0, lastTime := 1000, updateCallback := true } ∧
    (VirtualClassroom.run approxMath demoApp tenSlowFrames).1.fpsElement.map
      (fun e => e.textContent) = some "1" ∧
    jsRound ((10 : ℚ) * 1000 / 1000) = 10 := by
  refine ⟨by decide!, by decide!, by decide!, by decide!, by decide!⟩

/-! ## Dust particles (C24) -/

theorem AxisKept.after_step (bound x v : ℚ) (h : AxisKept bound x v) :
    AxisKept bound (x + v) (if |x + v| > bound then v * -1 else v) := by
  rcases h with ⟨h1, h2⟩ | ⟨h1, h2, h3, h4⟩ | ⟨h1, h2, h3, h4⟩
  · by_cases hout : |x + v| > bound
    · rw [if_pos hout]
      rcases lt_abs.1 hout with hgt | hlt
      · right; left
        exact ⟨hgt, by linarith, by linarith, by linarith⟩
      · right; right
        exact ⟨by linarith, by linarith, by linarith, by linarith⟩
    · rw [if_neg hout]
      left
      exact abs_le.1 (not_lt.1 hout)
  · have hin : ¬ |x + v| > bound := not_lt.2 (abs_le.2 ⟨h3, h4⟩)
    rw [if_neg hin]
    left
    exact ⟨h3, h4⟩
  · have hin : ¬ |x + v| > bound := not_lt.2 (abs_le.2 ⟨h3, h4⟩)
    rw [if_neg hin]
    left
    exact ⟨h3, h4⟩

theorem AxisKept.gives_bounds (bound x v : ℚ) (h : AxisKept bound x v) :
    |x| ≤ bound + |v| ∧ (bound < x → v < 0) ∧ (x < -bound → 0 < v) := by
  rcases h with ⟨h1, h2⟩ | ⟨h1, h2, h3, h4⟩ | ⟨h1, h2, h3, h4⟩
  · refine ⟨?_, fun hx => absurd hx (not_lt.2 h2), fun hx => absurd hx (not_lt.2 h1)⟩
    have := abs_nonneg v
    exact abs_le.2 ⟨by linarith, by linarith⟩
  · refine ⟨?_, fun _ => h2, fun hx => ?_⟩
    · rw [abs_of_neg h2]
      exact abs_le.2 ⟨by linarith, by linarith⟩
    · have : x + v < -bound := by linarith
      linarith
  · refine ⟨?_, fun hx => ?_, fun _ => h2⟩
    · rw [abs_of_pos h2]
      exact abs_le.2 ⟨by linarith, by linarith⟩
    · have : bound < x + v := by linarith
      linarith

theorem DustParticle.step_kept (d : DustParticle) (h : d.Kept) : d.step.Kept := by
  obtain ⟨hx, hz, hy0, hy4, hvy⟩ := h
  refine ⟨AxisKept.after_step 10 _ _ hx, AxisKept.after_step (15 / 2) _ _ hz,
    ?_, ?_, hvy⟩
  · show 0 ≤ (if d.position.y + d.velocity.y > 4 then 0 else d.position.y + d.velocity.y)
    split
    · exact le_refl 0
    · linarith
  · show (if d.position.y + d.velocity.y > 4 then 0 else d.position.y + d.velocity.y) ≤ 4
    split
    · norm_num
    · linarith

theorem DustParticle.iterate_kept (n : Nat) (d : DustParticle) (h : d.Kept) :
    (DustParticle.step^[n] d).Kept := by
  induction n generalizing d with
  | zero => exact h
  | succ n ih =>
    rw [Function.iterate_succ_apply]
    exact ih d.step (DustParticle.step_kept d h)

theorem DustParticle.kept_of_constructed (d : DustParticle) (h : d.Constructed) : d.Kept := by
  obtain ⟨⟨hx, hy0, hy4, hz⟩, ⟨_, hvy, _, _⟩⟩ := h
  exact ⟨Or.inl (abs_le.1 hx), Or.inl (abs_le.1 hz), hy0, hy4, by linarith⟩

/-- In exact arithmetic, when every dust particle starts in the ranges drawn
at construction, after any number of `ParticleEffects.update` calls each dust
particle has
`0 ≤ y ≤ 4`, `|x| ≤ 10 + |vx|` and `|z| ≤ 7.5 + |vz|`, and a particle beyond
`|x| ≤ 10` or `|z| ≤ 7.5` has its velocity on that axis pointing back. -/
theorem ParticleEffects.dust_kept_exact (m : JSMath) (pe : ParticleEffects) (times : List ℚ)
    (hstart : ∀ d ∈ pe.dust, d.Constructed) :
    ∀ d ∈ (times.foldl (ParticleEffects.update m) pe).dust,
      (0 ≤ d.position.y ∧ d.position.y ≤ 4) ∧
      |d.position.x| ≤ 10 + |d.velocity.x| ∧
      |d.position.z| ≤ 15 / 2 + |d.velocity.z| ∧
      (10 < d.position.x → d.velocity.x < 0) ∧ (d.position.x < -10 → 0 < d.velocity.x) ∧
      (15 / 2 < d.position.z → d.velocity.z < 0) ∧
      (d.position.z < -(15 / 2) → 0 < d.velocity.z) := by
  intro d hd
  rw [ParticleEffects.run_dust, List.mem_map] at hd
  obtain ⟨d0, hd0, rfl⟩ := hd
  have hk := DustParticle.iterate_kept times.length d0
    (DustParticle.kept_of_constructed d0 (hstart d0 hd0))
  obtain ⟨hx, hz, hy0, hy4, _⟩ := hk
  have bx := AxisKept.gives_bounds 10 _ _ hx
  have bz := AxisKept.gives_bounds (15 / 2) _ _ hz
  exact ⟨⟨hy0, hy4⟩, bx.1, bz.1, bx.2.1, bx.2.2, bz.2.1, bz.2.2⟩

theorem storeSum_mono (x v x1 v1 : ℚ) (h : x + v ≤ x1 + v1) : storeSum x v ≤ storeSum x1 v1 :=
  fl32_mono _ _ (fl64_mono _ _ h)

theorem store_neg (t : ℚ) : fl32 (fl64 (-t)) = -fl32 (fl64 t) := by
  unfold fl32 fl64
  rw [roundTo_neg, roundTo_neg]

/-- A sum that has a 24-bit significand is stored as it is. -/
theorem storeSum_exact (x v : ℚ) (n e : Int) (h : x + v = n * 2 ^ e) (hn : |n| ≤ 2 ^ 24) :
    storeSum x v = x + v := by
  unfold storeSum
  rw [fl64_fixed _ n e h (le_trans hn (by norm_num)), fl32_fixed _ n e h hn]

/-- Evaluation of a store from the binade of the sum, when the sum is a
JavaScript number and not half-way between two binary32 numbers. -/
theorem storeSum_eval (x v : ℚ) (a e k n : Int) (h64 : x + v = a * 2 ^ e) (ha : |a| ≤ 2 ^ 53)
    (h1 : (2 : ℚ) ^ k ≤ |x + v|) (h2 : |x + v| < 2 ^ (k + 1))
    (h3 : (n : ℚ) - 1 / 2 < (x + v) / 2 ^ (k - (((24 : Nat) : Int) - 1)))
    (h4 : (x + v) / 2 ^ (k - (((24 : Nat) : Int) - 1)) < n + 1 / 2) :
    storeSum x v = n * 2 ^ (k - (((24 : Nat) : Int) - 1)) := by
  unfold storeSum
  rw [fl64_fixed _ a e h64 ha]
  exact roundTo_eval 24 _ k n h1 h2 h3 h4

/-- The error of a store of a number below 16 in size. -/
theorem store_err_16 (t : ℚ) (h : |t| ≤ 11) :
    |fl32 (fl64 t) - t| ≤ 1 / 2 ^ 21 + 1 / 2 ^ 50 := by
  have e1 : |fl64 t - t| ≤ 1 / 2 ^ 50 := by
    have := roundTo_abs_err 53 t 3 (lt_of_le_of_lt h (by norm_num))
    norm_num at this
    unfold fl64
    norm_num
    exact this
  have hlt : |fl64 t| < 2 ^ ((3 : Int) + 1) := by
    have h3 : |fl64 t| ≤ |fl64 t - t| + |t| := by
      have := abs_add (fl64 t - t) t
      simpa using this
    exact lt_of_le_of_lt (show |fl64 t| ≤ 1 / 2 ^ 50 + 11 by linarith) (by norm_num)
  have e2 : |fl32 (fl64 t) - fl64 t| ≤ 1 / 2 ^ 21 := by
    have := roundTo_abs_err 24 (fl64 t) 3 hlt
    norm_num at this
    unfold fl32
    norm_num
    exact this
  have h3 := abs_add (fl32 (fl64 t) - fl64 t) (fl64 t - t)
  have e : fl32 (fl64 t) - fl64 t + (fl64 t - t) = fl32 (fl64 t) - t := by ring
  rw [e] at h3
  linarith

/-- The error of a store of a number below 8 in size. -/
theorem store_err_8 (t : ℚ) (h : |t| ≤ 15 / 2 + 1 / 1000) :
    |fl32 (fl64 t) - t| ≤ 1 / 2 ^ 22 + 1 / 2 ^ 51 := by
  have e1 : |fl64 t - t| ≤ 1 / 2 ^ 51 := by
    have := roundTo_abs_err 53 t 2 (lt_of_le_of_lt h (by norm_num))
    norm_num at this
    unfold fl64
    norm_num
    exact this
  have hlt : |fl64 t| < 2 ^ ((2 : Int) + 1) := by
    have h3 : |fl64 t| ≤ |fl64 t - t| + |t| := by
      have := abs_add (fl64 t - t) t
      simpa using this
    exact lt_of_le_of_lt (show |fl64 t| ≤ 1 / 2 ^ 51 + (15 / 2 + 1 / 1000) by linarith)
      (by norm_num)
  have e2 : |fl32 (fl64 t) - fl64 t| ≤ 1 / 2 ^ 22 := by
    have := roundTo_abs_err 24 (fl64 t) 2 hlt
    norm_num at this
    unfold fl32
    norm_num
    exact this
  have h3 := abs_add (fl32 (fl64 t) - fl64 t) (fl64 t - t)
  have e : fl32 (fl64 t) - fl64 t + (fl64 t - t) = fl32 (fl64 t) - t := by ring
  rw [e] at h3
  linarith

/-- The number half a binary32 step and half a binary64 step above 10 is
stored as 10: both roundings are ties, and both go to the even significand. -/
theorem store_tie_10 : fl32 (fl64 (10 + (1 / 2 ^ 21 + 1 / 2 ^ 50))) = 10 := by
  have h1 : fl64 (10 + (1 / 2 ^ 21 + 1 / 2 ^ 50)) = 10 + 1 / 2 ^ 21 := by
    have := roundTo_eval_tie 53 (10 + (1 / 2 ^ 21 + 1 / 2 ^ 50)) 3 (10 * 2 ^ 49 + 2 ^ 28)
      (by rw [abs_of_pos (by norm_num)]; norm_num)
      (by rw [abs_of_pos (by norm_num)]; norm_num) (by norm_num) (Or.inl (by norm_num))
    unfold fl64
    rw [this]
    norm_num
  have h2 : fl32 (10 + 1 / 2 ^ 21) = 10 := by
    have := roundTo_eval_tie 24 (10 + 1 / 2 ^ 21) 3 (10 * 2 ^ 20)
      (by rw [abs_of_pos (by norm_num)]; norm_num)
      (by rw [abs_of_pos (by norm_num)]; norm_num) (by norm_num) (Or.inl (by norm_num))
    unfold fl32
    rw [this]
    norm_num
  rw [h1, h2]

/-- The same at 7.5, where the steps are half as long. -/
theorem store_tie_8 : fl32 (fl64 (15 / 2 + (1 / 2 ^ 22 + 1 / 2 ^ 51))) = 15 / 2 := by
  have h1 : fl64 (15 / 2 + (1 / 2 ^ 22 + 1 / 2 ^ 51)) = 15 / 2 + 1 / 2 ^ 22 := by
    have := roundTo_eval_tie 53 (15 / 2 + (1 / 2 ^ 22 + 1 / 2 ^ 51)) 2 (15 * 2 ^ 49 + 2 ^ 28)
      (by rw [abs_of_pos (by norm_num)]; norm_num)
      (by rw [abs_of_pos (by norm_num)]; norm_num) (by norm_num) (Or.inl (by norm_num))
    unfold fl64
    rw [this]
    norm_num
  have h2 : fl32 (15 / 2 + 1 / 2 ^ 22) = 15 / 2 := by
    have := roundTo_eval_tie 24 (15 / 2 + 1 / 2 ^ 22) 2 (15 * 2 ^ 20)
      (by rw [abs_of_pos (by norm_num)]; norm_num)
      (by rw [abs_of_pos (by norm_num)]; norm_num) (by norm_num) (Or.inl (by norm_num))
    unfold fl32
    rw [this]
    norm_num
  rw [h1, h2]

/-- One update keeps a horizontal axis under control, for a bound `B` at which
the store has the properties listed. -/
theorem AxisStored.after_store (B ε slack x v : ℚ) (hB : 1 / 1000 ≤ B) (hv : |v| ≤ 1 / 1000)
    (hfix : fl32 (fl64 B) = B)
    (herr : ∀ t : ℚ, |t| ≤ B + 1 / 1000 → |fl32 (fl64 t) - t| ≤ ε)
    (htie : fl32 (fl64 (B + ε)) ≤ B) (hslack : ε ≤ slack)
    (h : AxisStored B slack x v) :
    AxisStored B slack (storeSum x v) (if |storeSum x v| > B then v * -1 else v) := by
  have hfixn : fl32 (fl64 (-B)) = -B := by rw [store_neg, hfix]
  have htien : -B ≤ fl32 (fl64 (-(B + ε))) := by rw [store_neg]; linarith
  have hv2 := abs_le.1 hv
  rcases h with ⟨h1, h2⟩ | ⟨h1, _, h2, h3, h4⟩ | ⟨h1, _, h2, h3, h4⟩
  · have hsum : |x + v| ≤ B + 1 / 1000 := abs_le.2 ⟨by linarith, by linarith⟩
    have he := abs_le.1 (herr (x + v) hsum)
    have he1 : storeSum x v - (x + v) ≤ ε := he.2
    have he2 : -ε ≤ storeSum x v - (x + v) := he.1
    by_cases hout : |storeSum x v| > B
    · rw [if_pos hout]
      rcases lt_abs.1 hout with hgt | hlt
      · have hvpos : 0 < v := by
          by_contra hneg
          have : storeSum x v ≤ B := by
            rw [← hfix]
            exact fl32_mono _ _ (fl64_mono _ _ (by linarith))
          linarith
        right; left
        refine ⟨hgt, ?_, by linarith, ?_, ?_⟩
        · have : |v * -1| = v := by rw [mul_neg_one, abs_neg, abs_of_pos hvpos]
          rw [this]; linarith
        · rw [← hfixn]
          exact fl32_mono _ _ (fl64_mono _ _ (by linarith))
        · refine le_trans ?_ htie
          exact fl32_mono _ _ (fl64_mono _ _ (by linarith))
      · have hvneg : v < 0 := by
          by_contra hpos
          have : -B ≤ storeSum x v := by
            rw [← hfixn]
            exact fl32_mono _ _ (fl64_mono _ _ (by linarith))
          linarith
        right; right
        refine ⟨by linarith, ?_, by linarith, ?_, ?_⟩
        · have : |v * -1| = -v := by rw [mul_neg_one, abs_neg, abs_of_neg hvneg]
          rw [this]; linarith
        · refine le_trans htien ?_
          exact fl32_mono _ _ (fl64_mono _ _ (by linarith))
        · rw [← hfix]
          exact fl32_mono _ _ (fl64_mono _ _ (by linarith))
    · rw [if_neg hout]
      left
      exact abs_le.1 (not_lt.1 hout)
  · have hin : ¬ |storeSum x v| > B := not_lt.2 (abs_le.2 ⟨h3, h4⟩)
    rw [if_neg hin]
    left
    exact ⟨h3, h4⟩
  · have hin : ¬ |storeSum x v| > B := not_lt.2 (abs_le.2 ⟨h3, h4⟩)
    rw [if_neg hin]
    left
    exact ⟨h3, h4⟩

theorem AxisStored.gives_slack_bounds (B slack x v : ℚ) (hs : 0 ≤ slack)
    (h : AxisStored B slack x v) :
    |x| ≤ B + |v| + slack ∧ (B < x → v < 0) ∧ (x < -B → 0 < v) := by
  have hv := abs_nonneg v
  rcases h with ⟨h1, h2⟩ | ⟨h1, h2, h3, _, _⟩ | ⟨h1, h2, h3, _, _⟩
  · exact ⟨abs_le.2 ⟨by linarith, by linarith⟩, fun hx => absurd hx (not_lt.2 h2),
      fun hx => absurd hx (not_lt.2 h1)⟩
  · refine ⟨abs_le.2 ⟨by linarith, by linarith⟩, fun _ => h3, fun hx => ?_⟩
    have : (0 : ℚ) ≤ B + |v| + slack := by linarith
    linarith
  · refine ⟨abs_le.2 ⟨by linarith, by linarith⟩, fun hx => ?_, fun _ => h3⟩
    have : (0 : ℚ) ≤ B + |v| + slack := by linarith
    linarith

theorem abs_flip (B x v : ℚ) : |(if |x| > B then v * -1 else v)| = |v| := by
  split
  · rw [mul_neg_one, abs_neg]
  · rfl

theorem DustParticle.stepStored_kept (d : DustParticle) (h : d.KeptStored) :
    d.stepStored.KeptStored := by
  obtain ⟨⟨hx, hvx⟩, ⟨hz, hvz⟩, hy0, hy4, hvy⟩ := h
  have f10 : fl32 (fl64 10) = 10 := by
    rw [fl64_fixed _ 10 0 (by norm_num) (by norm_num),
      fl32_fixed _ 10 0 (by norm_num) (by norm_num)]
  have f8 : fl32 (fl64 (15 / 2)) = 15 / 2 := by
    rw [fl64_fixed _ 15 (-1) (by norm_num) (by norm_num),
      fl32_fixed _ 15 (-1) (by norm_num) (by norm_num)]
  have f0 : fl32 (fl64 0) = 0 := by simp [fl32, fl64, roundTo]
  refine ⟨⟨?_, ?_⟩, ⟨?_, ?_⟩, ?_, ?_, hvy⟩
  · exact AxisStored.after_store 10 (1 / 2 ^ 21 + 1 / 2 ^ 50) (1 / 2 ^ 20) _ _ (by norm_num) hvx
      f10 (fun t ht => store_err_16 t (le_trans ht (by norm_num))) (le_of_eq store_tie_10)
      (by norm_num) hx
  · show |(if |storeSum d.position.x d.velocity.x| > 10 then d.velocity.x * -1
      else d.velocity.x)| ≤ 1 / 1000
    rw [abs_flip]; exact hvx
  · exact AxisStored.after_store (15 / 2) (1 / 2 ^ 22 + 1 / 2 ^ 51) (1 / 2 ^ 21) _ _ (by norm_num)
      hvz f8 (fun t ht => store_err_8 t ht) (le_of_eq store_tie_8) (by norm_num) hz
  · show |(if |storeSum d.position.z d.velocity.z| > 15 / 2 then d.velocity.z * -1
      else d.velocity.z)| ≤ 1 / 1000
    rw [abs_flip]; exact hvz
  · show 0 ≤ (if storeSum d.position.y d.velocity.y > 4 then 0
      else storeSum d.position.y d.velocity.y)
    split
    · exact le_refl 0
    · unfold storeSum
      rw [← f0]
      exact fl32_mono _ _ (fl64_mono _ _ (by linarith))
  · show (if storeSum d.position.y d.velocity.y > 4 then 0
      else storeSum d.position.y d.velocity.y) ≤ 4
    split
    · norm_num
    · linarith

theorem DustParticle.iterateStored_kept (n : Nat) (d : DustParticle) (h : d.KeptStored) :
    (DustParticle.stepStored^[n] d).KeptStored := by
  induction n generalizing d with
  | zero => exact h
  | succ n ih =>
    rw [Function.iterate_succ_apply]
    exact ih d.stepStored (DustParticle.stepStored_kept d h)

theorem DustParticle.keptStored_of_constructed (d : DustParticle) (h : d.Constructed) :
    d.KeptStored := by
  obtain ⟨⟨hx, hy0, hy4, hz⟩, ⟨hvx, hvy, _, hvz⟩⟩ := h
  exact ⟨⟨Or.inl (abs_le.1 hx), hvx⟩, ⟨Or.inl (abs_le.1 hz), hvz⟩, hy0, hy4, by linarith⟩

theorem ParticleEffects.updateStored_dust (m : JSMath) (pe : ParticleEffects) (t : ℚ) :
    (pe.updateStored m t).dust = pe.dust.map DustParticle.stepStored := by
  obtain ⟨ps⟩ := pe
  unfold ParticleEffects.updateStored ParticleEffects.dust
  simp only
  induction ps with
  | nil => rfl
  | cons p ps ih =>
    simp only [List.map_cons, List.flatten_cons, List.map_append, ← ih]
    cases p <;> simp [Particle.updateStored]

theorem ParticleEffects.runStored_dust (m : JSMath) (times : List ℚ) (pe : ParticleEffects) :
    (times.foldl (ParticleEffects.updateStored m) pe).dust =
      pe.dust.map (DustParticle.stepStored^[times.length]) := by
  induction times generalizing pe with
  | nil => simp
  | cons t times ih =>
    rw [List.foldl_cons, ih, ParticleEffects.updateStored_dust, List.map_map, List.length_cons,
      Function.iterate_succ]

/-- C24 with the positions held in the `Float32Array`: when every dust particle
starts in the ranges drawn at construction, after any number of
`ParticleEffects.update` calls each dust particle has `0 ≤ y ≤ 4`,
`|x| ≤ 10 + |vx| + 2⁻²⁰` and `|z| ≤ 7.5 + |vz| + 2⁻²¹`, and a particle beyond
`|x| ≤ 10` or `|z| ≤ 7.5` has its velocity on that axis pointing back. -/
theorem C24_dust_in_bounds (m : JSMath) (pe : ParticleEffects) (times : List ℚ)
    (hstart : ∀ d ∈ pe.dust, d.Constructed) :
    ∀ d ∈ (times.foldl (ParticleEffects.updateStored m) pe).dust,
      (0 ≤ d.position.y ∧ d.position.y ≤ 4) ∧
      |d.position.x| ≤ 10 + |d.velocity.x| + 1 / 2 ^ 20 ∧
      |d.position.z| ≤ 15 / 2 + |d.velocity.z| + 1 / 2 ^ 21 ∧
      (10 < d.position.x → d.velocity.x < 0) ∧ (d.position.x < -10 → 0 < d.velocity.x) ∧
      (15 / 2 < d.position.z → d.velocity.z < 0) ∧
      (d.position.z < -(15 / 2) → 0 < d.velocity.z) := by
  intro d hd
  rw [ParticleEffects.runStored_dust, List.mem_map] at hd
  obtain ⟨d0, hd0, rfl⟩ := hd
  have hk := DustParticle.iterateStored_kept times.length d0
    (DustParticle.keptStored_of_constructed d0 (hstart d0 hd0))
  obtain ⟨⟨hx, _⟩, ⟨hz, _⟩, hy0, hy4, _⟩ := hk
  have bx := AxisStored.gives_slack_bounds 10 _ _ _ (by norm_num) hx
  have bz := AxisStored.gives_slack_bounds (15 / 2) _ _ _ (by norm_num) hz
  exact ⟨⟨hy0, hy4⟩, bx.1, bz.1, bx.2.1, bx.2.2, bz.2.1, bz.2.2⟩


theorem DustParticle.stepStored_eval (x y z vx vy vz x1 y1 z1 : ℚ)
    (hx : storeSum x vx = x1) (hy : storeSum y vy = y1) (hz : storeSum z vz = z1) :
    DustParticle.stepStored (DustParticle.mk (Vector3.mk x y z) (Vector3.mk vx vy vz)) =
      DustParticle.mk (Vector3.mk x1 (if y1 > 4 then 0 else y1) z1)
        (Vector3.mk (if |x1| > 10 then vx * -1 else vx) vy
          (if |z1| > 15 / 2 then vz * -1 else vz)) := by
  simp only [DustParticle.stepStored, hx, hy, hz]

/-- The four stores of the x coordinate of `edgeDust`: the sums
`10 - 19·2⁻²³`, `10 - 11·2⁻²³`, `10 - 3·2⁻²³` and `10 + 5·2⁻²³` are stored as
`10 - 2·2⁻²⁰`, `10 - 2⁻²⁰`, `10` and `10 + 2⁻²⁰`. -/
theorem edge_stores :
    storeSum (10 - 3 / 2 ^ 20) (5 / 2 ^ 23) = 10 - 2 / 2 ^ 20 ∧
    storeSum (10 - 2 / 2 ^ 20) (5 / 2 ^ 23) = 10 - 1 / 2 ^ 20 ∧
    storeSum (10 - 1 / 2 ^ 20) (5 / 2 ^ 23) = 10 ∧
    storeSum 10 (5 / 2 ^ 23) = 10 + 1 / 2 ^ 20 := by
  refine ⟨?_, ?_, ?_, ?_⟩
  · have := storeSum_eval (10 - 3 / 2 ^ 20) (5 / 2 ^ 23) (10 * 2 ^ 23 - 19) (-23) 3
      (10 * 2 ^ 20 - 2) (by norm_num) (by norm_num)
      (by rw [abs_of_pos (by norm_num)]; norm_num)
      (by rw [abs_of_pos (by norm_num)]; norm_num) (by norm_num) (by norm_num)
    rw [this]; norm_num
  · have := storeSum_eval (10 - 2 / 2 ^ 20) (5 / 2 ^ 23) (10 * 2 ^ 23 - 11) (-23) 3
      (10 * 2 ^ 20 - 1) (by norm_num) (by norm_num)
      (by rw [abs_of_pos (by norm_num)]; norm_num)
      (by rw [abs_of_pos (by norm_num)]; norm_num) (by norm_num) (by norm_num)
    rw [this]; norm_num
  · have := storeSum_eval (10 - 1 / 2 ^ 20) (5 / 2 ^ 23) (10 * 2 ^ 23 - 3) (-23) 3
      (10 * 2 ^ 20) (by norm_num) (by norm_num)
      (by rw [abs_of_pos (by norm_num)]; norm_num)
      (by rw [abs_of_pos (by norm_num)]; norm_num) (by norm_num) (by norm_num)
    rw [this]; norm_num
  · have := storeSum_eval 10 (5 / 2 ^ 23) (10 * 2 ^ 23 + 5) (-23) 3
      (10 * 2 ^ 20 + 1) (by norm_num) (by norm_num)
      (by rw [abs_of_pos (by norm_num)]; norm_num)
      (by rw [abs_of_pos (by norm_num)]; norm_num) (by norm_num) (by norm_num)
    rw [this]; norm_num

/-- C24 fails as stated: a dust particle at `x = 10 - 3·2⁻²⁰` (a binary32
number) with `vx = 5·2⁻²³ ≈ 6·10⁻⁷` is in the constructed ranges; the fourth
`ParticleEffects.update` stores `x = 10 + 2⁻²⁰` in the `Float32Array`, which
is more than `10 + |vx|`. -/
theorem C24_counterexample :
    edgeDust.Constructed ∧
    ([0, 1, 2, 3].foldl (ParticleEffects.updateStored approxMath) edgeEffects).dust =
      [{ position := { x := 10 + 1 / 2 ^ 20, y := 1 / 32, z := 0 }
         velocity := { x := -(5 / 2 ^ 23), y := 1 / 128, z := 0 } }] ∧
    ¬ (|(10 : ℚ) + 1 / 2 ^ 20| ≤ 10 + |(-(5 / 2 ^ 23) : ℚ)|) := by
  obtain ⟨x1, x2, x3, x4⟩ := edge_stores
  have y1 : storeSum 0 (1 / 128) = 1 / 128 := by
    rw [storeSum_exact _ _ 1 (-7) (by norm_num) (by norm_num)]; norm_num
  have y2 : storeSum (1 / 128) (1 / 128) = 1 / 64 := by
    rw [storeSum_exact _ _ 1 (-6) (by norm_num) (by norm_num)]; norm_num
  have y3 : storeSum (1 / 64) (1 / 128) = 3 / 128 := by
    rw [storeSum_exact _ _ 3 (-7) (by norm_num) (by norm_num)]; norm_num
  have y4 : storeSum (3 / 128) (1 / 128) = 1 / 32 := by
    rw [storeSum_exact _ _ 1 (-5) (by norm_num) (by norm_num)]; norm_num
  have z0 : storeSum 0 0 = 0 := by
    rw [storeSum_exact _ _ 0 0 (by norm_num) (by norm_num)]; norm_num
  have s1 : edgeDust.stepStored =
      DustParticle.mk (Vector3.mk (10 - 2 / 2 ^ 20) (1 / 128) 0)
        (Vector3.mk (5 / 2 ^ 23) (1 / 128) 0) := by
    rw [edgeDust, DustParticle.stepStored_eval _ _ _ _ _ _ _ _ _ x1 y1 z0]
    norm_num [abs_of_pos]
  have s2 : DustParticle.stepStored (DustParticle.mk (Vector3.mk (10 - 2 / 2 ^ 20) (1 / 128) 0)
        (Vector3.mk (5 / 2 ^ 23) (1 / 128) 0)) =
      DustParticle.mk (Vector3.mk (10 - 1 / 2 ^ 20) (1 / 64) 0)
        (Vector3.mk (5 / 2 ^ 23) (1 / 128) 0) := by
    rw [DustParticle.stepStored_eval _ _ _ _ _ _ _ _ _ x2 y2 z0]
    norm_num [abs_of_pos]
  have s3 : DustParticle.stepStored (DustParticle.mk (Vector3.mk (10 - 1 / 2 ^ 20) (1 / 64) 0)
        (Vector3.mk (5 / 2 ^ 23) (1 / 128) 0)) =
      DustParticle.mk (Vector3.mk 10 (3 / 128) 0)
        (Vector3.mk (5 / 2 ^ 23) (1 / 128) 0) := by
    rw [DustParticle.stepStored_eval _ _ _ _ _ _ _ _ _ x3 y3 z0]
    norm_num [abs_of_pos]
  have s4 : DustParticle.stepStored (DustParticle.mk (Vector3.mk 10 (3 / 128) 0)
        (Vector3.mk (5 / 2 ^ 23) (1 / 128) 0)) =
      DustParticle.mk (Vector3.mk (10 + 1 / 2 ^ 20) (1 / 32) 0)
        (Vector3.mk (-(5 / 2 ^ 23)) (1 / 128) 0) := by
    rw [DustParticle.stepStored_eval _ _ _ _ _ _ _ _ _ x4 y4 z0]
    norm_num [abs_of_pos]
  refine ⟨?_, ?_, ?_⟩
  · norm_num [DustParticle.Constructed, edgeDust, abs_of_pos]
  · rw [ParticleEffects.runStored_dust]
    simp only [ParticleEffects.dust, edgeEffects, List.map_cons, List.map_nil,
      List.flatten_cons, List.flatten_nil, List.append_nil, List.length_cons, List.length_nil,
      Function.iterate_succ, Function.iterate_zero, Function.comp_apply, id_eq,
      s1, s2, s3, s4]
  · rw [abs_of_pos (by norm_num), abs_of_neg (by norm_num)]
    norm_num

/-- C24 on the particle of the counterexample, which the fourth update leaves
beyond `x = 10`: after the four updates every dust particle is within
`10 + |vx| + 2⁻²⁰` on the x axis and, when beyond 10, has `vx < 0`. -/
theorem C24_dust_in_bounds_witness :
    (([0, 1, 2, 3].foldl (ParticleEffects.updateStored approxMath) edgeEffects).dust.all
      fun d => decide ((0 ≤ d.position.y ∧ d.position.y ≤ 4) ∧
        |d.position.x| ≤ 10 + |d.velocity.x| + 1 / 2 ^ 20 ∧
        |d.position.z| ≤ 15 / 2 + |d.velocity.z| + 1 / 2 ^ 21 ∧
        (10 < d.position.x → d.velocity.x < 0) ∧ (d.position.x < -10 → 0 < d.velocity.x) ∧
        (15 / 2 < d.position.z → d.velocity.z < 0) ∧
        (d.position.z < -(15 / 2) → 0 < d.velocity.z))) = true :=
  List.all_eq_true.2 fun d hd =>
    decide_eq_true
      (C24_dust_in_bounds approxMath edgeEffects [0, 1, 2, 3]
        (by
          intro d0 hd0
          have hd1 : d0 = edgeDust := by
            simpa [ParticleEffects.dust, edgeEffects] using hd0
          rw [hd1]
          norm_num [DustParticle.Constructed, edgeDust, abs_of_pos])
        d hd)

/-! ## The single-flight flag is released (C28) -/

namespace PDFViewer

theorem renderPageStart_respects (v : PDFViewer) (n : Int) :
    v.RespectsFlag (v.renderPageStart n) := by
  constructor
  · intro hbusy
    simp [renderPageStart, hbusy]
  · intro hidle
    cases hdoc : v.pdfDoc with
    | none => left; simp [renderPageStart, hidle, hdoc, renderPageCatch, emit]
    | some d => right; simp [renderPageStart, hidle, hdoc, emit]

theorem respects_via (v w : PDFViewer) (n : Int)
    (hflag : w.pageRendering = v.pageRendering) : v.RespectsFlag (w.renderPageStart n) := by
  have h := renderPageStart_respects w n
  unfold RespectsFlag at h ⊢
  rw [hflag] at h
  exact h

theorem respects_refl (v : PDFViewer) : v.RespectsFlag (v, none) := by
  constructor
  · intro h; exact ⟨h, rfl⟩
  · intro h; exact Or.inl ⟨h, rfl⟩

theorem previousPageStart_respects (v : PDFViewer) : v.RespectsFlag v.previousPageStart := by
  unfold previousPageStart
  split
  · exact respects_refl v
  · refine respects_via v _ _ ?_
    exact (updatePageInfo_rest _).1

theorem nextPageStart_respects (v : PDFViewer) : v.RespectsFlag v.nextPageStart := by
  unfold nextPageStart
  split
  · exact respects_refl v
  · refine respects_via v _ _ ?_
    exact (updatePageInfo_rest _).1

theorem handleFileSelectResume_respects (v : PDFViewer) (f : File) :
    v.RespectsFlag (v.handleFileSelectResume f) := by
  unfold handleFileSelectResume
  cases f.decode with
  | none =>
    constructor
    · intro h; exact ⟨h, rfl⟩
    · intro h; exact Or.inl ⟨h, rfl⟩
  | some doc =>
    refine respects_via v _ _ ?_
    exact (updatePageInfo_rest _).1

theorem handleFileSelectStart_flag (v : PDFViewer) (file : Option File) :
    (v.handleFileSelectStart file).1.pageRendering = v.pageRendering := by
  cases file with
  | none => rfl
  | some f =>
    by_cases htype : f.type = "application/pdf"
    · simp [handleFileSelectStart, htype, emit, renderLoadingCanvas]
    · simp [handleFileSelectStart, htype, emit]

theorem listenStart_respects (v : PDFViewer) (a : UserAction) :
    v.RespectsFlag ((v.listenStart a).1, (v.listenStart a).2.2) := by
  cases a with
  | upload file =>
    have h := handleFileSelectStart_flag v file
    constructor
    · intro hb; exact ⟨h.trans hb, rfl⟩
    · intro hi; exact Or.inl ⟨h.trans hi, rfl⟩
  | prevClick => exact previousPageStart_respects v
  | nextClick => exact nextPageStart_respects v
  | keydown key =>
    unfold listenStart
    simp only
    split
    · split
      · exact previousPageStart_respects v
      · split
        · exact nextPageStart_respects v
        · exact respects_refl v
    · exact respects_refl v

theorem renderPageResume_flag (v : PDFViewer) (t : RenderTask) :
    ((v.renderPageResume t).2 = none ∧ (v.renderPageResume t).1.pageRendering = false) ∨
    ((∃ t1, (v.renderPageResume t).2 = some t1) ∧
      (v.renderPageResume t).1.pageRendering = v.pageRendering) := by
  cases t with
  | awaitingPage result n =>
    cases result with
    | none => left; simp [renderPageResume, renderPageCatch, emit]
    | some page => right; simp [renderPageResume, emit]
  | awaitingRender page n vp tr =>
    left
    cases h : page.render <;> simp [renderPageResume, renderPageCatch, emit, h]

theorem renderPage_releases (v : PDFViewer) (n : Int) (hidle : v.pageRendering = false) :
    (v.renderPage n).pageRendering = false := by
  cases hdoc : v.pdfDoc with
  | none => simp [renderPage, renderPageStart, finish, renderPageCatch, emit, hidle, hdoc]
  | some d =>
    cases hpage : d.getPage n with
    | none =>
      simp [renderPage, renderPageStart, finish, renderPageResume, renderPageCatch, emit, hidle,
        hdoc, hpage]
    | some p =>
      cases hr : p.render <;>
        simp [renderPage, renderPageStart, finish, renderPageResume, renderPageCatch, emit,
          hidle, hdoc, hpage, hr]

end PDFViewer

namespace Sys

theorem add_task_tracks (v : PDFViewer) (r : PDFViewer × Option RenderTask)
    (decoding : List File) (rendering : List RenderTask) (hr : v.RespectsFlag r)
    (h : (v.pageRendering = false ∧ rendering = []) ∨
      (v.pageRendering = true ∧ ∃ t, rendering = [t])) :
    FlagTracksRender { viewer := r.1, decoding := decoding, rendering := rendering ++ r.2.toList } := by
  rcases h with ⟨hf, hq⟩ | ⟨hf, t, hq⟩
  · rcases hr.2 hf with ⟨h1, h2⟩ | ⟨h1, t1, h2⟩
    · left; exact ⟨h1, by simp [hq, h2]⟩
    · right; exact ⟨h1, t1, by simp [hq, h2]⟩
  · obtain ⟨h1, h2⟩ := hr.1 hf
    right; exact ⟨h1, t, by simp [hq, h2]⟩

theorem step_tracks (s : Sys) (e : Event) (h : s.FlagTracksRender) :
    (s.step e).FlagTracksRender := by
  cases e with
  | user a =>
    exact add_task_tracks s.viewer ((s.viewer.listenStart a).1, (s.viewer.listenStart a).2.2) _
      s.rendering (PDFViewer.listenStart_respects s.viewer a) h
  | decodeSettles i =>
    unfold step
    simp only
    cases hget : s.decoding.get? i with
    | none => exact h
    | some f =>
      exact add_task_tracks s.viewer (s.viewer.handleFileSelectResume f) _ s.rendering
        (PDFViewer.handleFileSelectResume_respects s.viewer f) h
  | renderSettles i =>
    unfold step
    simp only
    cases hget : s.rendering.get? i with
    | none => exact h
    | some t =>
      rcases h with ⟨_, hq⟩ | ⟨hf, t0, hq⟩
      · rw [hq] at hget; simp at hget
      · have hi : i = 0 := by
          rw [hq] at hget
          cases i with
          | zero => rfl
          | succ k => simp at hget
        subst hi
        rcases PDFViewer.renderPageResume_flag s.viewer t with ⟨h2, h1⟩ | ⟨⟨t1, h2⟩, h1⟩
        · left; exact ⟨h1, by simp [hq, h2]⟩
        · right; exact ⟨h1.trans hf, t1, by simp [hq, h2]⟩

theorem run_tracks (es : List Event) (s : Sys) (h : s.FlagTracksRender) :
    (s.run es).FlagTracksRender := by
  induction es generalizing s with
  | nil => exact h
  | cons e es ih => exact ih (s.step e) (step_tracks s e h)

theorem settle_twice (s : Sys) (h : s.FlagTracksRender) :
    (s.run [Event.renderSettles 0, Event.renderSettles 0]).viewer.pageRendering = false ∧
    (s.run [Event.renderSettles 0, Event.renderSettles 0]).rendering = [] := by
  have hone : ∀ s1 : Sys, s1.FlagTracksRender →
      (∃ p n vp tr, s1.rendering = [RenderTask.awaitingRender p n vp tr]) ∨ s1.rendering = [] →
      (s1.step (Event.renderSettles 0)).viewer.pageRendering = false ∧
      (s1.step (Event.renderSettles 0)).rendering = [] := by
    intro s1 h1 hq
    rcases hq with ⟨p, n, vp, tr, hq⟩ | hq
    · cases hr : p.render <;>
        simp [step, hq, PDFViewer.renderPageResume, PDFViewer.renderPageCatch, PDFViewer.emit, hr]
    · rcases h1 with ⟨hf, _⟩ | ⟨_, t, ht⟩
      · simp [step, hq, hf]
      · rw [hq] at ht; cases ht
  have hfirst : (∃ p n vp tr, (s.step (Event.renderSettles 0)).rendering =
      [RenderTask.awaitingRender p n vp tr]) ∨ (s.step (Event.renderSettles 0)).rendering = [] := by
    rcases h with ⟨_, hq⟩ | ⟨_, t, hq⟩
    · right; simp [step, hq]
    · cases t with
      | awaitingPage result n =>
        cases result with
        | none => right; simp [step, hq, PDFViewer.renderPageResume]
        | some page =>
          left
          exact ⟨page, n, page.getViewport (PDFViewer.fitScale s.viewer.canvas page),
            [1, 0, 0, 1,
              (PDFViewer.fitOffset s.viewer.canvas
                (page.getViewport (PDFViewer.fitScale s.viewer.canvas page))).1,
              (PDFViewer.fitOffset s.viewer.canvas
                (page.getViewport (PDFViewer.fitScale s.viewer.canvas page))).2],
            by simp [step, hq, PDFViewer.renderPageResume]⟩
      | awaitingRender page n vp tr =>
        right
        cases hr : page.render <;> simp [step, hq, PDFViewer.renderPageResume, hr]
  exact hone _ (step_tracks s _ h) hfirst

end Sys

/-- C28: a `renderPage` call that starts with `pageRendering = false` ends with
`pageRendering = false` on every path (no document, page lookup rejected,
render rejected, render resolved).  In every interleaving of user actions and
settling promises the flag is set exactly while one render is suspended, and
once that render's promises have settled the flag is clear and nothing is
awaited, so a later `renderPage` call is not skipped. -/
theorem C28_flag_released (v : PDFViewer) (n : Int) (hidle : v.pageRendering = false)
    (ui : UI) (events : List Event) :
    (v.renderPage n).pageRendering = false ∧
    (((Sys.init ui).run events).viewer.pageRendering = true →
      ∃ t, ((Sys.init ui).run events).rendering = [t]) ∧
    (((Sys.init ui).run events).viewer.pageRendering = false →
      ((Sys.init ui).run events).rendering = []) ∧
    ((((Sys.init ui).run events).run
        [Event.renderSettles 0, Event.renderSettles 0]).viewer.pageRendering = false ∧
      (((Sys.init ui).run events).run
        [Event.renderSettles 0, Event.renderSettles 0]).rendering = []) := by
  have hinit : (Sys.init ui).FlagTracksRender := Or.inl ⟨rfl, rfl⟩
  have hrun := Sys.run_tracks events (Sys.init ui) hinit
  refine ⟨PDFViewer.renderPage_releases v n hidle, ?_, ?_, Sys.settle_twice _ hrun⟩
  · intro hb
    rcases hrun with ⟨hf, _⟩ | ⟨_, ht⟩
    · rw [hf] at hb; cases hb
    · exact ht
  · intro hf
    rcases hrun with ⟨_, hq⟩ | ⟨hb, _⟩
    · exact hq
    · rw [hb] at hf; cases hf

/-- C28 on the half-broken document: rendering page 2 (render rejected) and
page 3 (no such page) both end with the flag clear, and the stale run ends
with the flag clear. -/
theorem C28_flag_released_witness :
    (((PDFViewer.new emptyUI).handleFileSelect (some halfBrokenFile)).renderPage 2).pageRendering
      = false ∧
    ((Sys.init emptyUI).run staleRun).rendering = [] := by
  have h := C28_flag_released ((PDFViewer.new emptyUI).handleFileSelect (some halfBrokenFile)) 2
    (by decide) emptyUI staleRun
  exact ⟨h.1, h.2.2.1 (by decide)⟩

end Classroom
